import Mathlib

/-!
# IdleState renderer: frame pipeline, camera and texture loader

A shallow embedding of `src/main.cpp` and `src/Model.cpp`.

Conventions of the embedding.
* C++ `float` is a linearly ordered field `F` with exact arithmetic (no rounding, no NaN).
* Functions of the glm library are not part of the repository; they are the fields of `Glm F`.
* `std::sort` is not part of the repository either; it is a function argument `sort`, of which
  only the guarantee of the C++ standard (`StdSortContract`) is assumed.
* `std::map<std::string, ModelInfo>` is an association list visited in ascending key order.
* The GL calls a function issues are returned as a list of `GLCall`, in program order. Uniform
  names built with `std::to_string` are kept structured (`UniformName.pointLight i f`).
* The texture loader runs against a `LoaderEnv`: the name allocator of the GL driver and the
  image decoder `stbi_load` on the current file system. Its effect on the GL texture state is
  explicit (`GLTextures`).
* `Mesh::Draw` and `Model::Draw` return their own trace (`MeshGLCall`); a `modelDraw` entry of a
  frame trace stands for one `Model::Draw` call.
* The Assimp importer is the argument `Importer`; an `aiNode` holds its meshes and each `aiMesh`
  its material directly, in place of the indices into the arrays of the scene.
-/

namespace IdleState

/-! ## Vectors and external math (glm) -/

/-- Embeds `glm::vec3`. -/
structure Vec3 (F : Type) where
  x : F
  y : F
  z : F
deriving DecidableEq, Repr

/-- Embeds `glm::vec3(s)`: all three components equal to `s`. -/
def Vec3.splat {F : Type} (s : F) : Vec3 F := ⟨s, s, s⟩

/-- Embeds `operator-` on `glm::vec3`. -/
def Vec3.sub {F : Type} [Sub F] (a b : Vec3 F) : Vec3 F := ⟨a.x - b.x, a.y - b.y, a.z - b.z⟩

instance {F : Type} [Sub F] : Sub (Vec3 F) := ⟨Vec3.sub⟩

/-- The functions of glm and `<cmath>` that the program calls. -/
structure Glm (F : Type) where
  length : Vec3 F → F
  normalize : Vec3 F → Vec3 F
  sin : F → F
  cos : F → F
  radians : F → F

/-! ## Model data (Model.h, Mesh.cpp) -/

/-- Embeds `Texture` (Mesh.h, as used in Model.cpp and Mesh.cpp): GPU handle, role name, source path. -/
structure Texture where
  id : Nat
  type : String
  path : String
deriving DecidableEq, Repr

/-- Embeds `Mesh`, as far as `Model` is concerned: the index list and the texture references. -/
structure Mesh where
  indices : List Nat
  textures : List Texture
deriving DecidableEq, Repr

/-- Embeds `class Model` (Model.h). -/
structure Model where
  textures_loaded : List Texture
  meshes : List Mesh
  directory : String
  gammaCorrection : Bool
deriving DecidableEq, Repr

/-! ## Scene registry (main.cpp) -/

/-- Embeds `struct ModelInfo`; `model = none` is the null pointer. -/
structure ModelInfo (F : Type) where
  model : Option Model
  position : Vec3 F
  rotation : Vec3 F
  scale : Vec3 F
  isTransparent : Bool
  isGlass : Bool
deriving DecidableEq, Repr

/-- The call `ModelInfo(m)`: the other constructor arguments take their defaults
`vec3(0), vec3(0), vec3(1), false, false`. -/
def ModelInfo.ofModel {F : Type} [Zero F] [One F] (m : Option Model) : ModelInfo F :=
  ⟨m, Vec3.splat 0, Vec3.splat 0, Vec3.splat 1, false, false⟩

/-- Embeds `std::map<std::string, ModelInfo>`: the entries in iteration (ascending key) order. -/
abbrev Registry (F : Type) := List (String × ModelInfo F)

/-- Embeds `struct TransparentObject`. The pointer `modelInfo` is the registry entry it points to. -/
structure TransparentObject (F : Type) where
  modelInfo : ModelInfo F
  name : String
  distance : F
deriving DecidableEq, Repr

/-- Embeds `TransparentObject::operator<`: `distance > other.distance` (sort far to near). -/
def TransparentObject.lt {F : Type} [LT F] [DecidableRel (fun a b : F => a < b)]
    (a other : TransparentObject F) : Bool :=
  decide (a.distance > other.distance)

/-- What the C++ standard guarantees of `std::sort(first, last)` with comparison `lt`: the result
is a rearrangement of the input in which no element is `lt` an earlier one. The relative order of
equivalent elements is not specified. -/
def StdSortContract {α : Type} (lt : α → α → Bool) (sort : List α → List α) : Prop :=
  ∀ l : List α, (sort l).Perm l ∧ (sort l).Pairwise (fun a b => lt b a = false)

/-! ## GL call traces -/

/-- The fields of one `pointLights[i]` uniform struct. -/
inductive PointLightField
  | position | ambient | diffuse | specular | constant | linear | quadratic | enabled
deriving DecidableEq, Repr

/-- Uniform names. `lit s` is a literal name; `pointLight i f` is the name that the program
builds as `"pointLights[" + std::to_string(i) + "]." + f`. -/
inductive UniformName
  | lit (s : String)
  | pointLight (i : Int) (f : PointLightField)
deriving DecidableEq, Repr

/-- The shader program as the renderer sees it: which uniform names resolve to a location.
`hasUniform n = false` means `glGetUniformLocation(program, n) == -1`. -/
structure Shader where
  program : Nat
  hasUniform : UniformName → Bool

/-- GL calls issued by the renderer. `uniform* n v` is
`glUniform*(glGetUniformLocation(p, n), v)`; `uniformModel` uploads the model matrix
`translate * rotateX * rotateY * rotateZ * scale`, which is a function of the three vectors;
`modelDraw` is `modelInfo.model->Draw(program)` for the registry entry of that name. -/
inductive GLCall (F : Type)
  | uniform1i (n : UniformName) (v : Int)
  | uniform1f (n : UniformName) (v : F)
  | uniform3f (n : UniformName) (v : Vec3 F)
  | uniformModel (n : UniformName) (position rotation scale : Vec3 F)
  | depthMask (flag : Bool)
  | modelDraw (program : Nat) (name : String) (info : ModelInfo F)
deriving Repr

/-- The registry entries drawn by a trace, in order. -/
def drawnObjects {F : Type} : List (GLCall F) → List (String × ModelInfo F)
  | [] => []
  | GLCall.modelDraw _ name info :: rest => (name, info) :: drawnObjects rest
  | _ :: rest => drawnObjects rest

/-! ## renderTransparentObjects (main.cpp 148-197) -/

section Render
variable {F : Type} [LinearOrderedField F]

/-- The first loop of `renderTransparentObjects`: the vector `transparentObjects` before sorting. -/
def collectTransparent (glm : Glm F) (models : Registry F) (cameraPos : Vec3 F)
    (glassOnly : Bool) : List (TransparentObject F) :=
  match models with
  | [] => []
  | pair :: rest =>
    let modelInfo := pair.2
    if !modelInfo.isTransparent then collectTransparent glm rest cameraPos glassOnly
    else if glassOnly && !modelInfo.isGlass then collectTransparent glm rest cameraPos glassOnly
    else if !glassOnly && modelInfo.isGlass then collectTransparent glm rest cameraPos glassOnly
    else if modelInfo.model.isNone then collectTransparent glm rest cameraPos glassOnly
    else
      let distance := glm.length (cameraPos - modelInfo.position)
      ⟨modelInfo, pair.1, distance⟩ :: collectTransparent glm rest cameraPos glassOnly

/-- The body of the second loop of `renderTransparentObjects` for one sorted object. -/
def drawTransparentObject (shader : Shader) (isGlassLocation : Bool)
    (obj : TransparentObject F) : List (GLCall F) :=
  let modelInfo := obj.modelInfo
  let c1 : List (GLCall F) :=
    if isGlassLocation then
      [GLCall.uniform1i (.lit "isGlass") (if modelInfo.isGlass then 1 else 0)]
    else []
  let shininess : F := if modelInfo.isGlass then 96 else 32
  let c2 : List (GLCall F) := [GLCall.uniform1f (.lit "material.shininess") shininess]
  let amb : Vec3 F :=
    if modelInfo.isGlass then ⟨5 / 100, 5 / 100, 8 / 100⟩ else ⟨2 / 100, 3 / 100, 1 / 100⟩
  let spec : Vec3 F :=
    if modelInfo.isGlass then ⟨7 / 10, 7 / 10, 8 / 10⟩ else ⟨5 / 100, 5 / 100, 5 / 100⟩
  let c3 : List (GLCall F) :=
    if shader.hasUniform (.lit "material.ambient") then
      [GLCall.uniform3f (.lit "material.ambient") amb]
    else []
  let c4 : List (GLCall F) :=
    if shader.hasUniform (.lit "material.specular") then
      [GLCall.uniform3f (.lit "material.specular") spec]
    else []
  c1 ++ c2 ++ c3 ++ c4 ++
    [GLCall.uniformModel (.lit "model") modelInfo.position modelInfo.rotation modelInfo.scale,
     GLCall.modelDraw shader.program obj.name modelInfo]

/-- Embeds `renderTransparentObjects(shaderProgram, models, cameraPos, isGlassLocation,
glassOnly)`. `isGlassLocation` is `true` when the location passed in is not -1. -/
def renderTransparentObjects (glm : Glm F)
    (sort : List (TransparentObject F) → List (TransparentObject F))
    (shader : Shader) (models : Registry F) (cameraPos : Vec3 F)
    (isGlassLocation : Bool) (glassOnly : Bool) : List (GLCall F) :=
  let transparentObjects := sort (collectTransparent glm models cameraPos glassOnly)
  transparentObjects.flatMap (drawTransparentObject shader isGlassLocation)

end Render

/-! ## Drone camera (main.cpp 41-86, 215-230) -/

/-- Embeds `operator+` on `glm::vec3`. -/
def Vec3.add {F : Type} [Add F] (a b : Vec3 F) : Vec3 F := ⟨a.x + b.x, a.y + b.y, a.z + b.z⟩

instance {F : Type} [Add F] : Add (Vec3 F) := ⟨Vec3.add⟩

/-- Embeds `operator*` of a `glm::vec3` by a scalar. -/
def Vec3.scale {F : Type} [Mul F] (a : Vec3 F) (s : F) : Vec3 F := ⟨a.x * s, a.y * s, a.z * s⟩

/-- Embeds `glm::cross`. -/
def Vec3.cross {F : Type} [Mul F] [Sub F] (a b : Vec3 F) : Vec3 F :=
  ⟨a.y * b.z - b.y * a.z, a.z * b.x - b.z * a.x, a.x * b.y - b.x * a.y⟩

/-- Embeds `struct Drone`. -/
structure Drone (F : Type) where
  position : Vec3 F
  front : Vec3 F
  up : Vec3 F
  yaw : F
  pitch : F
  speed : F
deriving DecidableEq, Repr

/-- Embeds `struct KeyboardState`. -/
structure KeyboardState where
  forward : Bool
  backward : Bool
  left : Bool
  right : Bool
  up : Bool
  down : Bool
  rotateLeft : Bool
  rotateRight : Bool
  lookUp : Bool
  lookDown : Bool
deriving DecidableEq, Repr

section DroneOps
variable {F : Type} [LinearOrderedField F]

/-- The member initialisers of `struct Drone`: the state of the global `drone` at start. -/
def Drone.initial : Drone F :=
  { position := ⟨0, 17 / 10, 10⟩, front := ⟨0, 0, -1⟩, up := ⟨0, 1, 0⟩,
    yaw := -90, pitch := 0, speed := 5 }

/-- Embeds `Drone::updateFront`. -/
def Drone.updateFront (glm : Glm F) (d : Drone F) : Drone F :=
  let direction : Vec3 F :=
    ⟨glm.cos (glm.radians d.yaw) * glm.cos (glm.radians d.pitch),
     glm.sin (glm.radians d.pitch),
     glm.sin (glm.radians d.yaw) * glm.cos (glm.radians d.pitch)⟩
  { d with front := glm.normalize direction }

/-- Embeds `Drone::rotateYaw`. -/
def Drone.rotateYaw (glm : Glm F) (d : Drone F) (offset : F) : Drone F :=
  Drone.updateFront glm { d with yaw := d.yaw + offset }

/-- Embeds `Drone::rotatePitch`. -/
def Drone.rotatePitch (glm : Glm F) (d : Drone F) (offset : F) : Drone F :=
  let pitch := d.pitch + offset
  let pitch := if pitch > 89 then 89 else pitch
  let pitch := if pitch < -89 then -89 else pitch
  Drone.updateFront glm { d with pitch := pitch }

/-- Embeds `Drone::reset`. -/
def Drone.reset (glm : Glm F) (d : Drone F) : Drone F :=
  Drone.updateFront glm
    { d with position := ⟨0, 17 / 10, 10⟩, front := ⟨0, 0, -1⟩, up := ⟨0, 1, 0⟩,
             yaw := -90, pitch := 0 }

/-- Embeds `processInput`, on the globals `drone`, `keys` and `deltaTime`. The six movement statements
assign to `drone.position` only; the four rotation statements call the drone's methods. -/
def processInput (glm : Glm F) (keys : KeyboardState) (deltaTime : F) (drone : Drone F) :
    Drone F :=
  let currentSpeed := drone.speed * deltaTime
  let rotationSpeed := 50 * deltaTime
  let position := drone.position
  let position := if keys.forward then position + drone.front.scale currentSpeed else position
  let position := if keys.backward then position - drone.front.scale currentSpeed else position
  let position := if keys.left then
    position - (glm.normalize (drone.front.cross drone.up)).scale currentSpeed else position
  let position := if keys.right then
    position + (glm.normalize (drone.front.cross drone.up)).scale currentSpeed else position
  let position := if keys.up then position + drone.up.scale currentSpeed else position
  let position := if keys.down then position - drone.up.scale currentSpeed else position
  let drone := { drone with position := position }
  let drone := if keys.rotateLeft then drone.rotateYaw glm (-rotationSpeed) else drone
  let drone := if keys.rotateRight then drone.rotateYaw glm rotationSpeed else drone
  let drone := if keys.lookUp then drone.rotatePitch glm rotationSpeed else drone
  let drone := if keys.lookDown then drone.rotatePitch glm (-rotationSpeed) else drone
  drone

end DroneOps

/-- One thing that can happen to the global `drone`: a call of one of its mutating methods, or
one frame of `processInput` with some key state and frame time. -/
inductive DroneCall (F : Type)
  | rotatePitch (offset : F)
  | rotateYaw (offset : F)
  | reset
  | processInput (keys : KeyboardState) (deltaTime : F)

/-- Apply one call to the drone. -/
def DroneCall.apply {F : Type} [LinearOrderedField F] (glm : Glm F) (d : Drone F) :
    DroneCall F → Drone F
  | .rotatePitch offset => d.rotatePitch glm offset
  | .rotateYaw offset => d.rotateYaw glm offset
  | .reset => d.reset glm
  | .processInput keys deltaTime => IdleState.processInput glm keys deltaTime d

/-- Apply a finite sequence of calls, first to last. -/
def Drone.run {F : Type} [LinearOrderedField F] (glm : Glm F) (d : Drone F)
    (calls : List (DroneCall F)) : Drone F :=
  calls.foldl (DroneCall.apply glm) d

/-- The pitch range that the drone keeps. -/
def Drone.PitchInRange {F : Type} [LinearOrderedField F] (d : Drone F) : Prop :=
  -89 ≤ d.pitch ∧ d.pitch ≤ 89

/-! ## Point-light uniform assembly (main.cpp 268-270, 444-690) -/

/-- The data that differ between the twenty hand-written point-light blocks of `main`. -/
structure PointLightData (F : Type) where
  position : Vec3 F
  linear : F
  quadratic : F
deriving DecidableEq, Repr

section Lights
variable {F : Type} [LinearOrderedField F]

/-- The twenty blocks "Light 1" to "Light 20", in program order. -/
def staticPointLights : List (PointLightData F) := [
  ⟨⟨154029 / 1000000, -(21925095 / 1000000), -(22325785 / 1000000)⟩, 22 / 1000, 19 / 10000⟩,
  ⟨⟨-(30696480 / 1000000), -(21925095 / 1000000), -(22325785 / 1000000)⟩, 22 / 1000, 19 / 10000⟩,
  ⟨⟨-(65954384 / 1000000), -(21925095 / 1000000), -(22325785 / 1000000)⟩, 14 / 1000, 7 / 10000⟩,
  ⟨⟨-(1367252 / 1000000), 17311728 / 1000000, -(22325785 / 1000000)⟩, 22 / 1000, 19 / 10000⟩,
  ⟨⟨-(32221157 / 1000000), 17290623 / 1000000, -(22325785 / 1000000)⟩, 14 / 1000, 7 / 10000⟩,
  ⟨⟨-(67484856 / 1000000), 17297579 / 1000000, -(22325785 / 1000000)⟩, 7 / 1000, 2 / 10000⟩,
  ⟨⟨29528439 / 1000000, 17187288 / 1000000, -(22325785 / 1000000)⟩, 14 / 1000, 7 / 10000⟩,
  ⟨⟨403565 / 1000000, 16272787 / 1000000, -(23359404 / 1000000)⟩, 22 / 1000, 19 / 10000⟩,
  ⟨⟨-(30437645 / 1000000), 16273632 / 1000000, -(23359404 / 1000000)⟩, 14 / 1000, 7 / 10000⟩,
  ⟨⟨-(1605055 / 1000000), 16320671 / 1000000, -(23359404 / 1000000)⟩, 22 / 1000, 19 / 10000⟩,
  ⟨⟨31253157 / 1000000, 16073551 / 1000000, -(23359404 / 1000000)⟩, 14 / 1000, 7 / 10000⟩,
  ⟨⟨73030205 / 1000000, 29086636 / 1000000, 262677 / 1000000⟩, 7 / 1000, 2 / 10000⟩,
  ⟨⟨73030205 / 1000000, 37828785 / 1000000, 262677 / 1000000⟩, 7 / 1000, 2 / 10000⟩,
  ⟨⟨73030205 / 1000000, 5471813 / 1000000, 262677 / 1000000⟩, 14 / 1000, 7 / 10000⟩,
  ⟨⟨-(97400917 / 1000000), 19527908 / 1000000, -(29851522 / 1000000)⟩, 7 / 1000, 2 / 10000⟩,
  ⟨⟨-(66798378 / 1000000), 6912896 / 1000000, -(28229601 / 1000000)⟩, 14 / 1000, 7 / 10000⟩,
  ⟨⟨-(44519119 / 1000000), -(1154248 / 1000000), 16305470 / 1000000⟩, 22 / 1000, 19 / 10000⟩,
  ⟨⟨31984005 / 1000000, -(1154248 / 1000000), 16305470 / 1000000⟩, 22 / 1000, 19 / 10000⟩,
  ⟨⟨-(6326900 / 1000000), -(1154248 / 1000000), 16305470 / 1000000⟩, 22 / 1000, 19 / 10000⟩,
  ⟨⟨-(44519119 / 1000000), -(1154248 / 1000000), 15305470 / 1000000⟩, 22 / 1000, 19 / 10000⟩
]

/-- One block `if (activePointLights < MAX_POINT_LIGHTS_SUPPORTED) { ... activePointLights++; }`:
the eight uniform writes for slot `activePointLights`. -/
def pointLightBlock (light : PointLightData F) (activePointLights : Int) : List (GLCall F) :=
  [GLCall.uniform3f (.pointLight activePointLights .position) light.position,
   GLCall.uniform3f (.pointLight activePointLights .ambient) (Vec3.splat (2 / 10000)),
   GLCall.uniform3f (.pointLight activePointLights .diffuse) (Vec3.splat (5 / 100)),
   GLCall.uniform3f (.pointLight activePointLights .specular) (Vec3.splat (1 / 10)),
   GLCall.uniform1f (.pointLight activePointLights .constant) 1,
   GLCall.uniform1f (.pointLight activePointLights .linear) light.linear,
   GLCall.uniform1f (.pointLight activePointLights .quadratic) light.quadratic,
   GLCall.uniform1i (.pointLight activePointLights .enabled) 1]

/-- The sequence of guarded blocks, threading `activePointLights`; returns its final value and
the calls issued. -/
def pointLightBlocks (maxSupported : Int) :
    List (PointLightData F) → Int → Int × List (GLCall F)
  | [], activePointLights => (activePointLights, [])
  | light :: rest, activePointLights =>
    if activePointLights < maxSupported then
      let r := pointLightBlocks maxSupported rest (activePointLights + 1)
      (r.1, pointLightBlock light activePointLights ++ r.2)
    else pointLightBlocks maxSupported rest activePointLights

/-- The loop `for (int i = activePointLights; i < MAX_POINT_LIGHTS_SUPPORTED; ++i)` that writes
`pointLights[i].enabled = 0`. -/
def disablePointLights (activePointLights maxSupported : Int) : List (GLCall F) :=
  (List.range (maxSupported - activePointLights).toNat).map
    (fun (k : Nat) => GLCall.uniform1i (.pointLight (activePointLights + (k : Int)) .enabled) 0)

/-- The point-light setup of one frame, for a value `maxSupported` of
`MAX_POINT_LIGHTS_SUPPORTED` (20 in the source). -/
def pointLightSetup (maxSupported : Int) : List (GLCall F) :=
  let r := pointLightBlocks maxSupported (staticPointLights : List (PointLightData F)) 0
  r.2 ++ [GLCall.uniform1i (.lit "numPointLights") r.1] ++ disablePointLights r.1 maxSupported

end Lights

/-- The uniform name a call writes to, if it is a uniform write. -/
def GLCall.target {F : Type} : GLCall F → Option UniformName
  | .uniform1i n _ => some n
  | .uniform1f n _ => some n
  | .uniform3f n _ => some n
  | .uniformModel n _ _ _ => some n
  | .depthMask _ => none
  | .modelDraw _ _ _ => none

/-- The writes of a trace to the uniform `n`, in order. -/
def writesTo {F : Type} (n : UniformName) (trace : List (GLCall F)) : List (GLCall F) :=
  trace.filter (fun c => decide (c.target = some n))

/-! ## Registry construction (main.cpp 317-342) -/

/-- Embeds `operator<` of `std::string` on character lists: lexicographic comparison of the character
codes, a proper prefix being smaller. -/
def stringLess : List Char → List Char → Bool
  | [], [] => false
  | [], _ :: _ => true
  | _ :: _, [] => false
  | a :: as, b :: bs =>
    if a.toNat < b.toNat then true
    else if b.toNat < a.toNat then false
    else stringLess as bs

/-- Embeds `models[name] = info` on the map: replaces the value of an existing key, and otherwise
inserts the entry at its place in ascending key order. -/
def Registry.assign {F : Type} (models : Registry F) (name : String) (info : ModelInfo F) :
    Registry F :=
  match models with
  | [] => [(name, info)]
  | (k, v) :: rest =>
    if stringLess name.data k.data then (name, info) :: (k, v) :: rest
    else if name = k then (k, info) :: rest
    else (k, v) :: Registry.assign rest name info

/-- The vector `modelNames` of `main`. -/
def modelNames : List String :=
  ["BackWall", "Barstools", "BarTables", "BlueCouches", "BrownChairs", "CharcoalChairs",
   "CircleSofas", "CoffeeTables", "Cubicles", "Dividers", "EntranceWall", "GreyChairs",
   "ITLabsLeft", "ITLabsRight", "Kiosk", "LabWallsLeft", "LabWallsRight", "LabWindowFrames",
   "MainFloor", "MiniCoffeeTable", "Railings", "RoofFraming", "Underflooring", "WallDecorLeft",
   "WallDecorRight", "CoffeeMachine", "CashRegister", "OtherLights", "Lights", "Cans",
   "PopcornMachine"]

section Scene
variable {F : Type} [LinearOrderedField F]

/-- The loop `for (const auto& name : modelNames)` inside the `try` block. `newModel path` is
`new Model(path)`, with `none` when the constructor throws. Returns the map and whether the loop
ran to its end (`false`: an exception left the `try` block). -/
def loadNamedModels (newModel : String → Option Model) :
    List String → Registry F → Registry F × Bool
  | [], models => (models, true)
  | name :: rest, models =>
    let modelPath := "models/" ++ name ++ ".obj"
    match newModel modelPath with
    | none => (models, false)
    | some loadedModel =>
      loadNamedModels newModel rest (models.assign name (ModelInfo.ofModel (some loadedModel)))

/-- The `try` block of `main` that fills `models`; the `catch` only prints. -/
def loadScene (newModel : String → Option Model) : Registry F :=
  let r := loadNamedModels newModel modelNames ([] : Registry F)
  let models := r.1
  if !r.2 then models else
  match newModel "models/Plants.obj" with
  | none => models
  | some plantsModel =>
    let models := models.assign "Plants"
      ⟨some plantsModel, Vec3.splat 0, Vec3.splat 0, Vec3.splat 1, true, false⟩
    match newModel "models/AllGlass.obj" with
    | none => models
    | some windowsModel =>
      let models := models.assign "Windows"
        ⟨some windowsModel, Vec3.splat 0, Vec3.splat 0, Vec3.splat 1, true, true⟩
      match newModel "models/GlassPanels.obj" with
      | none => models
      | some glassPanelsModel =>
        models.assign "GlassPanels"
          ⟨some glassPanelsModel, Vec3.splat 0, Vec3.splat 0, Vec3.splat 1, true, true⟩

end Scene

/-- The classification invariant of the registry: glass implies transparent. -/
def GlassImpliesTransparent {F : Type} (models : Registry F) : Prop :=
  ∀ e ∈ models, e.2.isGlass = true → e.2.isTransparent = true

/-! ## Depth pass and opaque pass (main.cpp 393-405, 697-720) -/

/-- Embeds `s.find(pat) != std::string::npos` on character lists: `pat` occurs in `s`. -/
def containsSubstr : List Char → List Char → Bool
  | [], pat => pat.isEmpty
  | c :: rest, pat => pat.isPrefixOf (c :: rest) || containsSubstr rest pat

section Passes
variable {F : Type} [LinearOrderedField F]

/-- The loop of the depth pass: every entry that is not transparent and has a model gets its
model matrix uploaded and is drawn with the depth program. -/
def depthPass (depthProgram : Nat) : Registry F → List (GLCall F)
  | [] => []
  | pair :: rest =>
    let modelInfo := pair.2
    if modelInfo.isTransparent || modelInfo.model.isNone then depthPass depthProgram rest
    else
      [GLCall.uniformModel (.lit "model") modelInfo.position modelInfo.rotation modelInfo.scale,
       GLCall.modelDraw depthProgram pair.1 modelInfo] ++ depthPass depthProgram rest

/-- The shininess rule of the opaque pass. -/
def opaqueShininess (name : String) : F :=
  if containsSubstr name.data "Table".data || containsSubstr name.data "Chair".data ||
      name = "Dividers" || name = "Railings" || name = "WallDecor" then 16 else 32

/-- The loop of the forward opaque pass. -/
def opaquePass (shader : Shader) : Registry F → List (GLCall F)
  | [] => []
  | pair :: rest =>
    let modelInfo := pair.2
    if modelInfo.isTransparent || modelInfo.model.isNone then opaquePass shader rest
    else
      (if shader.hasUniform (.lit "isGlass") then [GLCall.uniform1i (.lit "isGlass") 0] else []) ++
      (if shader.hasUniform (.lit "material.shininess") then
        [GLCall.uniform1f (.lit "material.shininess") (opaqueShininess pair.1)] else []) ++
      [GLCall.uniformModel (.lit "model") modelInfo.position modelInfo.rotation modelInfo.scale,
       GLCall.modelDraw shader.program pair.1 modelInfo] ++ opaquePass shader rest

end Passes

/-! ## GL texture objects, as far as the loader uses them -/

/-- The successful result of `stbi_load(file, &width, &height, &nrComponents, 0)`. -/
structure Image where
  width : Nat
  height : Nat
  nrComponents : Nat
  data : List Nat
deriving DecidableEq, Repr

/-- The GL enumerants the texture loader passes. -/
inductive GLEnum
  | RED | GREEN | BLUE | ALPHA | ONE
  | RGB | RGBA | SRGB | SRGB_ALPHA
  | REPEAT | NEAREST | LINEAR | NEAREST_MIPMAP_LINEAR | LINEAR_MIPMAP_LINEAR
deriving DecidableEq, Repr

/-- The parameter names passed to `glTexParameteri`. -/
inductive TexParam
  | WRAP_S | WRAP_T | MIN_FILTER | MAG_FILTER | SWIZZLE_G | SWIZZLE_B | SWIZZLE_A
deriving DecidableEq, Repr

/-- The state of one 2D texture object: level-0 image and the parameters the loader sets. -/
structure TexObject where
  internalFormat : GLEnum
  width : Nat
  height : Nat
  format : GLEnum
  pixels : List Nat
  mipmaps : Bool
  wrapS : GLEnum
  wrapT : GLEnum
  minFilter : GLEnum
  magFilter : GLEnum
  swizzleG : GLEnum
  swizzleB : GLEnum
  swizzleA : GLEnum
deriving DecidableEq, Repr

/-- A texture object as GL creates it on first bind: no image, default parameters. -/
def TexObject.fresh : TexObject :=
  { internalFormat := .RGBA, width := 0, height := 0, format := .RGBA, pixels := [],
    mipmaps := false, wrapS := .REPEAT, wrapT := .REPEAT,
    minFilter := .NEAREST_MIPMAP_LINEAR, magFilter := .LINEAR,
    swizzleG := .GREEN, swizzleB := .BLUE, swizzleA := .ALPHA }

/-- The texture part of the GL context: the names in use (generated and not deleted), the
texture objects that exist, and the binding of `GL_TEXTURE_2D`. -/
structure GLTextures where
  names : List Nat
  objects : List (Nat × TexObject)
  bound : Nat
deriving DecidableEq, Repr

/-- The texture object of a name, if it exists. -/
def GLTextures.object (gl : GLTextures) (name : Nat) : Option TexObject :=
  (gl.objects.find? (fun p => p.1 == name)).map Prod.snd

/-- What the loader gets from outside the repository: the name allocator of the GL driver
(`genName used` is the name `glGenTextures` returns when `used` are the names in use) and the
image decoder on the current file system (`stbi_load file = none` when decoding fails). -/
structure LoaderEnv where
  genName : List Nat → Nat
  stbi_load : String → Option Image

/-- Embeds `glGenTextures(1, &id)`. -/
def glGenTextures (env : LoaderEnv) (gl : GLTextures) : Nat × GLTextures :=
  let id := env.genName gl.names
  (id, { gl with names := id :: gl.names })

/-- Embeds `glDeleteTextures(1, &id)`: the name is free again, its object is gone, and a binding to it
reverts to 0. -/
def glDeleteTextures (id : Nat) (gl : GLTextures) : GLTextures :=
  { names := gl.names.filter (fun n => n != id),
    objects := gl.objects.filter (fun p => p.1 != id),
    bound := if gl.bound = id then 0 else gl.bound }

/-- Embeds `glBindTexture(GL_TEXTURE_2D, id)`: creates the object on first bind. -/
def glBindTexture (id : Nat) (gl : GLTextures) : GLTextures :=
  match gl.object id with
  | some _ => { gl with bound := id }
  | none => { gl with bound := id, objects := gl.objects ++ [(id, TexObject.fresh)] }

/-- Apply a change to the object bound to `GL_TEXTURE_2D`. -/
def GLTextures.modifyBound (f : TexObject → TexObject) (gl : GLTextures) : GLTextures :=
  { gl with objects := gl.objects.map (fun p => if p.1 = gl.bound then (p.1, f p.2) else p) }

/-- Embeds `glTexImage2D(GL_TEXTURE_2D, 0, internalFormat, width, height, 0, format, GL_UNSIGNED_BYTE,
pixels)`. -/
def glTexImage2D (internalFormat : GLEnum) (width height : Nat) (format : GLEnum)
    (pixels : List Nat) (gl : GLTextures) : GLTextures :=
  gl.modifyBound (fun o => { o with internalFormat := internalFormat, width := width,
                                    height := height, format := format, pixels := pixels })

/-- Embeds `glGenerateMipmap(GL_TEXTURE_2D)`. -/
def glGenerateMipmap (gl : GLTextures) : GLTextures :=
  gl.modifyBound (fun o => { o with mipmaps := true })

/-- Embeds `glTexParameteri(GL_TEXTURE_2D, pname, value)`. -/
def glTexParameteri (pname : TexParam) (value : GLEnum) (gl : GLTextures) : GLTextures :=
  gl.modifyBound (fun o =>
    match pname with
    | .WRAP_S => { o with wrapS := value }
    | .WRAP_T => { o with wrapT := value }
    | .MIN_FILTER => { o with minFilter := value }
    | .MAG_FILTER => { o with magFilter := value }
    | .SWIZZLE_G => { o with swizzleG := value }
    | .SWIZZLE_B => { o with swizzleB := value }
    | .SWIZZLE_A => { o with swizzleA := value })

/-! ## TextureFromFile and createDefaultTexture (Model.cpp 164-294) -/

/-- The array `checkerboard` of `createDefaultTexture`. -/
def checkerboard : List Nat :=
  [200, 200, 200, 255, 50, 50, 50, 255,
   50, 50, 50, 255, 200, 200, 200, 255]

/-- Embeds `createDefaultTexture()`: returns the new texture name. -/
def createDefaultTexture (env : LoaderEnv) (gl : GLTextures) : Nat × GLTextures :=
  let r := glGenTextures env gl
  let textureID := r.1
  let gl := r.2
  let gl := glBindTexture textureID gl
  let gl := glTexImage2D .RGBA 2 2 .RGBA checkerboard gl
  let gl := glTexParameteri .WRAP_S .REPEAT gl
  let gl := glTexParameteri .WRAP_T .REPEAT gl
  let gl := glTexParameteri .MIN_FILTER .NEAREST gl
  let gl := glTexParameteri .MAG_FILTER .NEAREST gl
  (textureID, gl)

/-- Embeds `s.find_last_of(chars)` on character lists; `none` is `npos`. -/
def find_last_of : List Char → List Char → Option Nat
  | [], _ => none
  | c :: rest, chars =>
    match find_last_of rest chars with
    | some i => some (i + 1)
    | none => if c ∈ chars then some 0 else none

/-- Embeds `s.substr(pos)`. -/
def substr (s : String) (pos : Nat) : String := ⟨s.data.drop pos⟩

/-- The first part of `TextureFromFile` (lines 166-183): the file name tried first. -/
def resolveFilename (path : String) (directory : String) : String :=
  let filename := path
  let isAbsolute := decide (':' ∈ filename.data) || decide (filename.data.head? = some '/')
  if isAbsolute then
    match find_last_of filename.data ['/', '\\'] with
    | some lastSlash =>
      let justFilename := substr filename (lastSlash + 1)
      directory ++ "/textures/" ++ justFilename
    | none => directory ++ "/" ++ filename
  else directory ++ "/" ++ filename

/-- The decode attempts of `TextureFromFile` (lines 191-208): the primary file name, then
`directory/textures/path`, then `directory/textures/<name after the last separator>`. Returns
the decoded image, if any, and the file names passed to `stbi_load`, in order. -/
def loadWithAlternates (env : LoaderEnv) (path : String) (directory : String)
    (filename : String) : Option Image × List String :=
  match env.stbi_load filename with
  | some data => (some data, [filename])
  | none =>
    let altPath := directory ++ "/textures/" ++ path
    match env.stbi_load altPath with
    | some data => (some data, [filename, altPath])
    | none =>
      match find_last_of path.data ['/', '\\'] with
      | some lastSlash =>
        let justFilename := substr path (lastSlash + 1)
        let altPath2 := directory ++ "/textures/" ++ justFilename
        (env.stbi_load altPath2, [filename, altPath, altPath2])
      | none => (none, [filename, altPath])

/-- The pair `(format, internalFormat)` chosen from the channel count; `none` is the
"Unsupported texture format" branch. -/
def textureFormats (nrComponents : Nat) (gamma : Bool) : Option (GLEnum × GLEnum) :=
  if nrComponents = 1 then some (.RED, .RED)
  else if nrComponents = 3 then some (.RGB, if gamma then .SRGB else .RGB)
  else if nrComponents = 4 then some (.RGBA, if gamma then .SRGB_ALPHA else .RGBA)
  else none

/-- What a call of `TextureFromFile` returns and does: the returned name, the GL texture state
after the call, and the file names it passed to `stbi_load`. -/
structure TextureFromFileResult where
  id : Nat
  gl : GLTextures
  attempts : List String
deriving DecidableEq, Repr

/-- Embeds `TextureFromFile(path, directory, gamma)`. -/
def TextureFromFile (env : LoaderEnv) (path : String) (directory : String) (gamma : Bool)
    (gl : GLTextures) : TextureFromFileResult :=
  let filename := resolveFilename path directory
  let r := glGenTextures env gl
  let textureID := r.1
  let gl := r.2
  let loaded := loadWithAlternates env path directory filename
  match loaded.1 with
  | some data =>
    match textureFormats data.nrComponents gamma with
    | some (format, internalFormat) =>
      let gl := glBindTexture textureID gl
      let gl := glTexImage2D internalFormat data.width data.height format data.data gl
      let gl := glGenerateMipmap gl
      let gl := glTexParameteri .WRAP_S .REPEAT gl
      let gl := glTexParameteri .WRAP_T .REPEAT gl
      let gl := glTexParameteri .MIN_FILTER .LINEAR_MIPMAP_LINEAR gl
      let gl := glTexParameteri .MAG_FILTER .LINEAR gl
      let gl :=
        if data.nrComponents = 1 then
          glTexParameteri .SWIZZLE_A .ONE
            (glTexParameteri .SWIZZLE_B .RED (glTexParameteri .SWIZZLE_G .RED gl))
        else gl
      ⟨textureID, gl, loaded.2⟩
    | none =>
      let gl := glDeleteTextures textureID gl
      let d := createDefaultTexture env gl
      ⟨d.1, d.2, loaded.2⟩
  | none =>
    let gl := glDeleteTextures textureID gl
    let d := createDefaultTexture env gl
    ⟨d.1, d.2, loaded.2⟩

/-! ## Model::loadMaterialTextures (Model.cpp 125-161) -/

/-- The `aiTextureType` values that `processMesh` asks for. -/
inductive aiTextureType
  | DIFFUSE | SPECULAR | HEIGHT | AMBIENT
deriving DecidableEq, Repr

/-- An `aiMaterial`, as the loader reads it: `textures type` lists the paths that
`GetTexture(type, i, &str)` yields for `i = 0 .. GetTextureCount(type) - 1`. -/
structure aiMaterial where
  textures : aiTextureType → List String

/-- The variables of `loadMaterialTextures` that change in its loop: the vector `textures` being
returned, the member `textures_loaded`, the GL texture state, and (for the record) the `path`
argument of every `TextureFromFile` call made so far. -/
structure LoadState where
  textures : List Texture
  textures_loaded : List Texture
  gl : GLTextures
  decodes : List String
deriving DecidableEq, Repr

/-- One iteration of the outer loop of `loadMaterialTextures`, for the path `str`. The inner loop
returns the first cached texture whose `path` equals `str` (`strcmp(...) == 0`). -/
def loadMaterialTexture (env : LoaderEnv) (directory : String) (typeName : String)
    (st : LoadState) (str : String) : LoadState :=
  match st.textures_loaded.find? (fun t => t.path == str) with
  | some cached => { st with textures := st.textures ++ [cached] }
  | none =>
    let r := TextureFromFile env str directory false st.gl
    let texture : Texture := { id := r.id, type := typeName, path := str }
    { textures := st.textures ++ [texture],
      textures_loaded := st.textures_loaded ++ [texture],
      gl := r.gl,
      decodes := st.decodes ++ [str] }

/-- What a call of `Model::loadMaterialTextures` returns and does. -/
structure LoadResult where
  textures : List Texture
  model : Model
  gl : GLTextures
  decodes : List String
deriving DecidableEq, Repr

/-- Embeds `Model::loadMaterialTextures(mat, type, typeName)` on the model `model`. -/
def Model.loadMaterialTextures (env : LoaderEnv) (model : Model) (gl : GLTextures)
    (mat : aiMaterial) (type : aiTextureType) (typeName : String) : LoadResult :=
  let st := (mat.textures type).foldl (loadMaterialTexture env model.directory typeName)
    { textures := [], textures_loaded := model.textures_loaded, gl := gl, decodes := [] }
  { textures := st.textures,
    model := { model with textures_loaded := st.textures_loaded },
    gl := st.gl,
    decodes := st.decodes }

/-- A texture request: the arguments of one `loadMaterialTextures` call. -/
structure TextureRequest where
  mat : aiMaterial
  type : aiTextureType
  typeName : String

/-- A finite sequence of `loadMaterialTextures` calls on one model, first to last: the textures
returned by all calls (concatenated), the model and GL state at the end, and the `path` argument
of every `TextureFromFile` call made. -/
def Model.loadSequence (env : LoaderEnv) (model : Model) (gl : GLTextures) :
    List TextureRequest → LoadResult
  | [] => { textures := [], model := model, gl := gl, decodes := [] }
  | req :: rest =>
    let r := model.loadMaterialTextures env gl req.mat req.type req.typeName
    let r2 := Model.loadSequence env r.model r.gl rest
    { textures := r.textures ++ r2.textures, model := r2.model, gl := r2.gl,
      decodes := r.decodes ++ r2.decodes }

/-- The paths asked for by a sequence of requests, in order. -/
def requestedPaths (reqs : List TextureRequest) : List String :=
  reqs.flatMap (fun req => req.mat.textures req.type)

/-! ## Mesh::Draw and Model::Draw (Mesh.cpp 12-87, Model.cpp 20-23) -/

/-- The GL calls `Mesh::Draw` issues. `uniform1i n v` is a `glUniform1i` on the location of the
uniform named `n`, issued only when that location is not -1; `bindVertexArray true` binds the
VAO of the mesh and `bindVertexArray false` binds 0; `drawElements count` is
`glDrawElements(GL_TRIANGLES, count, GL_UNSIGNED_INT, 0)`. -/
inductive MeshGLCall
  | activeTexture (unit : Nat)
  | uniform1i (n : String) (v : Nat)
  | bindTexture (id : Nat)
  | bindVertexArray (own : Bool)
  | drawElements (count : Nat)
deriving DecidableEq, Repr

/-- The part of one iteration of the texture loop of `Mesh::Draw` after `number` is chosen
(lines 29-52), for the texture `tex` at index `i`. -/
def bindMeshTexture (shader : Shader) (tex : Texture) (i : Nat) (number : String) :
    List MeshGLCall :=
  let uniformName := "material." ++ tex.type ++ number
  if tex.id = 0 then []
  else
    (if shader.hasUniform (.lit uniformName) then [MeshGLCall.uniform1i uniformName i]
     else []) ++ [MeshGLCall.bindTexture tex.id]

/-- The texture loop of `Mesh::Draw` from index `i` on, with the current counters; returns the
final `diffuseNr`, the final `specularNr` and the calls issued. The counters are `unsigned int`
in the source and natural numbers here. -/
def drawMeshTextures (shader : Shader) :
    List Texture → Nat → Nat → Nat → Nat × Nat × List MeshGLCall
  | [], _, diffuseNr, specularNr => (diffuseNr, specularNr, [])
  | tex :: rest, i, diffuseNr, specularNr =>
    if tex.type = "texture_diffuse" then
      let r := drawMeshTextures shader rest (i + 1) (diffuseNr + 1) specularNr
      (r.1, r.2.1,
        MeshGLCall.activeTexture i :: bindMeshTexture shader tex i (toString diffuseNr) ++ r.2.2)
    else if tex.type = "texture_specular" then
      let r := drawMeshTextures shader rest (i + 1) diffuseNr (specularNr + 1)
      (r.1, r.2.1,
        MeshGLCall.activeTexture i :: bindMeshTexture shader tex i (toString specularNr) ++ r.2.2)
    else
      let r := drawMeshTextures shader rest (i + 1) diffuseNr specularNr
      (r.1, r.2.1, MeshGLCall.activeTexture i :: r.2.2)

/-- Embeds `Mesh::Draw(shaderProgram)`. -/
def Mesh.Draw (shader : Shader) (mesh : Mesh) : List MeshGLCall :=
  let r := drawMeshTextures shader mesh.textures 0 1 1
  let diffuseNr := r.1
  let defaultDiffuse : List MeshGLCall :=
    if diffuseNr = 1 then
      (if shader.hasUniform (.lit "material.texture_diffuse1") then
        [MeshGLCall.uniform1i "material.texture_diffuse1" 0] else [])
    else []
  r.2.2 ++ defaultDiffuse ++
    [MeshGLCall.bindVertexArray true, MeshGLCall.drawElements mesh.indices.length,
     MeshGLCall.bindVertexArray false, MeshGLCall.activeTexture 0]

/-- Embeds `Model::Draw(shaderProgram)`. -/
def Model.Draw (shader : Shader) (model : Model) : List MeshGLCall :=
  model.meshes.flatMap (Mesh.Draw shader)

/-- How many of the textures have the role name `role`. -/
def roleCount (role : String) (textures : List Texture) : Nat :=
  (textures.filter (fun t => t.type = role)).length

/-- What the texture loop of `Mesh::Draw` is to do for the texture at index `i`, in the words of
the specification: activate unit `i`; a diffuse or specular texture is the `k`-th of its role
among the textures up to and including index `i`, its sampler is named
`"material." + role + k`, and unless its id is 0 the sampler (if the shader has it) is set to
`i` and the texture is bound; a texture of any other role is neither named nor bound. -/
def meshTextureSpec (shader : Shader) (textures : List Texture) (i : Nat) : List MeshGLCall :=
  match textures[i]? with
  | none => []
  | some tex =>
    if tex.type = "texture_diffuse" ∨ tex.type = "texture_specular" then
      let k := roleCount tex.type (textures.take (i + 1))
      let uniformName := "material." ++ tex.type ++ toString k
      MeshGLCall.activeTexture i ::
        (if tex.id = 0 then []
         else (if shader.hasUniform (.lit uniformName) then [MeshGLCall.uniform1i uniformName i]
               else []) ++ [MeshGLCall.bindTexture tex.id])
    else [MeshGLCall.activeTexture i]

/-! ## Model construction (Model.cpp 6-123) -/

/-- An `aiMesh`, as `processMesh` reads it: the index lists of its faces and the material
`scene->mMaterials[mesh->mMaterialIndex]`. Vertex data is left out. -/
structure aiMesh where
  mFaces : List (List Nat)
  material : aiMaterial

/-- An `aiNode`: the meshes `scene->mMeshes[node->mMeshes[i]]` and the child nodes. -/
inductive aiNode where
  | node (meshes : List aiMesh) (children : List aiNode)

/-- An `aiScene`, as `loadModel` tests it: the flag `AI_SCENE_FLAGS_INCOMPLETE` and the root
node (`none` is a null `mRootNode`). -/
structure aiScene where
  incomplete : Bool
  mRootNode : Option aiNode

/-- The Assimp importer on the current file system: `ReadFile path` is `ok none` for a null
scene, `ok (some scene)` for a scene, and `error e` when an exception leaves the importer. -/
structure Importer where
  ReadFile : String → Except String (Option aiScene)

/-- Embeds `Model::processMesh`: the index list, the four `loadMaterialTextures` calls in the
order diffuse, specular, normal (`aiTextureType_HEIGHT`), height (`aiTextureType_AMBIENT`), and
the `Mesh` built from them. -/
def Model.processMesh (env : LoaderEnv) (model : Model) (gl : GLTextures) (mesh : aiMesh) :
    Mesh × Model × GLTextures :=
  let indices := mesh.mFaces.flatMap (fun face => face)
  let material := mesh.material
  let d := model.loadMaterialTextures env gl material .DIFFUSE "texture_diffuse"
  let sp := d.model.loadMaterialTextures env d.gl material .SPECULAR "texture_specular"
  let n := sp.model.loadMaterialTextures env sp.gl material .HEIGHT "texture_normal"
  let h := n.model.loadMaterialTextures env n.gl material .AMBIENT "texture_height"
  let textures := d.textures ++ sp.textures ++ n.textures ++ h.textures
  (⟨indices, textures⟩, h.model, h.gl)

/-- The first loop of `Model::processNode`: `meshes.push_back(processMesh(mesh, scene))` for
each mesh of the node. -/
def Model.processMeshes (env : LoaderEnv) : List aiMesh → Model × GLTextures → Model × GLTextures
  | [], st => st
  | mesh :: rest, st =>
    let r := st.1.processMesh env st.2 mesh
    Model.processMeshes env rest ({ r.2.1 with meshes := r.2.1.meshes ++ [r.1] }, r.2.2)

mutual
/-- Embeds `Model::processNode`. -/
def Model.processNode (env : LoaderEnv) : aiNode → Model × GLTextures → Model × GLTextures
  | .node meshes children, st =>
    Model.processChildren env children (Model.processMeshes env meshes st)
/-- The second loop of `Model::processNode`: `processNode` on each child. -/
def Model.processChildren (env : LoaderEnv) :
    List aiNode → Model × GLTextures → Model × GLTextures
  | [], st => st
  | child :: rest, st => Model.processChildren env rest (Model.processNode env child st)
end

/-- Embeds `path.substr(0, path.find_last_of('/'))`: the whole string when there is no '/'. -/
def directoryOf (path : String) : String :=
  match find_last_of path.data ['/'] with
  | some pos => ⟨path.data.take pos⟩
  | none => path

/-- Embeds `Model::loadModel(path)` on the model `model`; `error e` is an exception thrown by
the importer. -/
def Model.loadModel (importer : Importer) (env : LoaderEnv) (path : String) (model : Model)
    (gl : GLTextures) : Except String (Model × GLTextures) :=
  match importer.ReadFile path with
  | .error e => .error e
  | .ok none => .ok (model, gl)
  | .ok (some scene) =>
    if scene.incomplete || scene.mRootNode.isNone then .ok (model, gl)
    else
      match scene.mRootNode with
      | none => .ok (model, gl)
      | some root =>
        let model := { model with directory := directoryOf path }
        .ok (Model.processNode env root (model, gl))

/-- Embeds the constructor `Model::Model(path, gamma)`: the members start empty, `loadModel`
runs, and an exception is printed and thrown again. -/
def Model.create (importer : Importer) (env : LoaderEnv) (path : String) (gamma : Bool)
    (gl : GLTextures) : Except String (Model × GLTextures) :=
  Model.loadModel importer env path
    { textures_loaded := [], meshes := [], directory := "", gammaCorrection := gamma } gl

/-! ## Sun animation and directional light (main.cpp 31-34, 372-374, 437-442) -/

section Sun
variable {F : Type} [LinearOrderedField F]

/-- The constant `SUN_ANIMATION_SPEED = 0.02f`. -/
def SUN_ANIMATION_SPEED : F := 2 / 100

/-- The constant `SUN_MOVEMENT_RANGE_X = 0.8f`. -/
def SUN_MOVEMENT_RANGE_X : F := 8 / 10

/-- The constant `SUN_BASE_Y_DIRECTION = -0.7f`. -/
def SUN_BASE_Y_DIRECTION : F := -(7 / 10)

/-- The constant `SUN_BASE_Z_DIRECTION = -0.5f`. -/
def SUN_BASE_Z_DIRECTION : F := -(5 / 10)

/-- The vector handed to `glm::normalize` at line 374, for `timeValue_sun = currentFrame`. -/
def sunDirectionRaw (glm : Glm F) (timeValue_sun : F) : Vec3 F :=
  let sunDirectionX_anim := glm.sin (timeValue_sun * SUN_ANIMATION_SPEED) * SUN_MOVEMENT_RANGE_X
  ⟨sunDirectionX_anim, SUN_BASE_Y_DIRECTION, SUN_BASE_Z_DIRECTION⟩

/-- The value of `currentAnimatedSunDirection` in the frame whose time is `currentFrame`. -/
def currentAnimatedSunDirection (glm : Glm F) (currentFrame : F) : Vec3 F :=
  glm.normalize (sunDirectionRaw glm currentFrame)

/-- The directional-light uniforms of one frame (lines 437-442). -/
def dirLightSetup (glm : Glm F) (currentFrame : F) : List (GLCall F) :=
  [GLCall.uniform3f (.lit "dirLights[0].direction") (currentAnimatedSunDirection glm currentFrame),
   GLCall.uniform3f (.lit "dirLights[0].ambient") ⟨1 / 1000, 1 / 1000, 1 / 1000⟩,
   GLCall.uniform3f (.lit "dirLights[0].diffuse") ⟨45 / 100, 3 / 10, 15 / 100⟩,
   GLCall.uniform3f (.lit "dirLights[0].specular") ⟨4 / 10, 35 / 100, 25 / 100⟩,
   GLCall.uniform1i (.lit "dirLights[0].enabled") 1,
   GLCall.uniform1i (.lit "numDirLights") 1]

end Sun

/-! ## Forward pass (main.cpp 696-726) -/

/-- The draw part of the forward pass of one frame: depth writes on, the opaque loop, depth
writes off, the non-glass transparent objects, the glass objects, depth writes on. -/
def forwardDraws {F : Type} [LinearOrderedField F] (glm : Glm F)
    (sort : List (TransparentObject F) → List (TransparentObject F))
    (shader : Shader) (models : Registry F) (drone : Drone F) : List (GLCall F) :=
  let isGlassLocation := shader.hasUniform (.lit "isGlass")
  [GLCall.depthMask true] ++ opaquePass shader models ++ [GLCall.depthMask false]
    ++ renderTransparentObjects glm sort shader models drone.position isGlassLocation false
    ++ renderTransparentObjects glm sort shader models drone.position isGlassLocation true
    ++ [GLCall.depthMask true]

/-- The draws of a trace, each with the depth-write mask in force when it is issued; `mask` is
the mask before the trace. -/
def drawsWithDepthMask {F : Type} : Bool → List (GLCall F) → List (Bool × String × ModelInfo F)
  | _, [] => []
  | _, GLCall.depthMask flag :: rest => drawsWithDepthMask flag rest
  | mask, GLCall.modelDraw _ name info :: rest =>
    (mask, name, info) :: drawsWithDepthMask mask rest
  | mask, _ :: rest => drawsWithDepthMask mask rest

/-- The depth-write mask after a trace; `mask` is the mask before it. -/
def finalDepthMask {F : Type} : Bool → List (GLCall F) → Bool
  | mask, [] => mask
  | _, GLCall.depthMask flag :: rest => finalDepthMask flag rest
  | mask, _ :: rest => finalDepthMask mask rest

/-- The model a `Model` is after a failed import: every member as the constructor left it. -/
def failedModel (gamma : Bool) : Model :=
  { textures_loaded := [], meshes := [], directory := "", gammaCorrection := gamma }

/-- An importer for which every `ReadFile` returns a null scene. -/
def failingImporter : Importer := ⟨fun _ => .ok none⟩

/-- The filter of the first loop of `renderTransparentObjects`, as one predicate: transparent,
glass flag equal to `glassOnly`, model pointer not null. -/
def matchesPass {F : Type} (glassOnly : Bool) (pair : String × ModelInfo F) : Bool :=
  pair.2.isTransparent && (pair.2.isGlass == glassOnly) && pair.2.model.isSome

/-- Euclidean glm over the reals: `length v = sqrt (dot v v)`, `normalize v = v / length v`,
`radians d = d * pi / 180`. -/
noncomputable def realGlm : Glm ℝ where
  length v := Real.sqrt (v.x * v.x + v.y * v.y + v.z * v.z)
  normalize v :=
    let n := Real.sqrt (v.x * v.x + v.y * v.y + v.z * v.z)
    ⟨v.x / n, v.y / n, v.z / n⟩
  sin := Real.sin
  cos := Real.cos
  radians d := d * Real.pi / 180

/-- A sorting function meeting `StdSortContract` that keeps equivalent elements in input order
(insertion sort, the algorithm libstdc++ uses for short ranges). -/
def insertionStdSort {F : Type} [LinearOrder F] (l : List (TransparentObject F)) :
    List (TransparentObject F) :=
  l.insertionSort (fun a b => b.distance ≤ a.distance)

/-! ## std::sort as libstdc++ implements it (bits/stl_algo.h, bits/stl_heap.h)

The vector is a list, an iterator is an index into it, and `comp a b` is `a < b`. A function
returns `none` when the C++ code would read outside the vector or, for the loops that carry a
bound on their rounds, when the bound is used up. -/

section LibSort
variable {α : Type} (comp : α → α → Bool)

/-- Embeds `std::iter_swap(v + i, v + j)`. -/
def iter_swap (v : List α) (i j : Nat) : Option (List α) := do
  let x ← v[i]?
  let y ← v[j]?
  pure ((v.set i y).set j x)

/-- Embeds `std::__move_median_to_first(result, a, b, c, comp)`. -/
def move_median_to_first (v : List α) (result a b c : Nat) : Option (List α) := do
  let va ← v[a]?
  let vb ← v[b]?
  let vc ← v[c]?
  if comp va vb then
    if comp vb vc then iter_swap v result b
    else if comp va vc then iter_swap v result c
    else iter_swap v result a
  else if comp va vc then iter_swap v result a
  else if comp vb vc then iter_swap v result c
  else iter_swap v result b

/-- The loop `while (comp(first, pivot)) ++first;` of `__unguarded_partition`, on the part of
the vector from `first` on; `none` when it runs past the end. -/
def scanUp (pivot : α) : List α → Nat → Option Nat
  | [], _ => none
  | x :: rest, first => if comp x pivot then scanUp pivot rest (first + 1) else some first

/-- The loop `while (comp(pivot, last)) --last;` of `__unguarded_partition`; `none` when it runs
past the start. -/
def scanDown (pivot : α) (v : List α) : Nat → Option Nat
  | 0 => do
    let x ← v[0]?
    if comp pivot x then none else some 0
  | last + 1 => do
    let x ← v[last + 1]?
    if comp pivot x then scanDown pivot v last else some (last + 1)

/-- Embeds `std::__unguarded_partition(first, last, pivot, comp)`: returns the cut and the
vector. `rounds` bounds the rounds of the outer loop (each round moves `first` up). -/
def unguarded_partition (pivot : Nat) : Nat → List α → Nat → Nat → Option (Nat × List α)
  | 0, _, _, _ => none
  | rounds + 1, v, first, last => do
    let p ← v[pivot]?
    let first ← scanUp comp p (v.drop first) first
    if last = 0 then none
    let last ← scanDown comp p v (last - 1)
    if !(decide (first < last)) then pure (first, v)
    else
      let v ← iter_swap v first last
      unguarded_partition pivot rounds v (first + 1) last

/-- Embeds `std::__unguarded_partition_pivot(first, last, comp)`. -/
def unguarded_partition_pivot (v : List α) (first last : Nat) : Option (Nat × List α) := do
  let mid := first + (last - first) / 2
  let v ← move_median_to_first comp v first (first + 1) mid (last - 1)
  unguarded_partition comp first (v.length + 1) v (first + 1) last

/-- The loop of `std::__push_heap`. -/
def push_heap_loop (first topIndex : Nat) (value : α) : Nat → List α → Nat → Option (List α)
  | 0, _, _ => none
  | rounds + 1, v, holeIndex => do
    let parent := (holeIndex - 1) / 2
    let vp ← v[first + parent]?
    if decide (holeIndex > topIndex) && comp vp value then
      push_heap_loop first topIndex value rounds (v.set (first + holeIndex) vp) parent
    else pure (v.set (first + holeIndex) value)

/-- Embeds `std::__push_heap(first, holeIndex, topIndex, value, comp)`. -/
def push_heap (v : List α) (first holeIndex topIndex : Nat) (value : α) : Option (List α) :=
  push_heap_loop comp first topIndex value (holeIndex + 1) v holeIndex

/-- The first loop of `std::__adjust_heap`: returns the vector, `holeIndex` and
`secondChild`. -/
def adjust_heap_loop (first len : Nat) : Nat → List α → Nat → Nat → Option (List α × Nat × Nat)
  | 0, _, _, _ => none
  | rounds + 1, v, holeIndex, secondChild =>
    if secondChild < (len - 1) / 2 then do
      let secondChild := 2 * (secondChild + 1)
      let x ← v[first + secondChild]?
      let y ← v[first + (secondChild - 1)]?
      let secondChild := if comp x y then secondChild - 1 else secondChild
      let z ← v[first + secondChild]?
      adjust_heap_loop first len rounds (v.set (first + holeIndex) z) secondChild secondChild
    else pure (v, holeIndex, secondChild)

/-- Embeds `std::__adjust_heap(first, holeIndex, len, value, comp)`. -/
def adjust_heap (v : List α) (first holeIndex len : Nat) (value : α) : Option (List α) := do
  let topIndex := holeIndex
  let r ← adjust_heap_loop comp first len (len + 1) v holeIndex holeIndex
  let v := r.1
  let holeIndex := r.2.1
  let secondChild := r.2.2
  if len % 2 = 0 ∧ secondChild = (len - 2) / 2 then
    let secondChild := 2 * (secondChild + 1)
    let z ← v[first + (secondChild - 1)]?
    push_heap comp (v.set (first + holeIndex) z) first (secondChild - 1) topIndex value
  else push_heap comp v first holeIndex topIndex value

/-- Embeds `std::__pop_heap(first, last, result, comp)`. -/
def pop_heap (v : List α) (first last result : Nat) : Option (List α) := do
  let value ← v[result]?
  let top ← v[first]?
  adjust_heap comp (v.set result top) first 0 (last - first) value

/-- The loop of `std::__make_heap`, from `parent` down to 0. -/
def make_heap_loop (first len : Nat) : Nat → List α → Option (List α)
  | 0, v => do
    let value ← v[first]?
    adjust_heap comp v first 0 len value
  | parent + 1, v => do
    let value ← v[first + (parent + 1)]?
    let v ← adjust_heap comp v first (parent + 1) len value
    make_heap_loop first len parent v

/-- Embeds `std::__make_heap(first, last, comp)`. -/
def make_heap (v : List α) (first last : Nat) : Option (List α) :=
  if last - first < 2 then pure v
  else make_heap_loop comp first (last - first) ((last - first - 2) / 2) v

/-- Embeds `std::__sort_heap(first, last, comp)`, for `last = first + len`. -/
def sort_heap (first : Nat) : Nat → List α → Option (List α)
  | 0, v => pure v
  | 1, v => pure v
  | len + 2, v => do
    let v ← pop_heap comp v first (first + len + 1) (first + len + 1)
    sort_heap first (len + 1) v

/-- Embeds `std::__heap_select(first, middle, last, comp)`. -/
def heap_select (v : List α) (first middle last : Nat) : Option (List α) := do
  let v ← make_heap comp v first middle
  (List.range (last - middle)).foldlM (fun v k => do
    let x ← v[middle + k]?
    let top ← v[first]?
    if comp x top then pop_heap comp v first middle (middle + k) else pure v) v

/-- Embeds `std::__partial_sort(first, middle, last, comp)`. -/
def partial_sort (v : List α) (first middle last : Nat) : Option (List α) := do
  let v ← heap_select comp v first middle last
  sort_heap comp first (middle - first) v

/-- Embeds `std::__introsort_loop(first, last, depth_limit, comp)`, with `_S_threshold = 16`.
Each round of the `while` loop lowers `depth_limit` by one. -/
def introsort_loop : Nat → List α → Nat → Nat → Option (List α)
  | 0, v, first, last =>
    if last - first > 16 then partial_sort comp v first last last else pure v
  | depth_limit + 1, v, first, last =>
    if last - first > 16 then do
      let r ← unguarded_partition_pivot comp v first last
      let cut := r.1
      let v ← introsort_loop depth_limit r.2 cut last
      introsort_loop depth_limit v first cut
    else pure v

/-- The loop of `std::__unguarded_linear_insert`: `val` is put below the elements it is
`comp` to; `none` when the loop runs past the start of the vector. -/
def unguarded_linear_insert_loop (val : α) : List α → Nat → Option (List α)
  | _, 0 => none
  | v, next + 1 => do
    let x ← v[next]?
    if comp val x then unguarded_linear_insert_loop val (v.set (next + 1) x) next
    else pure (v.set (next + 1) val)

/-- Embeds `std::__unguarded_linear_insert(last, comp)`. -/
def unguarded_linear_insert (v : List α) (last : Nat) : Option (List α) := do
  let val ← v[last]?
  unguarded_linear_insert_loop comp val v last

/-- Embeds `std::__insertion_sort(first, last, comp)`. -/
def insertion_sort (v : List α) (first last : Nat) : Option (List α) :=
  if first = last then pure v
  else
    (List.range (last - (first + 1))).foldlM (fun v k => do
      let i := first + 1 + k
      let x ← v[i]?
      let f ← v[first]?
      if comp x f then
        pure (v.take first ++ x :: (v.drop first).take (i - first) ++ v.drop (i + 1))
      else unguarded_linear_insert comp v i) v

/-- Embeds `std::__unguarded_insertion_sort(first, last, comp)`. -/
def unguarded_insertion_sort (v : List α) (first last : Nat) : Option (List α) :=
  (List.range (last - first)).foldlM (fun v k => unguarded_linear_insert comp v (first + k)) v

/-- Embeds `std::__final_insertion_sort(first, last, comp)`. -/
def final_insertion_sort (v : List α) (first last : Nat) : Option (List α) :=
  if last - first > 16 then do
    let v ← insertion_sort comp v first (first + 16)
    unguarded_insertion_sort comp v (first + 16) last
  else insertion_sort comp v first last

/-- Embeds `std::__lg(n)`: the floor of the binary logarithm. -/
def lg : Nat → Nat → Nat
  | 0, _ => 0
  | fuel + 1, n => if n < 2 then 0 else lg fuel (n / 2) + 1

/-- Embeds `std::sort(v.begin(), v.end(), comp)` as libstdc++ implements it (`std::__sort`):
`none` stands for an access outside the vector. -/
def std_sort (v : List α) : Option (List α) :=
  if v.length = 0 then pure v
  else do
    let v ← introsort_loop comp (lg v.length v.length * 2) v 0 v.length
    final_insertion_sort comp v 0 v.length

end LibSort

/-- The call `std::sort(transparentObjects.begin(), transparentObjects.end())` of
`renderTransparentObjects` when the program is built with libstdc++: `std_sort` with
`TransparentObject::operator<`. The vector stays as it is in the case `none`. -/
def libstdcxxSort {F : Type} [LinearOrder F] (l : List (TransparentObject F)) :
    List (TransparentObject F) :=
  (std_sort TransparentObject.lt l).getD l

/-- A shader in which every uniform name resolves. -/
def fullShader : Shader := ⟨1, fun _ => true⟩

/-- A loaded model without meshes, standing for any non-null `Model*`. -/
def emptyModel : Model := ⟨[], [], "models", false⟩

/-- A transparent registry entry at `pos` with unit scale and no rotation. -/
def transparentAt {F : Type} [Zero F] [One F] (pos : Vec3 F) (glass : Bool) : ModelInfo F :=
  ⟨some emptyModel, pos, Vec3.splat 0, Vec3.splat 1, true, glass⟩

/-- The transparent part of the registry that `main` builds: every entry at the origin. -/
def sceneTransparents : Registry ℝ :=
  [("GlassPanels", transparentAt ⟨0, 0, 0⟩ true), ("Plants", transparentAt ⟨0, 0, 0⟩ false),
   ("Windows", transparentAt ⟨0, 0, 0⟩ true)]

/-- Seventeen entry names in ascending order. -/
def paneNames : List String :=
  ["Pane01", "Pane02", "Pane03", "Pane04", "Pane05", "Pane06", "Pane07", "Pane08", "Pane09",
   "Pane10", "Pane11", "Pane12", "Pane13", "Pane14", "Pane15", "Pane16", "Pane17"]

/-- A registry of seventeen glass entries, all at the origin. -/
def seventeenPanes : Registry ℝ :=
  paneNames.map (fun name => (name, transparentAt ⟨0, 0, 0⟩ true))

/-- The state of the texture object that `createDefaultTexture` sets up: a 2x2 RGBA image
holding the checkerboard, repeat wrapping, nearest filtering. -/
def IsCheckerboard (o : TexObject) : Prop :=
  o.internalFormat = .RGBA ∧ o.width = 2 ∧ o.height = 2 ∧ o.format = .RGBA ∧
  o.pixels = checkerboard ∧ o.wrapS = .REPEAT ∧ o.wrapT = .REPEAT ∧
  o.minFilter = .NEAREST ∧ o.magFilter = .NEAREST

/-- How the loop variables of `loadMaterialTextures` at a later point `st2` relate to those at
an earlier point `st1`, when the paths `paths` were asked for in between: one texture with the
asked path was returned per request, the cache grew by exactly the textures that were decoded,
every returned texture is in the cache, and distinct cache paths stay distinct. -/
def LoadStep (st1 st2 : LoadState) (paths : List String) : Prop :=
  st2.textures.map Texture.path = st1.textures.map Texture.path ++ paths
  ∧ (∃ added, st2.decodes = st1.decodes ++ added
      ∧ st2.textures_loaded.map Texture.path = st1.textures_loaded.map Texture.path ++ added)
  ∧ (∀ t ∈ st1.textures_loaded, t ∈ st2.textures_loaded)
  ∧ (∀ t ∈ st2.textures, t ∈ st1.textures ∨ t ∈ st2.textures_loaded)
  ∧ ((st1.textures_loaded.map Texture.path).Nodup → (st2.textures_loaded.map Texture.path).Nodup)

/-- The same relation for whole calls: `cache` is `textures_loaded` before, `r` the result. -/
def LoadCalls (cache : List Texture) (r : LoadResult) (paths : List String) : Prop :=
  r.textures.map Texture.path = paths
  ∧ r.model.textures_loaded.map Texture.path = cache.map Texture.path ++ r.decodes
  ∧ (∀ t ∈ cache, t ∈ r.model.textures_loaded)
  ∧ (∀ t ∈ r.textures, t ∈ r.model.textures_loaded)
  ∧ ((cache.map Texture.path).Nodup → (r.model.textures_loaded.map Texture.path).Nodup)

/-- A name allocator: one more than the largest name in use. -/
def nextName : List Nat → Nat := fun used => used.foldl max 0 + 1

/-- A GL context without textures. -/
def noTextures : GLTextures := ⟨[], [], 0⟩

/-- A file system with no decodable image. -/
def noFilesEnv : LoaderEnv := ⟨nextName, fun _ => none⟩

/-- A file system whose only image is the 1x1 RGB file `models/textures/tex.png`. -/
def oneFileEnv : LoaderEnv :=
  ⟨nextName, fun f => if f = "models/textures/tex.png" then some ⟨1, 1, 3, [10, 20, 30]⟩ else none⟩

/-- A material whose diffuse textures are two absolute paths with the same file name. -/
def twoAbsolutePaths : aiMaterial :=
  ⟨fun t => match t with
    | .DIFFUSE => ["/a/tex.png", "/b/tex.png"]
    | _ => []⟩

/-- A material that names the same diffuse texture twice. -/
def samePathTwice : aiMaterial :=
  ⟨fun t => match t with
    | .DIFFUSE => ["tex.png", "tex.png"]
    | _ => []⟩

/-- The state of a texture object that `TextureFromFile` fills from the decoded image `data`
with the formats `format` and `internalFormat`: the image, mipmaps, repeat wrapping, trilinear
filtering, and for a one-channel image the grayscale swizzle. -/
def IsLoadedImage (data : Image) (format internalFormat : GLEnum) (o : TexObject) : Prop :=
  o.internalFormat = internalFormat ∧ o.width = data.width ∧ o.height = data.height ∧
  o.format = format ∧ o.pixels = data.data ∧ o.mipmaps = true ∧
  o.wrapS = .REPEAT ∧ o.wrapT = .REPEAT ∧
  o.minFilter = .LINEAR_MIPMAP_LINEAR ∧ o.magFilter = .LINEAR ∧
  (data.nrComponents = 1 → o.swizzleG = .RED ∧ o.swizzleB = .RED ∧ o.swizzleA = .ONE)

/-- The GL calls of the success branch of `TextureFromFile` (lines 236-252), for the generated
name `textureID` and the decoded image `data`. -/
def uploadImage (textureID : Nat) (data : Image) (format internalFormat : GLEnum)
    (gl : GLTextures) : GLTextures :=
  let gl := glBindTexture textureID gl
  let gl := glTexImage2D internalFormat data.width data.height format data.data gl
  let gl := glGenerateMipmap gl
  let gl := glTexParameteri .WRAP_S .REPEAT gl
  let gl := glTexParameteri .WRAP_T .REPEAT gl
  let gl := glTexParameteri .MIN_FILTER .LINEAR_MIPMAP_LINEAR gl
  let gl := glTexParameteri .MAG_FILTER .LINEAR gl
  if data.nrComponents = 1 then
    glTexParameteri .SWIZZLE_A .ONE
      (glTexParameteri .SWIZZLE_B .RED (glTexParameteri .SWIZZLE_G .RED gl))
  else gl

/-- A file system whose only image is the 1x1 two-channel (gray + alpha) file
`models/gray.png`. -/
def twoChannelEnv : LoaderEnv :=
  ⟨nextName, fun f => if f = "models/gray.png" then some ⟨1, 1, 2, [7, 255]⟩ else none⟩

/-- A shader without the sampler `material.texture_diffuse1`. -/
def noDiffuseSamplerShader : Shader :=
  ⟨1, fun n => decide (n ≠ .lit "material.texture_diffuse1")⟩

/-- A mesh whose second texture, a specular map, has the id 0. -/
def zeroSpecularMesh : Mesh :=
  ⟨[0, 1, 2], [⟨5, "texture_diffuse", "a.png"⟩, ⟨0, "texture_specular", "s.png"⟩]⟩

/-- A mesh whose only texture is a diffuse map with the id 0. -/
def zeroDiffuseMesh : Mesh := ⟨[0, 1, 2], [⟨0, "texture_diffuse", "a.png"⟩]⟩

/-- A mesh with a diffuse map, a normal map, and two specular maps. -/
def sampleMesh : Mesh :=
  ⟨[0, 1, 2], [⟨5, "texture_diffuse", "a.png"⟩, ⟨6, "texture_normal", "n.png"⟩,
    ⟨7, "texture_specular", "s.png"⟩, ⟨8, "texture_specular", "t.png"⟩]⟩

/-- A loader for which every `new Model(path)` succeeds. -/
def loadsEverything : String → Option Model := fun _ => some emptyModel

/-- The GL context holds no texture object with an sRGB internal format. -/
def NoSRGB (gl : GLTextures) : Prop :=
  ∀ p ∈ gl.objects, p.2.internalFormat ≠ .SRGB ∧ p.2.internalFormat ≠ .SRGB_ALPHA

/-- A model whose cache already holds `a.png`, loaded as a diffuse map with the name 7. -/
def cachedDiffuseModel : Model := ⟨[⟨7, "texture_diffuse", "a.png"⟩], [], "models", true⟩

/-- A material that names `a.png` both as its diffuse and as its specular map. -/
def sharedPathMaterial : aiMaterial :=
  ⟨fun t => match t with
    | .DIFFUSE => ["a.png"]
    | .SPECULAR => ["a.png"]
    | _ => []⟩

/-- A material whose only texture is the diffuse map `tex.png`. -/
def oneDiffuseMaterial : aiMaterial :=
  ⟨fun t => match t with
    | .DIFFUSE => ["tex.png"]
    | _ => []⟩

/-- An importer that yields, for every path, a complete scene whose root node has one mesh
with one diffuse texture `tex.png`. -/
def oneMeshImporter : Importer :=
  ⟨fun _ => .ok (some ⟨false, some (.node [⟨[[0, 1, 2]], oneDiffuseMaterial⟩] [])⟩)⟩

/-! ## Shadow-pass light (main.cpp 376-377) -/

/-- The value of `sceneCenter` (line 376). -/
def sceneCenter {F : Type} [LinearOrderedField F] : Vec3 F := ⟨0, 10, -10⟩

/-- The value of `lightPos` (line 377) in the frame whose time is `currentFrame`. -/
def lightPos {F : Type} [LinearOrderedField F] (glm : Glm F) (currentFrame : F) : Vec3 F :=
  sceneCenter - (currentAnimatedSunDirection glm currentFrame).scale 60

/-- What the drone keeps between frames: the up vector `(0, 1, 0)`, a pitch within the clamp,
and a front vector equal to the direction computed from yaw and pitch. -/
def Drone.Aligned (d : Drone ℝ) : Prop :=
  d.up = ⟨0, 1, 0⟩ ∧ d.PitchInRange ∧
  d.front = ⟨Real.cos (d.yaw * Real.pi / 180) * Real.cos (d.pitch * Real.pi / 180),
             Real.sin (d.pitch * Real.pi / 180),
             Real.sin (d.yaw * Real.pi / 180) * Real.cos (d.pitch * Real.pi / 180)⟩

/-- A registry entry without its model and transform: the name, the two flags, and
`emptyModel` in place of a model that is not null. -/
def entryShape {F : Type} (e : String × ModelInfo F) : String × ModelInfo ℚ :=
  (e.1, ⟨e.2.model.map (fun _ => emptyModel), Vec3.splat 0, Vec3.splat 0, Vec3.splat 1,
    e.2.isTransparent, e.2.isGlass⟩)

/-- The test of the opaque loop: the entry is not transparent and its model is not null. -/
def isOpaqueEntry {F : Type} (e : String × ModelInfo F) : Bool :=
  !e.2.isTransparent && e.2.model.isSome

/-- The test of the shininess rule of the opaque loop, on the entry name. -/
def getsLowShininess (name : String) : Bool :=
  containsSubstr name.data "Table".data || containsSubstr name.data "Chair".data ||
    decide (name = "Dividers") || decide (name = "Railings") || decide (name = "WallDecor")

/-- A registry with an opaque entry, a plant, a window, and a `Vase` flagged as glass but
not as transparent. -/
def misflaggedScene : Registry ℚ :=
  [("Kiosk", ModelInfo.ofModel (some emptyModel)),
   ("Plants", transparentAt ⟨0, 0, 0⟩ false),
   ("Vase", ⟨some emptyModel, Vec3.splat 0, Vec3.splat 0, Vec3.splat 1, false, true⟩),
   ("Windows", transparentAt ⟨0, 0, 0⟩ true)]

/-! ## Frame loop (main.cpp 360-726) -/

/-- The matrix functions of glm that the frame loop calls, over a matrix type `M`:
`glm::ortho`, `glm::lookAt`, `glm::perspective` and `operator*` on `glm::mat4`. -/
structure GlmMatrix (F M : Type) where
  ortho : F → F → F → F → F → F → M
  lookAt : Vec3 F → Vec3 F → Vec3 F → M
  perspective : F → F → F → F → M
  mul : M → M → M

/-- The globals that the frame loop reads besides `models` and `drone`: the depth shader
program, the shadow framebuffer and its depth texture. -/
structure FrameGlobals where
  depthShaderProgram_global : Nat
  depthMapFBO : Nat
  depthMapTexture : Nat

/-- The GL calls of one frame. `uniformMatrix4fv n m` is
`glUniformMatrix4fv(glGetUniformLocation(p, n), 1, GL_FALSE, value_ptr(m))`; `gl c` is one of
the calls of `GLCall`. -/
inductive FrameCall (F M : Type)
  | useProgram (program : Nat)
  | uniformMatrix4fv (n : UniformName) (m : M)
  | viewport (width height : Nat)
  | bindFramebuffer (framebuffer : Nat)
  | clearColor (r g b a : F)
  | clear (color depth : Bool)
  | activeTexture (unit : Nat)
  | bindTexture (texture : Nat)
  | gl (c : GLCall F)

/-- The value of `lightSpaceMatrix` (lines 368-381) in the frame whose time is
`currentFrame`. -/
def lightSpaceMatrix {F M : Type} [LinearOrderedField F] (glm : Glm F) (gm : GlmMatrix F M)
    (currentFrame : F) : M :=
  let near_plane_light : F := 1
  let far_plane_light : F := 150
  let orthoSize : F := 70
  let lightProjection :=
    gm.ortho (-orthoSize) orthoSize (-orthoSize) orthoSize near_plane_light far_plane_light
  let lightView := gm.lookAt (lightPos glm currentFrame) sceneCenter ⟨0, 1, 0⟩
  gm.mul lightProjection lightView

/-- The frame loop from the depth pass to the sampler uniforms (lines 367-694), for the drone
as `processInput` left it: the depth pass, then the clear and the per-frame uniforms of the
main pass. -/
def frameSetup {F M : Type} [LinearOrderedField F] (glm : Glm F) (gm : GlmMatrix F M)
    (g : FrameGlobals) (shader : Shader) (models : Registry F) (drone : Drone F)
    (currentFrame : F) : List (FrameCall F M) :=
  let lightSpaceMatrix := lightSpaceMatrix glm gm currentFrame
  let projection := gm.perspective (glm.radians 45) (900 / 1200) (1 / 10) 200
  let view := gm.lookAt drone.position (drone.position + drone.front) drone.up
  [FrameCall.useProgram g.depthShaderProgram_global,
   FrameCall.uniformMatrix4fv (.lit "lightSpaceMatrix") lightSpaceMatrix,
   FrameCall.viewport 2048 2048,
   FrameCall.bindFramebuffer g.depthMapFBO,
   FrameCall.clear false true]
  ++ (depthPass g.depthShaderProgram_global models).map FrameCall.gl
  ++ [FrameCall.bindFramebuffer 0,
      FrameCall.viewport 900 1200,
      FrameCall.clearColor (1 / 10) (1 / 10) (15 / 100) 1,
      FrameCall.clear true true,
      FrameCall.useProgram shader.program,
      FrameCall.uniformMatrix4fv (.lit "projection") projection,
      FrameCall.uniformMatrix4fv (.lit "view") view]
  ++ (if shader.hasUniform (.lit "viewPos") then
        [FrameCall.gl (GLCall.uniform3f (.lit "viewPos") drone.position)] else [])
  ++ (if shader.hasUniform (.lit "lightSpaceMatrix") then
        [FrameCall.uniformMatrix4fv (.lit "lightSpaceMatrix") lightSpaceMatrix] else [])
  ++ (if shader.hasUniform (.lit "shadowMap") then
        [FrameCall.activeTexture 3, FrameCall.bindTexture g.depthMapTexture,
         FrameCall.gl (GLCall.uniform1i (.lit "shadowMap") 3)] else [])
  ++ (dirLightSetup glm currentFrame).map FrameCall.gl
  ++ (pointLightSetup 20).map FrameCall.gl
  ++ (if shader.hasUniform (.lit "material.texture_diffuse1") then
        [FrameCall.gl (GLCall.uniform1i (.lit "material.texture_diffuse1") 0)] else [])
  ++ (if shader.hasUniform (.lit "material.texture_specular1") then
        [FrameCall.gl (GLCall.uniform1i (.lit "material.texture_specular1") 1)] else [])

/-- The GL calls of one iteration of the render loop, after `processInput`: `frameSetup` and
the draws of the forward pass. -/
def renderFrame {F M : Type} [LinearOrderedField F] (glm : Glm F) (gm : GlmMatrix F M)
    (sort : List (TransparentObject F) → List (TransparentObject F))
    (g : FrameGlobals) (shader : Shader) (models : Registry F) (drone : Drone F)
    (currentFrame : F) : List (FrameCall F M) :=
  frameSetup glm gm g shader models drone currentFrame
    ++ (forwardDraws glm sort shader models drone).map FrameCall.gl

/-- The matrix uploads of a trace to the uniform `n`, in order, each with the program in use
when it is made; `program` is the program in use before the trace. -/
def matrixUploads {F M : Type} (n : UniformName) : Nat → List (FrameCall F M) → List (Nat × M)
  | _, [] => []
  | _, FrameCall.useProgram p :: rest => matrixUploads n p rest
  | program, FrameCall.uniformMatrix4fv n2 m :: rest =>
    if n2 = n then (program, m) :: matrixUploads n program rest
    else matrixUploads n program rest
  | program, _ :: rest => matrixUploads n program rest

/-- The call neither selects a program nor uploads a matrix. -/
def FrameCall.isPlain {F M : Type} : FrameCall F M → Bool
  | .useProgram _ => false
  | .uniformMatrix4fv _ _ => false
  | _ => true

/-- The uniform names written by a trace of `Mesh::Draw` calls. -/
def meshUniformNames : List MeshGLCall → List UniformName
  | [] => []
  | MeshGLCall.uniform1i n _ :: rest => UniformName.lit n :: meshUniformNames rest
  | _ :: rest => meshUniformNames rest

/-- The name is one of the sampler names `Mesh::Draw` builds: `"material." + role + number`
for the role `texture_diffuse` or `texture_specular`. -/
def IsSamplerName (n : UniformName) : Prop :=
  ∃ number : String, n = .lit ("material." ++ "texture_diffuse" ++ number)
    ∨ n = .lit ("material." ++ "texture_specular" ++ number)

/-- The uniform names that a trace writes, in order, the writes inside the `Model::Draw`
calls included (`shader` is the program the draws are given). -/
def uniformNamesWritten {F : Type} (shader : Shader) : List (GLCall F) → List UniformName
  | [] => []
  | GLCall.modelDraw _ _ info :: rest =>
    (match info.model with
      | some model => meshUniformNames (model.Draw shader)
      | none => []) ++ uniformNamesWritten shader rest
  | c :: rest => c.target.toList ++ uniformNamesWritten shader rest

/-- A model with one mesh that has no texture. -/
def plainMeshModel : Model := ⟨[], [⟨[0, 1, 2], []⟩], "models", false⟩

/-- Matrix functions over a one-point matrix type, for traces in which no matrix value is
looked at. -/
def unitMatrices : GlmMatrix ℚ Unit :=
  ⟨fun _ _ _ _ _ _ => (), fun _ _ _ => (), fun _ _ _ _ => (), fun _ _ => ()⟩

/-- A registry whose only entry is an opaque model with one mesh. -/
def oneOpaqueScene : Registry ℚ := [("Kiosk", ModelInfo.ofModel (some plainMeshModel))]

/-- The uniform name a frame call writes to, if it is a uniform write. -/
def FrameCall.target {F M : Type} : FrameCall F M → Option UniformName
  | .uniformMatrix4fv n _ => some n
  | .gl c => c.target
  | _ => none

/-- The writes of a frame trace to the uniform `n`, in order. -/
def frameWritesTo {F M : Type} (n : UniformName) (frame : List (FrameCall F M)) :
    List (FrameCall F M) :=
  frame.filter (fun c => decide (c.target = some n))

/-- The effect of one call on the pair (program in use, value of the vec3 uniform `n` of the
program `program`): `glUseProgram` selects a program, and a `glUniform3f` on `n` sets the
value when `program` is in use. -/
def uniform3Step {F M : Type} (program : Nat) (n : UniformName)
    (s : Nat × Option (Vec3 F)) : FrameCall F M → Nat × Option (Vec3 F)
  | .useProgram p => (p, s.2)
  | .gl (.uniform3f n2 v) => if n2 = n ∧ s.1 = program then (s.1, some v) else s
  | _ => s

/-- The pair (program in use, value of the uniform `n` of `program`) after a trace; `none` is
the value the uniform has before any upload. -/
def uniform3After {F M : Type} (program : Nat) (n : UniformName)
    (s : Nat × Option (Vec3 F)) (frame : List (FrameCall F M)) : Nat × Option (Vec3 F) :=
  frame.foldl (uniform3Step program n) s

/-- The value that `renderTransparentObjects` uploads for an object to `material.ambient`
(when `n` is that name) or to `material.specular` (otherwise): lines 175-185. -/
def transparentMaterial {F : Type} [LinearOrderedField F] (n : UniformName)
    (info : ModelInfo F) : Vec3 F :=
  if n = .lit "material.ambient" then
    (if info.isGlass then ⟨5 / 100, 5 / 100, 8 / 100⟩ else ⟨2 / 100, 3 / 100, 1 / 100⟩)
  else
    (if info.isGlass then ⟨7 / 10, 7 / 10, 8 / 10⟩ else ⟨5 / 100, 5 / 100, 5 / 100⟩)

/-- The value of the uniform `n` (`material.ambient` or `material.specular`) after the
transparent draws `drawn`, when it was `v` before them: the value uploaded for the last object
drawn, or `v` when nothing was drawn. -/
def materialAfterDraws {F : Type} [LinearOrderedField F] (n : UniformName)
    (v : Option (Vec3 F)) (drawn : List (String × ModelInfo F)) : Option (Vec3 F) :=
  match drawn.getLast? with
  | some e => some (transparentMaterial n e.2)
  | none => v

/-! # Theorems -/

theorem Vec3.sub_eq {F : Type} [Sub F] (a b : Vec3 F) :
    a - b = ⟨a.x - b.x, a.y - b.y, a.z - b.z⟩ := rfl

theorem realGlm_length_eq (v : Vec3 ℝ) (d : ℝ) (hd : 0 ≤ d)
    (h : v.x * v.x + v.y * v.y + v.z * v.z = d * d) : realGlm.length v = d := by
  show Real.sqrt _ = d
  rw [h]
  exact Real.sqrt_mul_self hd

theorem drawnObjects_append {F : Type} (a b : List (GLCall F)) :
    drawnObjects (a ++ b) = drawnObjects a ++ drawnObjects b := by
  induction a with
  | nil => rfl
  | cons c rest ih => cases c <;> simp [drawnObjects, ih]

section RenderLemmas
variable {F : Type} [LinearOrderedField F]

theorem drawnObjects_drawTransparentObject (shader : Shader) (loc : Bool)
    (obj : TransparentObject F) :
    drawnObjects (drawTransparentObject shader loc obj) = [(obj.name, obj.modelInfo)] := by
  unfold drawTransparentObject
  simp only [drawnObjects_append]
  split_ifs <;> simp [drawnObjects]

theorem drawnObjects_flatMap (shader : Shader) (loc : Bool) (l : List (TransparentObject F)) :
    drawnObjects (l.flatMap (drawTransparentObject shader loc))
      = l.map (fun o => (o.name, o.modelInfo)) := by
  induction l with
  | nil => rfl
  | cons o rest ih =>
    simp [List.flatMap_cons, drawnObjects_append, drawnObjects_drawTransparentObject, ih]

theorem collectTransparent_eq (glm : Glm F) (models : Registry F) (cameraPos : Vec3 F)
    (glassOnly : Bool) :
    collectTransparent glm models cameraPos glassOnly
      = (models.filter (matchesPass glassOnly)).map
          (fun p => ⟨p.2, p.1, glm.length (cameraPos - p.2.position)⟩) := by
  induction models with
  | nil => rfl
  | cons p rest ih =>
    unfold collectTransparent
    simp only [ih]
    cases ht : p.2.isTransparent <;> cases hg : p.2.isGlass <;> cases glassOnly <;>
      cases hm : p.2.model <;> simp [matchesPass, List.filter_cons, ht, hg, hm]

theorem stdSortContract_insertionStdSort {F : Type} [LinearOrder F] :
    StdSortContract TransparentObject.lt (insertionStdSort : List (TransparentObject F) → _) := by
  intro l
  haveI : IsTotal (TransparentObject F) (fun a b => b.distance ≤ a.distance) :=
    ⟨fun a b => le_total b.distance a.distance⟩
  haveI : IsTrans (TransparentObject F) (fun a b => b.distance ≤ a.distance) :=
    ⟨fun _ _ _ h1 h2 => le_trans h2 h1⟩
  refine ⟨List.perm_insertionSort _ l, ?_⟩
  have hs := List.sorted_insertionSort (fun a b : TransparentObject F => b.distance ≤ a.distance) l
  refine List.Pairwise.imp ?_ hs
  intro a b hab
  simp [TransparentObject.lt, hab]

theorem perm_pair_cases {α : Type} {a b : α} {l : List α} (h : l.Perm [a, b]) :
    l = [a, b] ∨ l = [b, a] := by
  have hlen := h.length_eq
  match l, hlen with
  | [x, y], _ =>
    have hx : x ∈ [a, b] := h.subset (by simp)
    simp only [List.mem_cons, List.mem_singleton, List.not_mem_nil, or_false] at hx
    rcases hx with rfl | rfl
    · have h2 := List.Perm.cons_inv h
      rw [List.perm_singleton] at h2
      exact Or.inl (by rw [h2])
    · have h2 := List.Perm.cons_inv (h.trans (List.Perm.swap x a []))
      rw [List.perm_singleton] at h2
      exact Or.inr (by rw [h2])

/-- The objects drawn are the sorted objects, in order. -/
theorem drawnObjects_renderTransparentObjects (glm : Glm F)
    (sort : List (TransparentObject F) → List (TransparentObject F))
    (shader : Shader) (models : Registry F) (cameraPos : Vec3 F) (loc glassOnly : Bool) :
    drawnObjects (renderTransparentObjects glm sort shader models cameraPos loc glassOnly)
      = (sort (collectTransparent glm models cameraPos glassOnly)).map
          (fun o => (o.name, o.modelInfo)) := by
  unfold renderTransparentObjects
  exact drawnObjects_flatMap shader loc _

/-- Every collected object records the distance from the camera to its own position. -/
theorem distance_of_mem_collectTransparent (glm : Glm F) (models : Registry F)
    (cameraPos : Vec3 F) (glassOnly : Bool) (o : TransparentObject F)
    (ho : o ∈ collectTransparent glm models cameraPos glassOnly) :
    o.distance = glm.length (cameraPos - o.modelInfo.position) := by
  rw [collectTransparent_eq] at ho
  obtain ⟨p, _, rfl⟩ := List.mem_map.mp ho
  rfl

/-- C1: for every registry, camera position and `glassOnly` flag, the objects drawn by
`renderTransparentObjects` are in non-increasing order of `glm::length(cameraPos - position)`
(farthest first), whatever conforming `std::sort` is used; and when the registry holds exactly
a transparent non-glass object A at distance 5 and one B at distance 20, the order is [B, A]. -/
theorem renderTransparentObjects_far_to_near (glm : Glm F)
    (sort : List (TransparentObject F) → List (TransparentObject F))
    (hsort : StdSortContract TransparentObject.lt sort)
    (shader : Shader) (models : Registry F) (cameraPos : Vec3 F) (loc glassOnly : Bool) :
    ((drawnObjects (renderTransparentObjects glm sort shader models cameraPos loc glassOnly)).map
        (fun e => glm.length (cameraPos - e.2.position))).Pairwise (fun d1 d2 => d2 ≤ d1)
    ∧ ∀ (nameA nameB : String) (infoA infoB : ModelInfo F),
        models.Perm [(nameA, infoA), (nameB, infoB)] →
        infoA.isTransparent = true → infoA.isGlass = false → infoA.model.isSome = true →
        infoB.isTransparent = true → infoB.isGlass = false → infoB.model.isSome = true →
        glm.length (cameraPos - infoA.position) = 5 →
        glm.length (cameraPos - infoB.position) = 20 →
        drawnObjects (renderTransparentObjects glm sort shader models cameraPos loc false)
          = [(nameB, infoB), (nameA, infoA)] := by
  constructor
  · rw [drawnObjects_renderTransparentObjects, List.map_map, List.pairwise_map]
    obtain ⟨hperm, hsorted⟩ := hsort (collectTransparent glm models cameraPos glassOnly)
    have hdist : ∀ o ∈ sort (collectTransparent glm models cameraPos glassOnly),
        o.distance = glm.length (cameraPos - o.modelInfo.position) :=
      fun o ho => distance_of_mem_collectTransparent glm models cameraPos glassOnly o
        (hperm.subset ho)
    refine (List.Pairwise.and_mem.mp hsorted).imp ?_
    rintro a b ⟨ha, hb, hlt⟩
    have hlt2 : ¬ (b.distance > a.distance) := by simpa [TransparentObject.lt] using hlt
    simp only [Function.comp]
    rw [← hdist a ha, ← hdist b hb]
    exact not_lt.mp hlt2
  · intro nameA nameB infoA infoB hmodels hAt hAg hAm hBt hBg hBm hA hB
    rw [drawnObjects_renderTransparentObjects]
    obtain ⟨hperm, hsorted⟩ := hsort (collectTransparent glm models cameraPos false)
    have hcol : (collectTransparent glm models cameraPos false).Perm
        [⟨infoA, nameA, 5⟩, ⟨infoB, nameB, 20⟩] := by
      rw [collectTransparent_eq]
      have h1 := (hmodels.filter (matchesPass false)).map
        (fun p : String × ModelInfo F =>
          (⟨p.2, p.1, glm.length (cameraPos - p.2.position)⟩ : TransparentObject F))
      simpa [matchesPass, List.filter_cons, hAt, hAg, hAm, hBt, hBg, hBm, hA, hB] using h1
    rcases perm_pair_cases (hperm.trans hcol) with h | h
    · rw [h] at hsorted
      simp [TransparentObject.lt] at hsorted
      exact absurd hsorted (by norm_num)
    · rw [h]; rfl

/-- C1 witness: camera at the origin, A at (3, 0, 4) and B at (0, 20, 0) with the Euclidean
length over the reals. -/
theorem renderTransparentObjects_far_to_near_witness :
    StdSortContract TransparentObject.lt (insertionStdSort : List (TransparentObject ℝ) → _)
    ∧ drawnObjects (renderTransparentObjects realGlm insertionStdSort fullShader
          [("A", transparentAt ⟨3, 0, 4⟩ false), ("B", transparentAt ⟨0, 20, 0⟩ false)]
          ⟨0, 0, 0⟩ true false)
        = [("B", transparentAt ⟨0, 20, 0⟩ false), ("A", transparentAt ⟨3, 0, 4⟩ false)] :=
  ⟨stdSortContract_insertionStdSort,
   (renderTransparentObjects_far_to_near realGlm insertionStdSort
      stdSortContract_insertionStdSort fullShader
      [("A", transparentAt ⟨3, 0, 4⟩ false), ("B", transparentAt ⟨0, 20, 0⟩ false)]
      ⟨0, 0, 0⟩ true false).2 "A" "B" _ _ (List.Perm.refl _) rfl rfl rfl rfl rfl rfl
      (realGlm_length_eq _ 5 (by norm_num) (by norm_num [transparentAt, Vec3.sub_eq]))
      (realGlm_length_eq _ 20 (by norm_num) (by norm_num [transparentAt, Vec3.sub_eq]))⟩

/-- The objects drawn are a rearrangement of the registry entries that pass the filter. -/
theorem drawnObjects_perm_filter (glm : Glm F)
    (sort : List (TransparentObject F) → List (TransparentObject F))
    (hsort : StdSortContract TransparentObject.lt sort)
    (shader : Shader) (models : Registry F) (cameraPos : Vec3 F) (loc glassOnly : Bool) :
    (drawnObjects (renderTransparentObjects glm sort shader models cameraPos loc glassOnly)).Perm
      (models.filter (matchesPass glassOnly)) := by
  rw [drawnObjects_renderTransparentObjects]
  have h1 := ((hsort (collectTransparent glm models cameraPos glassOnly)).1).map
    (fun o : TransparentObject F => (o.name, o.modelInfo))
  rw [collectTransparent_eq, List.map_map] at h1
  have h2 : ((fun o : TransparentObject F => (o.name, o.modelInfo)) ∘
      fun p : String × ModelInfo F =>
        (⟨p.2, p.1, glm.length (cameraPos - p.2.position)⟩ : TransparentObject F)) = id := by
    funext p; rfl
  rw [h2, List.map_id] at h1
  rw [collectTransparent_eq]
  exact h1

/-- C2: for every registry, camera position and `glassOnly` flag, the sequence drawn by
`renderTransparentObjects` is a permutation of the registry entries with `isTransparent = true`,
`isGlass = glassOnly` and a non-null model; with the keys of the map distinct, no name is drawn
twice. -/
theorem renderTransparentObjects_perm_matching (glm : Glm F)
    (sort : List (TransparentObject F) → List (TransparentObject F))
    (hsort : StdSortContract TransparentObject.lt sort)
    (shader : Shader) (models : Registry F) (cameraPos : Vec3 F) (loc glassOnly : Bool) :
    (drawnObjects (renderTransparentObjects glm sort shader models cameraPos loc glassOnly)).Perm
        (models.filter
          (fun p => p.2.isTransparent && (p.2.isGlass == glassOnly) && p.2.model.isSome))
    ∧ ((models.map Prod.fst).Nodup →
        ((drawnObjects (renderTransparentObjects glm sort shader models cameraPos loc
            glassOnly)).map Prod.fst).Nodup) := by
  have hperm := drawnObjects_perm_filter glm sort hsort shader models cameraPos loc glassOnly
  refine ⟨hperm, fun hkeys => ?_⟩
  have hsub : ((models.filter (matchesPass glassOnly)).map Prod.fst).Nodup :=
    List.Nodup.sublist ((List.filter_sublist models).map Prod.fst) hkeys
  exact ((hperm.map Prod.fst).nodup_iff).mpr hsub

/-- C2 witness: the glass pass over the transparent entries of the scene. -/
theorem renderTransparentObjects_perm_matching_witness :
    StdSortContract TransparentObject.lt (insertionStdSort : List (TransparentObject ℝ) → _)
    ∧ (drawnObjects (renderTransparentObjects realGlm insertionStdSort fullShader
          sceneTransparents ⟨0, 17 / 10, 10⟩ true true)).Perm
        (sceneTransparents.filter
          (fun p => p.2.isTransparent && (p.2.isGlass == true) && p.2.model.isSome)) :=
  ⟨stdSortContract_insertionStdSort,
   (renderTransparentObjects_perm_matching realGlm insertionStdSort
      stdSortContract_insertionStdSort fullShader sceneTransparents ⟨0, 17 / 10, 10⟩ true true).1⟩

/-- C3 (as amended): two matching transparent objects whose distances to the camera are equal
are both drawn, whatever conforming `std::sort` is used; they are drawn in registry order when
the sort is the stable insertion sort. -/
theorem renderTransparentObjects_equal_distance (glm : Glm F)
    (sort : List (TransparentObject F) → List (TransparentObject F))
    (hsort : StdSortContract TransparentObject.lt sort)
    (shader : Shader) (models : Registry F) (cameraPos : Vec3 F) (loc glassOnly : Bool)
    (a b : String × ModelInfo F) (hab : [a, b].Sublist models)
    (ha : matchesPass glassOnly a = true) (hb : matchesPass glassOnly b = true)
    (hdist : glm.length (cameraPos - a.2.position) = glm.length (cameraPos - b.2.position)) :
    (a ∈ drawnObjects (renderTransparentObjects glm sort shader models cameraPos loc glassOnly)
      ∧ b ∈ drawnObjects (renderTransparentObjects glm sort shader models cameraPos loc glassOnly))
    ∧ [a, b].Sublist (drawnObjects
        (renderTransparentObjects glm insertionStdSort shader models cameraPos loc glassOnly)) := by
  have hfil : [a, b].Sublist (models.filter (matchesPass glassOnly)) := by
    have h := hab.filter (matchesPass glassOnly)
    simpa [List.filter_cons, ha, hb] using h
  constructor
  · have hperm := drawnObjects_perm_filter glm sort hsort shader models cameraPos loc glassOnly
    exact ⟨hperm.symm.subset (hfil.subset (by simp)), hperm.symm.subset (hfil.subset (by simp))⟩
  · rw [drawnObjects_renderTransparentObjects, collectTransparent_eq]
    have h1 := hfil.map (fun p : String × ModelInfo F =>
      (⟨p.2, p.1, glm.length (cameraPos - p.2.position)⟩ : TransparentObject F))
    have h2 := @List.pair_sublist_insertionSort _
      (fun x y : TransparentObject F => y.distance ≤ x.distance) _ _ _ _
      (le_of_eq hdist.symm) h1
    exact h2.map (fun o : TransparentObject F => (o.name, o.modelInfo))

/-- C3 witness: the two glass entries of the scene, both at the origin. -/
theorem renderTransparentObjects_equal_distance_witness :
    StdSortContract TransparentObject.lt (insertionStdSort : List (TransparentObject ℝ) → _)
    ∧ [("GlassPanels", transparentAt (⟨0, 0, 0⟩ : Vec3 ℝ) true),
        ("Windows", transparentAt ⟨0, 0, 0⟩ true)].Sublist
      (drawnObjects (renderTransparentObjects realGlm insertionStdSort fullShader
        sceneTransparents ⟨0, 17 / 10, 10⟩ true true)) :=
  ⟨stdSortContract_insertionStdSort,
   (renderTransparentObjects_equal_distance realGlm insertionStdSort
      stdSortContract_insertionStdSort fullShader sceneTransparents ⟨0, 17 / 10, 10⟩ true true
      ("GlassPanels", transparentAt ⟨0, 0, 0⟩ true) ("Windows", transparentAt ⟨0, 0, 0⟩ true)
      (by simp [sceneTransparents]) rfl rfl rfl).2⟩

end RenderLemmas

/-! ## The order std::sort leaves among equal distances -/

section SortMap
variable {α β : Type} (g : α → β) (comp : α → α → Bool) (comp2 : β → β → Bool)

theorem iter_swap_map (v : List α) (i j : Nat) :
    iter_swap (v.map g) i j = (iter_swap v i j).map (List.map g) := by
  unfold iter_swap
  simp only [List.getElem?_map]
  cases v[i]? <;> cases v[j]? <;> simp [List.map_set]

theorem move_median_to_first_map (h : ∀ a b, comp2 (g a) (g b) = comp a b) (v : List α)
    (result a b c : Nat) :
    move_median_to_first comp2 (v.map g) result a b c
      = (move_median_to_first comp v result a b c).map (List.map g) := by
  unfold move_median_to_first
  simp only [List.getElem?_map]
  cases v[a]? <;> cases v[b]? <;> cases v[c]? <;> simp [h, iter_swap_map]
  split_ifs <;> rfl

theorem scanUp_map (h : ∀ a b, comp2 (g a) (g b) = comp a b) (pivot : α) (l : List α)
    (first : Nat) : scanUp comp2 (g pivot) (l.map g) first = scanUp comp pivot l first := by
  induction l generalizing first with
  | nil => rfl
  | cons x rest ih => simp [scanUp, h, ih]

theorem scanDown_map (h : ∀ a b, comp2 (g a) (g b) = comp a b) (pivot : α) (v : List α)
    (last : Nat) : scanDown comp2 (g pivot) (v.map g) last = scanDown comp pivot v last := by
  induction last with
  | zero =>
    unfold scanDown
    simp only [List.getElem?_map]
    cases v[0]? <;> simp [h]
  | succ n ih =>
    unfold scanDown
    simp only [List.getElem?_map]
    cases v[n + 1]? <;> simp [h, ih]

theorem unguarded_partition_map (h : ∀ a b, comp2 (g a) (g b) = comp a b) (pivot rounds : Nat)
    (v : List α) (first last : Nat) :
    unguarded_partition comp2 pivot rounds (v.map g) first last
      = (unguarded_partition comp pivot rounds v first last).map (Prod.map id (List.map g)) := by
  induction rounds generalizing v first last with
  | zero => rfl
  | succ n ih =>
    unfold unguarded_partition
    simp only [List.getElem?_map, ← List.map_drop]
    cases v[pivot]? with
    | none => rfl
    | some p =>
      simp only [Option.map_some', Option.bind_eq_bind, Option.some_bind,
        scanUp_map g comp comp2 h, scanDown_map g comp comp2 h]
      cases scanUp comp p (List.drop first v) first with
      | none => rfl
      | some f =>
        simp only [Option.some_bind]
        by_cases hl : last = 0
        · simp [hl]
        · simp only [hl, if_false]
          cases scanDown comp p v (last - 1) with
          | none => simp
          | some l2 =>
            by_cases hfl : l2 ≤ f
            · simp [hfl]
            · cases hs : iter_swap v f l2 with
              | none => simp [hfl, iter_swap_map, hs]
              | some v2 => simp [hfl, iter_swap_map, hs, ih]

theorem unguarded_partition_pivot_map (h : ∀ a b, comp2 (g a) (g b) = comp a b)
    (v : List α) (first last : Nat) :
    unguarded_partition_pivot comp2 (v.map g) first last
      = (unguarded_partition_pivot comp v first last).map (Prod.map id (List.map g)) := by
  unfold unguarded_partition_pivot
  simp only [move_median_to_first_map g comp comp2 h]
  cases move_median_to_first comp v first (first + 1) (first + (last - first) / 2) (last - 1) with
  | none => rfl
  | some v2 => simp [unguarded_partition_map g comp comp2 h]

theorem foldlM_map {γ : Type} (l : List γ) (f : List α → γ → Option (List α))
    (f2 : List β → γ → Option (List β))
    (hf : ∀ v k, f2 (v.map g) k = (f v k).map (List.map g)) (v : List α) :
    l.foldlM f2 (v.map g) = (l.foldlM f v).map (List.map g) := by
  induction l generalizing v with
  | nil => rfl
  | cons k rest ih =>
    simp only [List.foldlM_cons, hf]
    cases f v k with
    | none => rfl
    | some v2 => simp [ih]

theorem push_heap_loop_map (h : ∀ a b, comp2 (g a) (g b) = comp a b) (first topIndex : Nat)
    (value : α) (rounds : Nat) (v : List α) (holeIndex : Nat) :
    push_heap_loop comp2 first topIndex (g value) rounds (v.map g) holeIndex
      = (push_heap_loop comp first topIndex value rounds v holeIndex).map (List.map g) := by
  induction rounds generalizing v holeIndex with
  | zero => rfl
  | succ n ih =>
    unfold push_heap_loop
    simp only [List.getElem?_map]
    cases v[first + (holeIndex - 1) / 2]? with
    | none => rfl
    | some vp =>
      simp only [Option.map_some', Option.bind_eq_bind, Option.some_bind, h, ← List.map_set, ih]
      split_ifs <;> rfl

theorem push_heap_map (h : ∀ a b, comp2 (g a) (g b) = comp a b) (v : List α)
    (first holeIndex topIndex : Nat) (value : α) :
    push_heap comp2 (v.map g) first holeIndex topIndex (g value)
      = (push_heap comp v first holeIndex topIndex value).map (List.map g) :=
  push_heap_loop_map g comp comp2 h _ _ _ _ _ _

theorem adjust_heap_loop_map (h : ∀ a b, comp2 (g a) (g b) = comp a b) (first len : Nat)
    (rounds : Nat) (v : List α) (holeIndex secondChild : Nat) :
    adjust_heap_loop comp2 first len rounds (v.map g) holeIndex secondChild
      = (adjust_heap_loop comp first len rounds v holeIndex secondChild).map
          (Prod.map (List.map g) id) := by
  induction rounds generalizing v holeIndex secondChild with
  | zero => rfl
  | succ n ih =>
    unfold adjust_heap_loop
    by_cases hc : secondChild < (len - 1) / 2
    · simp only [hc, if_true, List.getElem?_map]
      cases v[first + 2 * (secondChild + 1)]? with
      | none => rfl
      | some x =>
        cases v[first + (2 * (secondChild + 1) - 1)]? with
        | none => rfl
        | some y =>
          simp only [Option.map_some', Option.bind_eq_bind, Option.some_bind, h]
          cases v[first + if comp x y = true then 2 * (secondChild + 1) - 1
              else 2 * (secondChild + 1)]? with
          | none => rfl
          | some z => simp only [Option.map_some', Option.some_bind, ← List.map_set, ih]
    · simp [hc]

theorem adjust_heap_map (h : ∀ a b, comp2 (g a) (g b) = comp a b) (v : List α)
    (first holeIndex len : Nat) (value : α) :
    adjust_heap comp2 (v.map g) first holeIndex len (g value)
      = (adjust_heap comp v first holeIndex len value).map (List.map g) := by
  unfold adjust_heap
  simp only [adjust_heap_loop_map g comp comp2 h]
  cases adjust_heap_loop comp first len (len + 1) v holeIndex holeIndex with
  | none => rfl
  | some r =>
    obtain ⟨v2, hole, sc⟩ := r
    simp only [Option.map_some', Option.bind_eq_bind, Option.some_bind, Prod.map_apply, id_eq,
      List.getElem?_map]
    split_ifs
    · cases v2[first + (2 * (sc + 1) - 1)]? with
      | none => rfl
      | some z =>
        simp only [Option.map_some', Option.some_bind, ← List.map_set,
          push_heap_map g comp comp2 h]
    · exact push_heap_map g comp comp2 h _ _ _ _ _

theorem pop_heap_map (h : ∀ a b, comp2 (g a) (g b) = comp a b) (v : List α)
    (first last result : Nat) :
    pop_heap comp2 (v.map g) first last result
      = (pop_heap comp v first last result).map (List.map g) := by
  unfold pop_heap
  simp only [List.getElem?_map]
  cases v[result]? with
  | none => rfl
  | some value =>
    cases v[first]? with
    | none => rfl
    | some top =>
      simp only [Option.map_some', Option.bind_eq_bind, Option.some_bind, ← List.map_set,
        adjust_heap_map g comp comp2 h]

theorem make_heap_loop_map (h : ∀ a b, comp2 (g a) (g b) = comp a b) (first len parent : Nat)
    (v : List α) :
    make_heap_loop comp2 first len parent (v.map g)
      = (make_heap_loop comp first len parent v).map (List.map g) := by
  induction parent generalizing v with
  | zero =>
    unfold make_heap_loop
    simp only [List.getElem?_map]
    cases v[first]? with
    | none => rfl
    | some value =>
      simp only [Option.map_some', Option.bind_eq_bind, Option.some_bind,
        adjust_heap_map g comp comp2 h]
  | succ n ih =>
    unfold make_heap_loop
    simp only [List.getElem?_map]
    cases v[first + (n + 1)]? with
    | none => rfl
    | some value =>
      simp only [Option.map_some', Option.bind_eq_bind, Option.some_bind,
        adjust_heap_map g comp comp2 h]
      cases adjust_heap comp v first (n + 1) len value with
      | none => rfl
      | some v2 => simp only [Option.map_some', Option.some_bind, ih]

theorem make_heap_map (h : ∀ a b, comp2 (g a) (g b) = comp a b) (v : List α)
    (first last : Nat) :
    make_heap comp2 (v.map g) first last = (make_heap comp v first last).map (List.map g) := by
  unfold make_heap
  split_ifs
  · rfl
  · exact make_heap_loop_map g comp comp2 h _ _ _ _

theorem sort_heap_map (h : ∀ a b, comp2 (g a) (g b) = comp a b) (first len : Nat)
    (v : List α) :
    sort_heap comp2 first len (v.map g) = (sort_heap comp first len v).map (List.map g) := by
  induction len using Nat.strong_induction_on generalizing v with
  | _ len ih =>
    match len with
    | 0 => rfl
    | 1 => rfl
    | n + 2 =>
      unfold sort_heap
      simp only [pop_heap_map g comp comp2 h]
      cases pop_heap comp v first (first + n + 1) (first + n + 1) with
      | none => rfl
      | some v2 =>
        simp only [Option.map_some', Option.bind_eq_bind, Option.some_bind]
        exact ih (n + 1) (by omega) v2

theorem heap_select_map (h : ∀ a b, comp2 (g a) (g b) = comp a b) (v : List α)
    (first middle last : Nat) :
    heap_select comp2 (v.map g) first middle last
      = (heap_select comp v first middle last).map (List.map g) := by
  unfold heap_select
  simp only [make_heap_map g comp comp2 h]
  cases make_heap comp v first middle with
  | none => rfl
  | some v2 =>
    simp only [Option.map_some', Option.bind_eq_bind, Option.some_bind]
    apply foldlM_map
    intro w k
    simp only [List.getElem?_map]
    cases w[middle + k]? with
    | none => rfl
    | some x =>
      cases w[first]? with
      | none => rfl
      | some top =>
        simp only [Option.map_some', Option.bind_eq_bind, Option.some_bind, h,
          pop_heap_map g comp comp2 h]
        split_ifs <;> rfl

theorem partial_sort_map (h : ∀ a b, comp2 (g a) (g b) = comp a b) (v : List α)
    (first middle last : Nat) :
    partial_sort comp2 (v.map g) first middle last
      = (partial_sort comp v first middle last).map (List.map g) := by
  unfold partial_sort
  simp only [heap_select_map g comp comp2 h]
  cases heap_select comp v first middle last with
  | none => rfl
  | some v2 =>
    simp only [Option.map_some', Option.bind_eq_bind, Option.some_bind,
      sort_heap_map g comp comp2 h]

theorem introsort_loop_map (h : ∀ a b, comp2 (g a) (g b) = comp a b) (depth_limit : Nat)
    (v : List α) (first last : Nat) :
    introsort_loop comp2 depth_limit (v.map g) first last
      = (introsort_loop comp depth_limit v first last).map (List.map g) := by
  induction depth_limit generalizing v first last with
  | zero =>
    unfold introsort_loop
    split_ifs
    · exact partial_sort_map g comp comp2 h _ _ _ _
    · rfl
  | succ n ih =>
    unfold introsort_loop
    split_ifs
    · simp only [unguarded_partition_pivot_map g comp comp2 h]
      cases unguarded_partition_pivot comp v first last with
      | none => rfl
      | some r =>
        obtain ⟨cut, v1⟩ := r
        simp only [Option.map_some', Option.bind_eq_bind, Option.some_bind, Prod.map_apply,
          id_eq, ih]
        cases introsort_loop comp n v1 cut last with
        | none => rfl
        | some v2 => simp only [Option.map_some', Option.some_bind, ih]
    · rfl

theorem unguarded_linear_insert_loop_map (h : ∀ a b, comp2 (g a) (g b) = comp a b)
    (val : α) (v : List α) (last : Nat) :
    unguarded_linear_insert_loop comp2 (g val) (v.map g) last
      = (unguarded_linear_insert_loop comp val v last).map (List.map g) := by
  induction last generalizing v with
  | zero => rfl
  | succ n ih =>
    unfold unguarded_linear_insert_loop
    simp only [List.getElem?_map]
    cases v[n]? with
    | none => rfl
    | some x =>
      simp only [Option.map_some', Option.bind_eq_bind, Option.some_bind, h, ← List.map_set, ih]
      split_ifs <;> rfl

theorem unguarded_linear_insert_map (h : ∀ a b, comp2 (g a) (g b) = comp a b)
    (v : List α) (last : Nat) :
    unguarded_linear_insert comp2 (v.map g) last
      = (unguarded_linear_insert comp v last).map (List.map g) := by
  unfold unguarded_linear_insert
  simp only [List.getElem?_map]
  cases v[last]? with
  | none => rfl
  | some val =>
    simp only [Option.map_some', Option.bind_eq_bind, Option.some_bind,
      unguarded_linear_insert_loop_map g comp comp2 h]

theorem insertion_sort_map (h : ∀ a b, comp2 (g a) (g b) = comp a b)
    (v : List α) (first last : Nat) :
    insertion_sort comp2 (v.map g) first last
      = (insertion_sort comp v first last).map (List.map g) := by
  unfold insertion_sort
  split_ifs
  · rfl
  · apply foldlM_map
    intro w k
    simp only [List.getElem?_map]
    cases w[first + 1 + k]? with
    | none => rfl
    | some x =>
      cases w[first]? with
      | none => rfl
      | some f =>
        simp only [Option.map_some', Option.bind_eq_bind, Option.some_bind, h,
          unguarded_linear_insert_map g comp comp2 h]
        split_ifs
        · simp [List.map_take, List.map_drop]
        · rfl

theorem unguarded_insertion_sort_map (h : ∀ a b, comp2 (g a) (g b) = comp a b)
    (v : List α) (first last : Nat) :
    unguarded_insertion_sort comp2 (v.map g) first last
      = (unguarded_insertion_sort comp v first last).map (List.map g) := by
  unfold unguarded_insertion_sort
  apply foldlM_map
  intro w k
  exact unguarded_linear_insert_map g comp comp2 h w _

theorem final_insertion_sort_map (h : ∀ a b, comp2 (g a) (g b) = comp a b)
    (v : List α) (first last : Nat) :
    final_insertion_sort comp2 (v.map g) first last
      = (final_insertion_sort comp v first last).map (List.map g) := by
  unfold final_insertion_sort
  split_ifs
  · simp only [insertion_sort_map g comp comp2 h]
    cases insertion_sort comp v first (first + 16) with
    | none => rfl
    | some v2 =>
      simp only [Option.map_some', Option.bind_eq_bind, Option.some_bind,
        unguarded_insertion_sort_map g comp comp2 h]
  · exact insertion_sort_map g comp comp2 h _ _ _

theorem std_sort_map (h : ∀ a b, comp2 (g a) (g b) = comp a b) (v : List α) :
    std_sort comp2 (v.map g) = (std_sort comp v).map (List.map g) := by
  unfold std_sort
  simp only [List.length_map]
  split_ifs
  · rfl
  · simp only [introsort_loop_map g comp comp2 h]
    cases introsort_loop comp (lg v.length v.length * 2) v 0 v.length with
    | none => rfl
    | some v2 =>
      simp only [Option.map_some', Option.bind_eq_bind, Option.some_bind, List.length_map,
        final_insertion_sort_map g comp comp2 h]

end SortMap

theorem std_sort_seventeen_ties :
    std_sort (fun _ _ : String => false) paneNames
      = some ["Pane09", "Pane17", "Pane16", "Pane15", "Pane14", "Pane13", "Pane12", "Pane11",
              "Pane10", "Pane01", "Pane08", "Pane07", "Pane06", "Pane05", "Pane04", "Pane03",
              "Pane02"] := by
  decide

theorem std_sort_two_ties :
    std_sort (fun _ _ : String => false) ["GlassPanels", "Windows"]
      = some ["GlassPanels", "Windows"] := by
  decide

theorem std_sort_equal_distance (info : ModelInfo ℝ) (d : ℝ) (names : List String) :
    std_sort TransparentObject.lt
        (names.map (fun name => (⟨info, name, d⟩ : TransparentObject ℝ)))
      = (std_sort (fun _ _ : String => false) names).map
          (List.map (fun name => (⟨info, name, d⟩ : TransparentObject ℝ))) :=
  std_sort_map _ _ _ (fun a b => by simp [TransparentObject.lt]) names

/-- C3 counterexample: seventeen glass entries `Pane01` .. `Pane17`, all at the origin and
so at the same distance from the camera. With more than 16 elements `std::sort` of libstdc++
runs a partition round before its final insertion sort, and `Pane09` is drawn first and
`Pane01` tenth, although the map visits `Pane01` first. On the two glass entries of the scene
the same sort keeps the map order. -/
theorem renderTransparentObjects_not_stable :
    seventeenPanes.map Prod.fst = paneNames
    ∧ seventeenPanes.map (fun p => realGlm.length ((⟨0, 17 / 10, 10⟩ : Vec3 ℝ) - p.2.position))
        = List.replicate 17 (realGlm.length ((⟨0, 17 / 10, 10⟩ : Vec3 ℝ) - ⟨0, 0, 0⟩))
    ∧ (std_sort TransparentObject.lt
        (collectTransparent realGlm seventeenPanes ⟨0, 17 / 10, 10⟩ true)).isSome = true
    ∧ drawnObjects (renderTransparentObjects realGlm libstdcxxSort fullShader
          seventeenPanes ⟨0, 17 / 10, 10⟩ true true)
        = ["Pane09", "Pane17", "Pane16", "Pane15", "Pane14", "Pane13", "Pane12", "Pane11",
           "Pane10", "Pane01", "Pane08", "Pane07", "Pane06", "Pane05", "Pane04", "Pane03",
           "Pane02"].map (fun name => (name, transparentAt ⟨0, 0, 0⟩ true))
    ∧ drawnObjects (renderTransparentObjects realGlm libstdcxxSort fullShader
          sceneTransparents ⟨0, 17 / 10, 10⟩ true true)
        = [("GlassPanels", transparentAt ⟨0, 0, 0⟩ true),
           ("Windows", transparentAt ⟨0, 0, 0⟩ true)] := by
  have h17 : collectTransparent realGlm seventeenPanes ⟨0, 17 / 10, 10⟩ true
      = paneNames.map (fun name => (⟨transparentAt ⟨0, 0, 0⟩ true, name,
          realGlm.length ((⟨0, 17 / 10, 10⟩ : Vec3 ℝ) - ⟨0, 0, 0⟩)⟩ : TransparentObject ℝ)) :=
    rfl
  have h2 : collectTransparent realGlm sceneTransparents ⟨0, 17 / 10, 10⟩ true
      = ["GlassPanels", "Windows"].map (fun name => (⟨transparentAt ⟨0, 0, 0⟩ true, name,
          realGlm.length ((⟨0, 17 / 10, 10⟩ : Vec3 ℝ) - ⟨0, 0, 0⟩)⟩ : TransparentObject ℝ)) :=
    rfl
  refine ⟨rfl, rfl, ?_, ?_, ?_⟩
  · rw [h17, std_sort_equal_distance, std_sort_seventeen_ties]
    rfl
  · rw [drawnObjects_renderTransparentObjects, libstdcxxSort, h17, std_sort_equal_distance,
      std_sort_seventeen_ties]
    rfl
  · rw [drawnObjects_renderTransparentObjects, libstdcxxSort, h2, std_sort_equal_distance,
      std_sort_two_ties]
    rfl

/-! ## Camera pitch -/

section DroneLemmas
variable {F : Type} [LinearOrderedField F]

theorem Drone.rotatePitch_pitch (glm : Glm F) (d : Drone F) (offset : F) :
    (d.rotatePitch glm offset).pitch = max (-89) (min 89 (d.pitch + offset)) := by
  simp only [Drone.rotatePitch, Drone.updateFront]
  by_cases h1 : d.pitch + offset > 89
  · have h2 : ¬ ((89 : F) < -89) := by norm_num
    simp [h1, h2, min_eq_left (le_of_lt h1)]
  · have h1le : d.pitch + offset ≤ 89 := not_lt.mp h1
    by_cases h3 : d.pitch + offset < -89
    · simp [h1, h3, min_eq_right h1le, max_eq_left (le_of_lt h3)]
    · simp [h1, h3, min_eq_right h1le, max_eq_right (not_lt.mp h3)]

theorem Drone.pitchInRange_rotatePitch (glm : Glm F) (d : Drone F) (offset : F) :
    (d.rotatePitch glm offset).PitchInRange := by
  unfold Drone.PitchInRange
  rw [Drone.rotatePitch_pitch]
  exact ⟨le_max_left _ _, max_le (by norm_num) (min_le_left _ _)⟩

theorem Drone.pitchInRange_rotateYaw (glm : Glm F) (d : Drone F) (offset : F)
    (h : d.PitchInRange) : (d.rotateYaw glm offset).PitchInRange := h

theorem Drone.pitchInRange_reset (glm : Glm F) (d : Drone F) : (d.reset glm).PitchInRange := by
  simp [Drone.PitchInRange, Drone.reset, Drone.updateFront]

theorem Drone.pitchInRange_ite (c : Bool) (a b : Drone F) (ha : a.PitchInRange)
    (hb : b.PitchInRange) : (if c = true then a else b).PitchInRange := by
  cases c <;> simpa

theorem Drone.pitchInRange_position (d : Drone F) (pos : Vec3 F) (h : d.PitchInRange) :
    Drone.PitchInRange { d with position := pos } := h

theorem pitchInRange_processInput (glm : Glm F) (keys : KeyboardState) (deltaTime : F)
    (d : Drone F) (h : d.PitchInRange) : (processInput glm keys deltaTime d).PitchInRange := by
  unfold processInput
  dsimp only
  repeat first
    | exact h
    | apply Drone.pitchInRange_ite
    | apply Drone.pitchInRange_rotatePitch
    | apply Drone.pitchInRange_rotateYaw
    | apply Drone.pitchInRange_position

theorem pitchInRange_apply (glm : Glm F) (d : Drone F) (call : DroneCall F)
    (h : d.PitchInRange) : (call.apply glm d).PitchInRange := by
  cases call with
  | rotatePitch offset => exact Drone.pitchInRange_rotatePitch glm d offset
  | rotateYaw offset => exact Drone.pitchInRange_rotateYaw glm d offset h
  | reset => exact Drone.pitchInRange_reset glm d
  | processInput keys deltaTime => exact pitchInRange_processInput glm keys deltaTime d h

theorem pitchInRange_run (glm : Glm F) (calls : List (DroneCall F)) (d : Drone F)
    (h : d.PitchInRange) : (d.run glm calls).PitchInRange := by
  induction calls generalizing d with
  | nil => exact h
  | cons call rest ih => exact ih _ (pitchInRange_apply glm d call h)

/-- C4: starting from the initial drone (pitch 0), after any finite sequence of `rotatePitch`,
`rotateYaw`, `reset` calls and `processInput` frames with arbitrary offsets, the pitch lies in
[-89, 89]; and `rotatePitch(o)` sets the pitch to `clamp(pitch + o, -89, 89)`. -/
theorem drone_pitch_clamped (glm : Glm F) (calls : List (DroneCall F)) :
    (-89 ≤ ((Drone.initial : Drone F).run glm calls).pitch
      ∧ ((Drone.initial : Drone F).run glm calls).pitch ≤ 89)
    ∧ ∀ (d : Drone F) (offset : F),
        (d.rotatePitch glm offset).pitch = max (-89) (min 89 (d.pitch + offset)) :=
  ⟨pitchInRange_run glm calls Drone.initial (by simp [Drone.PitchInRange, Drone.initial]),
   fun d offset => Drone.rotatePitch_pitch glm d offset⟩

end DroneLemmas

/-! ## Point lights -/

theorem writesTo_append {F : Type} (n : UniformName) (a b : List (GLCall F)) :
    writesTo n (a ++ b) = writesTo n a ++ writesTo n b := by
  simp [writesTo]

section LightLemmas
variable {F : Type} [LinearOrderedField F]

theorem writesTo_pointLightBlock_lit (s : String) (light : PointLightData F) (a : Int) :
    writesTo (.lit s) (pointLightBlock light a) = [] := by
  simp [writesTo, pointLightBlock, GLCall.target, List.filter_cons]

theorem writesTo_pointLightBlock_ne (i : Int) (f : PointLightField) (light : PointLightData F)
    (a : Int) (h : i ≠ a) : writesTo (.pointLight i f) (pointLightBlock light a) = [] := by
  have h2 : ¬ (a = i) := fun e => h e.symm
  simp [writesTo, pointLightBlock, GLCall.target, List.filter_cons, h2]

theorem writesTo_pointLightBlock_enabled (light : PointLightData F) (a : Int) :
    writesTo (.pointLight a .enabled) (pointLightBlock light a)
      = [GLCall.uniform1i (.pointLight a .enabled) 1] := by
  simp [writesTo, pointLightBlock, GLCall.target, List.filter_cons]

theorem pointLightBlocks_active (C : Int) (ls : List (PointLightData F)) (a : Int) :
    (pointLightBlocks C ls a).1 = if a < C then min (a + ls.length) C else a := by
  induction ls generalizing a with
  | nil =>
    simp only [pointLightBlocks, List.length_nil, Nat.cast_zero, add_zero]
    split_ifs with h
    · exact (min_eq_left (le_of_lt h)).symm
    · rfl
  | cons light rest ih =>
    simp only [pointLightBlocks, List.length_cons, Nat.cast_add, Nat.cast_one]
    split_ifs with h
    · simp only [ih]
      split_ifs with h2
      · congr 1; ring
      · rw [min_eq_right (by omega)]; omega
    · rw [ih, if_neg h]

theorem writesTo_pointLightBlocks_lit (s : String) (C : Int) (ls : List (PointLightData F))
    (a : Int) : writesTo (.lit s) (pointLightBlocks C ls a).2 = [] := by
  induction ls generalizing a with
  | nil => rfl
  | cons light rest ih =>
    simp only [pointLightBlocks]
    split_ifs with h
    · simp only [writesTo_append, writesTo_pointLightBlock_lit, ih, List.append_nil]
    · exact ih a

theorem writesTo_pointLightBlocks_outside (i : Int) (f : PointLightField) (C : Int)
    (ls : List (PointLightData F)) (a : Int)
    (h : i < a ∨ (pointLightBlocks C ls a).1 ≤ i) :
    writesTo (.pointLight i f) (pointLightBlocks C ls a).2 = [] := by
  induction ls generalizing a with
  | nil => rfl
  | cons light rest ih =>
    simp only [pointLightBlocks] at h ⊢
    split_ifs at h ⊢ with hlt
    · have hmono : a + 1 ≤ (pointLightBlocks C rest (a + 1)).1 := by
        rw [pointLightBlocks_active]
        split_ifs with h3
        · exact le_min (by omega) (by omega)
        · exact le_refl _
      have hne : i ≠ a := by
        rcases h with h | h
        · omega
        · simp only at h; omega
      rw [writesTo_append, writesTo_pointLightBlock_ne i f light a hne, List.nil_append]
      apply ih
      rcases h with h | h
      · exact Or.inl (by omega)
      · exact Or.inr h
    · exact ih a h

theorem writesTo_pointLightBlocks_enabled (i : Int) (C : Int) (ls : List (PointLightData F))
    (a : Int) (h1 : a ≤ i) (h2 : i < (pointLightBlocks C ls a).1) :
    writesTo (.pointLight i .enabled) (pointLightBlocks C ls a).2
      = [GLCall.uniform1i (.pointLight i .enabled) 1] := by
  induction ls generalizing a with
  | nil => simp only [pointLightBlocks] at h2; omega
  | cons light rest ih =>
    simp only [pointLightBlocks] at h2 ⊢
    split_ifs at h2 ⊢ with hlt
    · simp only at h2
      rw [writesTo_append]
      by_cases hia : i = a
      · subst hia
        rw [writesTo_pointLightBlock_enabled,
          writesTo_pointLightBlocks_outside i .enabled C rest (i + 1) (Or.inl (by omega))]
        rfl
      · rw [writesTo_pointLightBlock_ne i .enabled light a hia, List.nil_append]
        exact ih (a + 1) (by omega) h2
    · exact ih a h1 h2

omit [LinearOrderedField F] in
theorem writesTo_disable_range (i : Int) (f : PointLightField) (a : Int) (k : Nat) :
    writesTo (.pointLight i f)
        ((List.range k).map
          (fun (j : Nat) =>
            (GLCall.uniform1i (.pointLight (a + (j : Int)) .enabled) 0 : GLCall F)))
      = if f = .enabled ∧ a ≤ i ∧ i < a + k then [GLCall.uniform1i (.pointLight i .enabled) 0]
        else [] := by
  induction k with
  | zero =>
    have : ¬ (f = .enabled ∧ a ≤ i ∧ i < a + ((0 : Nat) : Int)) := by
      rintro ⟨_, h1, h2⟩; simp at h2; omega
    rw [if_neg this]; rfl
  | succ k ih =>
    rw [List.range_succ, List.map_append, writesTo_append, ih]
    have hcast : ((k + 1 : Nat) : Int) = (k : Int) + 1 := by push_cast; rfl
    rw [hcast]
    by_cases hf : f = .enabled
    · subst hf
      simp only [true_and]
      have hlast : writesTo (.pointLight i .enabled)
          (List.map (fun (j : Nat) =>
            (GLCall.uniform1i (.pointLight (a + (j : Int)) .enabled) 0 : GLCall F)) [k])
          = if a + (k : Int) = i then [GLCall.uniform1i (.pointLight i .enabled) 0] else [] := by
        by_cases hk : a + (k : Int) = i
        · subst hk; simp [writesTo, GLCall.target]
        · simp [writesTo, GLCall.target, hk]
      rw [hlast]
      split_ifs <;> first | (exfalso; omega) | simp
    · have hf2 : ¬ (PointLightField.enabled = f) := fun e => hf e.symm
      simp [writesTo, GLCall.target, hf, hf2]

omit [LinearOrderedField F] in
theorem writesTo_disablePointLights (i : Int) (f : PointLightField) (a C : Int) :
    writesTo (.pointLight i f) (disablePointLights a C : List (GLCall F))
      = if f = .enabled ∧ a ≤ i ∧ i < C then [GLCall.uniform1i (.pointLight i .enabled) 0]
        else [] := by
  unfold disablePointLights
  rw [writesTo_disable_range]
  have : (a ≤ i ∧ i < a + (((C - a).toNat : Nat) : Int)) ↔ (a ≤ i ∧ i < C) := by
    constructor
    · rintro ⟨h1, h2⟩; exact ⟨h1, by omega⟩
    · rintro ⟨h1, h2⟩; exact ⟨h1, by omega⟩
  simp only [this]

omit [LinearOrderedField F] in
theorem writesTo_disablePointLights_lit (s : String) (a C : Int) :
    writesTo (.lit s) (disablePointLights a C : List (GLCall F)) = [] := by
  simp only [writesTo, disablePointLights, List.filter_eq_nil_iff, List.mem_map]
  rintro c ⟨k, _, rfl⟩
  simp [GLCall.target]

theorem staticPointLights_length : (staticPointLights : List (PointLightData F)).length = 20 :=
  rfl

theorem pointLightSetup_active (C : Int) (hC : 0 ≤ C) :
    (pointLightBlocks C (staticPointLights : List (PointLightData F)) 0).1 = min 20 C := by
  rw [pointLightBlocks_active, staticPointLights_length]
  split_ifs with h
  · simp
  · have : C = 0 := by omega
    subst this; simp

/-- C5: for the twenty-entry light list and every capacity `C >= 0`, one frame's setup writes
`numPointLights = min(20, C)` (once), writes `enabled = 1` (and nothing else) to slot `i` for
`0 <= i < min(20, C)`, writes `enabled = 0` (and nothing else) to slot `i` for
`min(20, C) <= i < C`, and writes no field of any slot `i >= C`. -/
theorem pointLightSetup_uniforms (C : Int) (hC : 0 ≤ C) :
    writesTo (.lit "numPointLights") (pointLightSetup C : List (GLCall F))
        = [GLCall.uniform1i (.lit "numPointLights") (min 20 C)]
    ∧ (∀ i : Int, 0 ≤ i → i < min 20 C →
        writesTo (.pointLight i .enabled) (pointLightSetup C : List (GLCall F))
          = [GLCall.uniform1i (.pointLight i .enabled) 1])
    ∧ (∀ i : Int, min 20 C ≤ i → i < C →
        writesTo (.pointLight i .enabled) (pointLightSetup C : List (GLCall F))
          = [GLCall.uniform1i (.pointLight i .enabled) 0])
    ∧ (∀ (i : Int) (f : PointLightField), C ≤ i →
        writesTo (.pointLight i f) (pointLightSetup C : List (GLCall F)) = []) := by
  have hact := pointLightSetup_active (F := F) C hC
  refine ⟨?_, ?_, ?_, ?_⟩
  · simp only [pointLightSetup, writesTo_append, writesTo_pointLightBlocks_lit,
      writesTo_disablePointLights_lit, hact]
    simp [writesTo, GLCall.target]
  · intro i h0 h1
    simp only [pointLightSetup, writesTo_append]
    rw [writesTo_pointLightBlocks_enabled i C _ 0 h0 (by rw [hact]; exact h1),
      writesTo_disablePointLights, hact, if_neg (by omega)]
    simp [writesTo, GLCall.target]
  · intro i h0 h1
    simp only [pointLightSetup, writesTo_append]
    rw [writesTo_pointLightBlocks_outside i .enabled C _ 0 (Or.inr (by rw [hact]; exact h0)),
      writesTo_disablePointLights, hact, if_pos ⟨rfl, h0, h1⟩]
    simp [writesTo, GLCall.target]
  · intro i f h0
    simp only [pointLightSetup, writesTo_append]
    rw [writesTo_pointLightBlocks_outside i f C _ 0
        (Or.inr (by rw [hact]; exact le_trans (min_le_right _ _) h0)),
      writesTo_disablePointLights, if_neg (by omega)]
    simp [writesTo, GLCall.target]

/-- C5 witness: the capacity of the source, `MAX_POINT_LIGHTS_SUPPORTED = 20`. -/
theorem pointLightSetup_uniforms_witness :
    (0 : Int) ≤ 20
    ∧ writesTo (.lit "numPointLights") (pointLightSetup 20 : List (GLCall ℚ))
        = [GLCall.uniform1i (.lit "numPointLights") (min 20 20)] :=
  ⟨by decide, (pointLightSetup_uniforms (F := ℚ) 20 (by decide)).1⟩

end LightLemmas

/-! ## Registry construction and the two opaque loops -/

theorem mem_assign {F : Type} (models : Registry F) (name : String) (info : ModelInfo F)
    (e : String × ModelInfo F) (he : e ∈ models.assign name info) :
    e ∈ models ∨ e.2 = info := by
  induction models with
  | nil =>
    simp only [Registry.assign, List.mem_singleton] at he
    exact Or.inr (by rw [he])
  | cons kv rest ih =>
    obtain ⟨k, v⟩ := kv
    simp only [Registry.assign] at he
    split_ifs at he with h1 h2
    · rcases List.mem_cons.mp he with h | h
      · exact Or.inr (by rw [h])
      · exact Or.inl h
    · rcases List.mem_cons.mp he with h | h
      · exact Or.inr (by rw [h])
      · exact Or.inl (List.mem_cons_of_mem _ h)
    · rcases List.mem_cons.mp he with h | h
      · exact Or.inl (by rw [h]; exact List.mem_cons_self _ _)
      · rcases ih h with h3 | h3
        · exact Or.inl (List.mem_cons_of_mem _ h3)
        · exact Or.inr h3

theorem glassImpliesTransparent_assign {F : Type} (models : Registry F) (name : String)
    (info : ModelInfo F) (h : GlassImpliesTransparent models)
    (hinfo : info.isGlass = true → info.isTransparent = true) :
    GlassImpliesTransparent (models.assign name info) := by
  intro e he
  rcases mem_assign models name info e he with h1 | h1
  · exact h e h1
  · rw [h1]; exact hinfo

section SceneLemmas
variable {F : Type} [LinearOrderedField F]

theorem glassImpliesTransparent_loadNamedModels (newModel : String → Option Model)
    (names : List String) (models : Registry F) (h : GlassImpliesTransparent models) :
    GlassImpliesTransparent (loadNamedModels newModel names models).1 := by
  induction names generalizing models with
  | nil => exact h
  | cons name rest ih =>
    simp only [loadNamedModels]
    cases newModel ("models/" ++ name ++ ".obj") with
    | none => exact h
    | some m =>
      exact ih _ (glassImpliesTransparent_assign models name _ h (by simp [ModelInfo.ofModel]))

/-- C6: in the registry that `main` builds, whatever models load and wherever an exception
cuts loading short, no entry has `isGlass = true` together with `isTransparent = false`. -/
theorem loadScene_glass_implies_transparent (newModel : String → Option Model)
    (e : String × ModelInfo F) (he : e ∈ (loadScene newModel : Registry F)) :
    ¬ (e.2.isGlass = true ∧ e.2.isTransparent = false) := by
  have h0 : GlassImpliesTransparent (loadNamedModels newModel modelNames ([] : Registry F)).1 :=
    glassImpliesTransparent_loadNamedModels newModel modelNames [] (by intro e he; cases he)
  have hall : GlassImpliesTransparent (loadScene newModel : Registry F) := by
    unfold loadScene
    dsimp only
    split_ifs
    · exact h0
    · cases newModel "models/Plants.obj" with
      | none => exact h0
      | some pm =>
        have h1 := glassImpliesTransparent_assign _ "Plants"
          (⟨some pm, Vec3.splat 0, Vec3.splat 0, Vec3.splat 1, true, false⟩ : ModelInfo F) h0
          (by simp)
        cases newModel "models/AllGlass.obj" with
        | none => exact h1
        | some wm =>
          have h2 := glassImpliesTransparent_assign _ "Windows"
            (⟨some wm, Vec3.splat 0, Vec3.splat 0, Vec3.splat 1, true, true⟩ : ModelInfo F) h1
            (by simp)
          cases newModel "models/GlassPanels.obj" with
          | none => exact h2
          | some gm =>
            exact glassImpliesTransparent_assign _ "GlassPanels"
              (⟨some gm, Vec3.splat 0, Vec3.splat 0, Vec3.splat 1, true, true⟩ : ModelInfo F) h2
              (by simp)
  intro ⟨hg, ht⟩
  rw [hall e he hg] at ht
  exact Bool.noConfusion ht

/-- C6 witness: when every model loads, the Windows entry is in the registry, flagged glass
and transparent. -/
theorem loadScene_glass_implies_transparent_witness :
    ("Windows", (⟨some emptyModel, Vec3.splat 0, Vec3.splat 0, Vec3.splat 1, true, true⟩ :
        ModelInfo ℚ)) ∈ (loadScene loadsEverything : Registry ℚ)
    ∧ ¬ ((true : Bool) = true ∧ (true : Bool) = false) :=
  ⟨by decide, @loadScene_glass_implies_transparent ℚ _ loadsEverything
    ("Windows", ⟨some emptyModel, Vec3.splat 0, Vec3.splat 0, Vec3.splat 1, true, true⟩)
    (by decide)⟩

omit [LinearOrderedField F] in
theorem drawnObjects_depthPass (depthProgram : Nat) (models : Registry F) :
    drawnObjects (depthPass depthProgram models)
      = models.filter (fun p => !p.2.isTransparent && p.2.model.isSome) := by
  induction models with
  | nil => rfl
  | cons p rest ih =>
    unfold depthPass
    cases ht : p.2.isTransparent <;> cases hm : p.2.model <;>
      simp [List.filter_cons, ht, hm, ih, drawnObjects]

theorem drawnObjects_opaquePass (shader : Shader) (models : Registry F) :
    drawnObjects (opaquePass shader models)
      = models.filter (fun p => !p.2.isTransparent && p.2.model.isSome) := by
  induction models with
  | nil => rfl
  | cons p rest ih =>
    unfold opaquePass
    cases ht : p.2.isTransparent <;> cases hm : p.2.model <;>
      cases hg : shader.hasUniform (.lit "isGlass") <;>
      cases hs : shader.hasUniform (.lit "material.shininess") <;>
      simp [List.filter_cons, ht, hm, hg, hs, ih, drawnObjects, drawnObjects_append]

/-- C7: for every registry, the entries drawn in the depth pass and the entries drawn in the
forward opaque pass are both exactly the registry entries with `isTransparent = false` and a
non-null model, in registry order; no transparent entry is drawn in either pass. -/
theorem depthPass_opaquePass_same_objects (depthProgram : Nat) (shader : Shader)
    (models : Registry F) :
    drawnObjects (depthPass depthProgram models)
        = models.filter (fun p => !p.2.isTransparent && p.2.model.isSome)
    ∧ drawnObjects (opaquePass shader models)
        = models.filter (fun p => !p.2.isTransparent && p.2.model.isSome)
    ∧ (drawnObjects (depthPass depthProgram models)).filter (fun p => p.2.isTransparent) = []
    ∧ (drawnObjects (opaquePass shader models)).filter (fun p => p.2.isTransparent) = [] := by
  refine ⟨drawnObjects_depthPass depthProgram models, drawnObjects_opaquePass shader models,
    ?_, ?_⟩
  · rw [drawnObjects_depthPass, List.filter_filter, List.filter_eq_nil_iff]
    intro p _
    cases p.2.isTransparent <;> simp
  · rw [drawnObjects_opaquePass, List.filter_filter, List.filter_eq_nil_iff]
    intro p _
    cases p.2.isTransparent <;> simp

end SceneLemmas

/-! ## Texture loader -/

theorem find_last_of_eq_none (s chars : List Char) (h : ∀ c ∈ s, c ∉ chars) :
    find_last_of s chars = none := by
  induction s with
  | nil => rfl
  | cons c rest ih =>
    have h1 := ih (fun d hd => h d (List.mem_cons_of_mem _ hd))
    have h2 : c ∉ chars := h c (List.mem_cons_self _ _)
    simp [find_last_of, h1, h2]

theorem find_last_of_append (pre base chars : List Char) (sep : Char) (hsep : sep ∈ chars)
    (hbase : ∀ c ∈ base, c ∉ chars) :
    find_last_of (pre ++ sep :: base) chars = some pre.length := by
  induction pre with
  | nil => simp [find_last_of, find_last_of_eq_none base chars hbase, hsep]
  | cons c rest ih => simp [find_last_of, ih]

theorem substr_after_separator (path : String) (pre base : List Char) (sep : Char)
    (h : path.data = pre ++ sep :: base) : substr path (pre.length + 1) = String.mk base := by
  simp [substr, h]

theorem loadWithAlternates_head (env : LoaderEnv) (path directory filename : String) :
    (loadWithAlternates env path directory filename).2.head? = some filename := by
  unfold loadWithAlternates
  cases env.stbi_load filename with
  | some d => rfl
  | none =>
    simp only
    cases env.stbi_load (directory ++ "/textures/" ++ path) with
    | some d => rfl
    | none =>
      simp only
      cases find_last_of path.data ['/', '\\'] <;> rfl

theorem TextureFromFile_attempts (env : LoaderEnv) (path directory : String) (gamma : Bool)
    (gl : GLTextures) :
    (TextureFromFile env path directory gamma gl).attempts
      = (loadWithAlternates env path directory (resolveFilename path directory)).2 := by
  unfold TextureFromFile
  simp only
  cases h : (loadWithAlternates env path directory (resolveFilename path directory)).1 with
  | none => rfl
  | some d =>
    simp only
    cases textureFormats d.nrComponents gamma with
    | none => rfl
    | some fm => rfl

/-- C10: for every directory D, an absolute path (one that contains ':' or starts with '/')
that contains a separator '/' or '\\' is first tried as D + "/textures/" + the part after its
last separator, so "/abs/tex.png" is first tried as D + "/textures/tex.png"; a path that is not
absolute is first tried as D + "/" + path. -/
theorem TextureFromFile_first_attempt (env : LoaderEnv) (directory : String) (gamma : Bool)
    (gl : GLTextures) :
    (∀ (path : String) (pre base : List Char) (sep : Char),
        (':' ∈ path.data ∨ path.data.head? = some '/') →
        path.data = pre ++ sep :: base → (sep = '/' ∨ sep = '\\') →
        ('/' ∉ base ∧ '\\' ∉ base) →
        (TextureFromFile env path directory gamma gl).attempts.head?
          = some (directory ++ "/textures/" ++ String.mk base))
    ∧ (TextureFromFile env "/abs/tex.png" directory gamma gl).attempts.head?
        = some (directory ++ "/textures/tex.png")
    ∧ (∀ path : String, ¬ (':' ∈ path.data ∨ path.data.head? = some '/') →
        (TextureFromFile env path directory gamma gl).attempts.head?
          = some (directory ++ "/" ++ path)) := by
  have habs : ∀ (path : String) (pre base : List Char) (sep : Char),
      (':' ∈ path.data ∨ path.data.head? = some '/') →
      path.data = pre ++ sep :: base → (sep = '/' ∨ sep = '\\') →
      ('/' ∉ base ∧ '\\' ∉ base) →
      (TextureFromFile env path directory gamma gl).attempts.head?
        = some (directory ++ "/textures/" ++ String.mk base) := by
    intro path pre base sep habs hpath hsep hbase
    rw [TextureFromFile_attempts, loadWithAlternates_head]
    have hfind : find_last_of path.data ['/', '\\'] = some pre.length := by
      rw [hpath]
      apply find_last_of_append
      · rcases hsep with rfl | rfl <;> simp
      · intro c hc hmem
        simp only [List.mem_cons, List.mem_singleton, List.not_mem_nil, or_false] at hmem
        rcases hmem with rfl | rfl
        · exact hbase.1 hc
        · exact hbase.2 hc
    have hcond : (decide (':' ∈ path.data) || decide (path.data.head? = some '/')) = true := by
      rcases habs with h | h <;> simp [h]
    simp only [resolveFilename, hcond, if_true, hfind, substr_after_separator path pre base sep hpath]
  refine ⟨habs, ?_, ?_⟩
  · have h := habs "/abs/tex.png" "/abs".data "tex.png".data '/' (Or.inr rfl) rfl (Or.inl rfl)
      (by decide)
    rw [h, String.append_assoc]
    rfl
  · intro path hrel
    rw [TextureFromFile_attempts, loadWithAlternates_head]
    have hcond : (decide (':' ∈ path.data) || decide (path.data.head? = some '/')) = false := by
      simp only [not_or] at hrel
      simp [hrel.1, hrel.2]
    simp [resolveFilename, hcond]

/-- C10 witness: the Windows-style absolute path `C:\img\wood.png`. -/
theorem TextureFromFile_first_attempt_witness :
    (':' ∈ "C:\\img\\wood.png".data ∨ "C:\\img\\wood.png".data.head? = some '/')
    ∧ (TextureFromFile noFilesEnv "C:\\img\\wood.png" "models" false noTextures).attempts.head?
        = some ("models" ++ "/textures/" ++ String.mk "wood.png".data) :=
  ⟨Or.inl (by decide),
   (TextureFromFile_first_attempt noFilesEnv "models" false noTextures).1
      "C:\\img\\wood.png" "C:\\img".data "wood.png".data '\\' (Or.inl (by decide)) rfl
      (Or.inr rfl) (by decide)⟩

theorem find?_modify_key (l : List (Nat × TexObject)) (b : Nat) (f : TexObject → TexObject) :
    ((l.map (fun p => if p.1 = b then (p.1, f p.2) else p)).find? (fun p => p.1 == b)).map
        Prod.snd
      = ((l.find? (fun p => p.1 == b)).map Prod.snd).map f := by
  induction l with
  | nil => rfl
  | cons p rest ih =>
    rw [List.map_cons]
    by_cases hp : p.1 = b
    · rw [if_pos hp, List.find?_cons_of_pos _ (by simp [hp]),
        List.find?_cons_of_pos _ (by simp [hp])]
      rfl
    · rw [if_neg hp, List.find?_cons_of_neg _ (by simp [hp]),
        List.find?_cons_of_neg _ (by simp [hp])]
      exact ih

theorem object_modifyBound (gl : GLTextures) (f : TexObject → TexObject) :
    (gl.modifyBound f).object gl.bound = (gl.object gl.bound).map f :=
  find?_modify_key gl.objects gl.bound f

theorem glBindTexture_bound (id : Nat) (gl : GLTextures) : (glBindTexture id gl).bound = id := by
  unfold glBindTexture
  cases gl.object id <;> rfl

theorem glBindTexture_object (id : Nat) (gl : GLTextures) :
    ∃ o, (glBindTexture id gl).object id = some o := by
  unfold glBindTexture
  cases h : gl.object id with
  | some o => exact ⟨o, h⟩
  | none =>
    refine ⟨TexObject.fresh, ?_⟩
    have h2 : gl.objects.find? (fun p => p.1 == id) = none := by
      cases hf : gl.objects.find? (fun p => p.1 == id) with
      | none => rfl
      | some q => simp [GLTextures.object, hf] at h
    show ((gl.objects ++ [(id, TexObject.fresh)]).find? (fun p => p.1 == id)).map Prod.snd
      = some TexObject.fresh
    rw [List.find?_append, h2]
    simp

theorem createDefaultTexture_id (env : LoaderEnv) (gl : GLTextures) :
    (createDefaultTexture env gl).1 = env.genName gl.names := rfl

theorem createDefaultTexture_object (env : LoaderEnv) (gl : GLTextures) :
    ∃ o, (createDefaultTexture env gl).2.object (createDefaultTexture env gl).1 = some o
      ∧ IsCheckerboard o := by
  obtain ⟨o1, ho1⟩ := glBindTexture_object (env.genName gl.names) (glGenTextures env gl).2
  have hb := glBindTexture_bound (env.genName gl.names) (glGenTextures env gl).2
  have key : ∀ (g : GLTextures) (o : TexObject) (f : TexObject → TexObject),
      g.bound = env.genName gl.names → g.object (env.genName gl.names) = some o →
      (g.modifyBound f).bound = env.genName gl.names
        ∧ (g.modifyBound f).object (env.genName gl.names) = some (f o) := by
    intro g o f hg ho
    refine ⟨hg, ?_⟩
    have := object_modifyBound g f
    rw [hg, ho] at this
    exact this
  obtain ⟨b2, h2⟩ := key _ o1
    (fun o => { o with internalFormat := GLEnum.RGBA, width := 2, height := 2,
                       format := GLEnum.RGBA, pixels := checkerboard }) hb ho1
  obtain ⟨b3, h3⟩ := key _ _ (fun o => { o with wrapS := .REPEAT }) b2 h2
  obtain ⟨b4, h4⟩ := key _ _ (fun o => { o with wrapT := .REPEAT }) b3 h3
  obtain ⟨b5, h5⟩ := key _ _ (fun o => { o with minFilter := .NEAREST }) b4 h4
  obtain ⟨_, h6⟩ := key _ _ (fun o => { o with magFilter := .NEAREST }) b5 h5
  exact ⟨_, h6, by simp [IsCheckerboard]⟩

theorem loadWithAlternates_none (env : LoaderEnv) (path directory filename : String)
    (h : ∀ f ∈ (loadWithAlternates env path directory filename).2, env.stbi_load f = none) :
    (loadWithAlternates env path directory filename).1 = none := by
  unfold loadWithAlternates at h ⊢
  cases h1 : env.stbi_load filename with
  | some d =>
    simp only [h1] at h
    have := h filename (by simp)
    rw [h1] at this
    exact absurd this (by simp)
  | none =>
    simp only [h1] at h ⊢
    cases h2 : env.stbi_load (directory ++ "/textures/" ++ path) with
    | some d =>
      simp only [h2] at h
      have := h (directory ++ "/textures/" ++ path) (by simp)
      rw [h2] at this
      exact absurd this (by simp)
    | none =>
      simp only [h2] at h ⊢
      cases h3 : find_last_of path.data ['/', '\\'] with
      | none => rfl
      | some i =>
        simp only [h3] at h ⊢
        exact h _ (by simp)

/-- C9: when every file name that `TextureFromFile` tries fails to decode, or the decoded image
has a channel count other than 1, 3 or 4, the call returns the name that `createDefaultTexture`
generates (after the unused name was deleted), that name denotes the 2x2 checkerboard texture,
and it is not 0 provided the driver never hands out the name 0. -/
theorem TextureFromFile_fallback (env : LoaderEnv) (path directory : String) (gamma : Bool)
    (gl : GLTextures)
    (hfail : (∀ f ∈ (TextureFromFile env path directory gamma gl).attempts,
                env.stbi_load f = none)
      ∨ ∃ data, (loadWithAlternates env path directory (resolveFilename path directory)).1
                  = some data
          ∧ data.nrComponents ≠ 1 ∧ data.nrComponents ≠ 3 ∧ data.nrComponents ≠ 4) :
    (TextureFromFile env path directory gamma gl).id
        = (createDefaultTexture env
            (glDeleteTextures (glGenTextures env gl).1 (glGenTextures env gl).2)).1
    ∧ (TextureFromFile env path directory gamma gl).gl
        = (createDefaultTexture env
            (glDeleteTextures (glGenTextures env gl).1 (glGenTextures env gl).2)).2
    ∧ (∃ o, (TextureFromFile env path directory gamma gl).gl.object
              (TextureFromFile env path directory gamma gl).id = some o ∧ IsCheckerboard o)
    ∧ ((∀ used, env.genName used ≠ 0) → (TextureFromFile env path directory gamma gl).id ≠ 0) := by
  have hres : TextureFromFile env path directory gamma gl
      = ⟨(createDefaultTexture env
            (glDeleteTextures (glGenTextures env gl).1 (glGenTextures env gl).2)).1,
         (createDefaultTexture env
            (glDeleteTextures (glGenTextures env gl).1 (glGenTextures env gl).2)).2,
         (loadWithAlternates env path directory (resolveFilename path directory)).2⟩ := by
    rcases hfail with hnone | ⟨data, hdata, h1, h3, h4⟩
    · rw [TextureFromFile_attempts] at hnone
      have hn := loadWithAlternates_none env path directory _ hnone
      unfold TextureFromFile
      simp only [hn]
    · have hf : textureFormats data.nrComponents gamma = none := by
        simp [textureFormats, h1, h3, h4]
      unfold TextureFromFile
      simp only [hdata, hf]
  refine ⟨by rw [hres], by rw [hres], ?_, ?_⟩
  · rw [hres]
    exact createDefaultTexture_object env _
  · intro hnz
    rw [hres]
    exact hnz _

/-- C9 witness: a file system without images. -/
theorem TextureFromFile_fallback_witness :
    (∀ f ∈ (TextureFromFile noFilesEnv "wood.png" "models" false noTextures).attempts,
        noFilesEnv.stbi_load f = none)
    ∧ (TextureFromFile noFilesEnv "wood.png" "models" false noTextures).id ≠ 0 :=
  ⟨fun _ _ => rfl,
   (TextureFromFile_fallback noFilesEnv "wood.png" "models" false noTextures
      (Or.inl (fun _ _ => rfl))).2.2.2 (fun _ => Nat.succ_ne_zero _)⟩

theorem loadStep_refl (st : LoadState) : LoadStep st st [] :=
  ⟨by simp, ⟨[], by simp, by simp⟩, fun _ h => h, fun _ h => Or.inl h, fun h => h⟩

theorem loadStep_trans {a b c : LoadState} {p1 p2 : List String} (h1 : LoadStep a b p1)
    (h2 : LoadStep b c p2) : LoadStep a c (p1 ++ p2) := by
  obtain ⟨ha1, ⟨add1, hd1, hl1⟩, hm1, hr1, hn1⟩ := h1
  obtain ⟨ha2, ⟨add2, hd2, hl2⟩, hm2, hr2, hn2⟩ := h2
  refine ⟨?_, ⟨add1 ++ add2, ?_, ?_⟩, fun t ht => hm2 t (hm1 t ht), ?_, fun h => hn2 (hn1 h)⟩
  · rw [ha2, ha1, List.append_assoc]
  · rw [hd2, hd1, List.append_assoc]
  · rw [hl2, hl1, List.append_assoc]
  · intro t ht
    rcases hr2 t ht with h | h
    · rcases hr1 t h with h3 | h3
      · exact Or.inl h3
      · exact Or.inr (hm2 t h3)
    · exact Or.inr h

theorem loadStep_loadMaterialTexture (env : LoaderEnv) (directory typeName : String)
    (st : LoadState) (str : String) :
    LoadStep st (loadMaterialTexture env directory typeName st str) [str] := by
  unfold loadMaterialTexture
  cases hfind : st.textures_loaded.find? (fun t => t.path == str) with
  | some cached =>
    have hmem : cached ∈ st.textures_loaded := List.mem_of_find?_eq_some hfind
    have hpath : cached.path = str := by
      have := List.find?_some hfind
      simpa using this
    refine ⟨by simp [hpath], ⟨[], by simp, by simp⟩, fun _ h => h, ?_, fun h => h⟩
    intro t ht
    simp only [List.mem_append, List.mem_singleton] at ht
    rcases ht with h | h
    · exact Or.inl h
    · exact Or.inr (by rw [h]; exact hmem)
  | none =>
    have hnot : str ∉ st.textures_loaded.map Texture.path := by
      intro hin
      obtain ⟨t, ht, hp⟩ := List.mem_map.mp hin
      have := List.find?_eq_none.mp hfind t ht
      simp [hp] at this
    refine ⟨by simp, ⟨[str], rfl, by simp⟩, fun t h => List.mem_append_left _ h, ?_, ?_⟩
    · intro t ht
      simp only [List.mem_append, List.mem_singleton] at ht
      rcases ht with h | h
      · exact Or.inl h
      · exact Or.inr (by simp [h])
    · intro hnd
      simp only [List.map_append, List.map_cons, List.map_nil]
      rw [List.nodup_append]
      refine ⟨hnd, List.nodup_singleton _, ?_⟩
      intro x hx hx2
      rw [List.mem_singleton] at hx2
      exact hnot (hx2 ▸ hx)

theorem loadStep_foldl (env : LoaderEnv) (directory typeName : String) (paths : List String)
    (st : LoadState) :
    LoadStep st (paths.foldl (loadMaterialTexture env directory typeName) st) paths := by
  induction paths generalizing st with
  | nil => exact loadStep_refl st
  | cons str rest ih =>
    have h1 := loadStep_loadMaterialTexture env directory typeName st str
    exact loadStep_trans h1 (ih _)

theorem loadCalls_loadMaterialTextures (env : LoaderEnv) (model : Model) (gl : GLTextures)
    (mat : aiMaterial) (type : aiTextureType) (typeName : String) :
    LoadCalls model.textures_loaded
      (model.loadMaterialTextures env gl mat type typeName) (mat.textures type) := by
  obtain ⟨h1, ⟨added, hd, hl⟩, hm, hr, hn⟩ := loadStep_foldl env model.directory typeName
    (mat.textures type)
    { textures := [], textures_loaded := model.textures_loaded, gl := gl, decodes := [] }
  refine ⟨by simpa using h1, ?_, hm, ?_, hn⟩
  · simp only [List.nil_append] at hd
    show List.map Texture.path (List.foldl (loadMaterialTexture env model.directory typeName)
        { textures := [], textures_loaded := model.textures_loaded, gl := gl, decodes := [] }
        (mat.textures type)).textures_loaded
      = model.textures_loaded.map Texture.path
        ++ (List.foldl (loadMaterialTexture env model.directory typeName)
        { textures := [], textures_loaded := model.textures_loaded, gl := gl, decodes := [] }
        (mat.textures type)).decodes
    rw [hl, hd]
  · intro t ht
    rcases hr t ht with h | h
    · cases h
    · exact h

theorem loadCalls_loadSequence (env : LoaderEnv) (reqs : List TextureRequest) (model : Model)
    (gl : GLTextures) :
    LoadCalls model.textures_loaded (model.loadSequence env gl reqs) (requestedPaths reqs) := by
  induction reqs generalizing model gl with
  | nil =>
    refine ⟨rfl, by simp [Model.loadSequence], fun _ h => h, ?_, fun h => h⟩
    intro t ht
    simp [Model.loadSequence] at ht
  | cons req rest ih =>
    obtain ⟨a1, l1, m1, r1, n1⟩ :=
      loadCalls_loadMaterialTextures env model gl req.mat req.type req.typeName
    obtain ⟨a2, l2, m2, r2, n2⟩ := ih
      (model.loadMaterialTextures env gl req.mat req.type req.typeName).model
      (model.loadMaterialTextures env gl req.mat req.type req.typeName).gl
    simp only [Model.loadSequence, requestedPaths, List.flatMap_cons]
    refine ⟨?_, ?_, fun t ht => m2 t (m1 t ht), ?_, fun h => n2 (n1 h)⟩
    · rw [List.map_append, a1]
      congr 1
    · rw [l2, l1, List.append_assoc]
    · intro t ht
      rcases List.mem_append.mp ht with h | h
      · exact m2 t (r1 t h)
      · exact r2 t h

/-- C8 (as amended): within one model whose cache starts empty, over any sequence of
`loadMaterialTextures` calls, every request is answered with a texture of the requested path,
two requests with the same material path string get the same texture identifier, and
`TextureFromFile` is called exactly once for each requested path string. -/
theorem loadSequence_same_path_cached (env : LoaderEnv) (model : Model) (gl : GLTextures)
    (reqs : List TextureRequest) (hfresh : model.textures_loaded = []) :
    (model.loadSequence env gl reqs).textures.map Texture.path = requestedPaths reqs
    ∧ (∀ t1 ∈ (model.loadSequence env gl reqs).textures,
        ∀ t2 ∈ (model.loadSequence env gl reqs).textures, t1.path = t2.path → t1.id = t2.id)
    ∧ (∀ p ∈ requestedPaths reqs, (model.loadSequence env gl reqs).decodes.count p = 1) := by
  obtain ⟨ha, hl, _, hr, hn⟩ := loadCalls_loadSequence env reqs model gl
  rw [hfresh] at hl hn
  simp only [List.map_nil, List.nil_append] at hl
  have hnd := hn List.nodup_nil
  refine ⟨ha, ?_, ?_⟩
  · intro t1 h1 t2 h2 hp
    have := List.inj_on_of_nodup_map hnd (hr t1 h1) (hr t2 h2) hp
    rw [this]
  · intro p hp
    rw [← ha] at hp
    obtain ⟨t, ht, rfl⟩ := List.mem_map.mp hp
    have hin : t.path ∈ (model.loadSequence env gl reqs).decodes := by
      rw [← hl]
      exact List.mem_map_of_mem _ (hr t ht)
    rw [← hl] at hin ⊢
    exact List.count_eq_one_of_mem hnd hin

/-- C8 witness: a material naming `tex.png` twice, loaded into a fresh model. -/
theorem loadSequence_same_path_cached_witness :
    emptyModel.textures_loaded = []
    ∧ (emptyModel.loadSequence noFilesEnv noTextures
        [⟨samePathTwice, .DIFFUSE, "texture_diffuse"⟩]).decodes.count "tex.png" = 1 :=
  ⟨rfl,
   (loadSequence_same_path_cached noFilesEnv emptyModel noTextures
      [⟨samePathTwice, .DIFFUSE, "texture_diffuse"⟩] rfl).2.2 "tex.png" (by decide)⟩

/-- C8 counterexample: `/a/tex.png` and `/b/tex.png` resolve to the same file
`models/textures/tex.png`, yet one `loadMaterialTextures` call returns two different texture
identifiers for them and calls `TextureFromFile` twice. -/
theorem loadMaterialTextures_resolved_path_not_cached :
    resolveFilename "/a/tex.png" "models" = "models/textures/tex.png"
    ∧ resolveFilename "/b/tex.png" "models" = "models/textures/tex.png"
    ∧ (emptyModel.loadMaterialTextures oneFileEnv noTextures twoAbsolutePaths .DIFFUSE
          "texture_diffuse").textures
        = [⟨1, "texture_diffuse", "/a/tex.png"⟩, ⟨2, "texture_diffuse", "/b/tex.png"⟩]
    ∧ (emptyModel.loadMaterialTextures oneFileEnv noTextures twoAbsolutePaths .DIFFUSE
          "texture_diffuse").decodes = ["/a/tex.png", "/b/tex.png"]
    ∧ ((emptyModel.loadMaterialTextures oneFileEnv noTextures twoAbsolutePaths .DIFFUSE
          "texture_diffuse").gl.object 1).map TexObject.pixels = some [10, 20, 30]
    ∧ ((emptyModel.loadMaterialTextures oneFileEnv noTextures twoAbsolutePaths .DIFFUSE
          "texture_diffuse").gl.object 2).map TexObject.pixels = some [10, 20, 30] := by
  decide

/-! ## Texture loader: alternates and formats -/

theorem modifyBound_spec (g : GLTextures) (id : Nat) (o : TexObject) (f : TexObject → TexObject)
    (hg : g.bound = id) (ho : g.object id = some o) :
    (g.modifyBound f).bound = id ∧ (g.modifyBound f).object id = some (f o) := by
  refine ⟨hg, ?_⟩
  have := object_modifyBound g f
  rw [hg, ho] at this
  exact this

theorem uploadImage_object (id : Nat) (data : Image) (format internalFormat : GLEnum)
    (gl : GLTextures) :
    ∃ o, (uploadImage id data format internalFormat gl).object id = some o
      ∧ IsLoadedImage data format internalFormat o := by
  obtain ⟨o1, ho1⟩ := glBindTexture_object id gl
  have hb := glBindTexture_bound id gl
  obtain ⟨b2, h2⟩ := modifyBound_spec _ _ o1
    (fun o => { o with internalFormat := internalFormat, width := data.width,
                       height := data.height, format := format, pixels := data.data }) hb ho1
  obtain ⟨b3, h3⟩ := modifyBound_spec _ _ _ (fun o => { o with mipmaps := true }) b2 h2
  obtain ⟨b4, h4⟩ := modifyBound_spec _ _ _ (fun o => { o with wrapS := GLEnum.REPEAT }) b3 h3
  obtain ⟨b5, h5⟩ := modifyBound_spec _ _ _ (fun o => { o with wrapT := GLEnum.REPEAT }) b4 h4
  obtain ⟨b6, h6⟩ := modifyBound_spec _ _ _
    (fun o => { o with minFilter := GLEnum.LINEAR_MIPMAP_LINEAR }) b5 h5
  obtain ⟨b7, h7⟩ := modifyBound_spec _ _ _ (fun o => { o with magFilter := GLEnum.LINEAR }) b6 h6
  by_cases hn : data.nrComponents = 1
  · obtain ⟨b8, h8⟩ := modifyBound_spec _ _ _ (fun o => { o with swizzleG := GLEnum.RED }) b7 h7
    obtain ⟨b9, h9⟩ := modifyBound_spec _ _ _ (fun o => { o with swizzleB := GLEnum.RED }) b8 h8
    obtain ⟨_, h10⟩ := modifyBound_spec _ _ _ (fun o => { o with swizzleA := GLEnum.ONE }) b9 h9
    refine ⟨?_, ?_, ?_⟩
    rotate_left
    · unfold uploadImage
      simp only [hn, if_true]
      exact h10
    · simp [IsLoadedImage]
  · refine ⟨?_, ?_, ?_⟩
    rotate_left
    · unfold uploadImage
      simp only [hn, if_false]
      exact h7
    · simp [IsLoadedImage, hn]

/-- When an attempt decodes to an image with a supported channel count, `TextureFromFile`
returns the name it generated first, and that name denotes the decoded image. -/
theorem TextureFromFile_success (env : LoaderEnv) (path directory : String) (gamma : Bool)
    (gl : GLTextures) (data : Image) (format internalFormat : GLEnum)
    (hdata : (loadWithAlternates env path directory (resolveFilename path directory)).1
      = some data)
    (hfmt : textureFormats data.nrComponents gamma = some (format, internalFormat)) :
    (TextureFromFile env path directory gamma gl).id = env.genName gl.names
    ∧ ∃ o, (TextureFromFile env path directory gamma gl).gl.object
              (TextureFromFile env path directory gamma gl).id = some o
        ∧ IsLoadedImage data format internalFormat o := by
  have hres : TextureFromFile env path directory gamma gl
      = ⟨env.genName gl.names,
         uploadImage (env.genName gl.names) data format internalFormat (glGenTextures env gl).2,
         (loadWithAlternates env path directory (resolveFilename path directory)).2⟩ := by
    unfold TextureFromFile
    simp only [hdata, hfmt]
    rfl
  rw [hres]
  exact ⟨rfl, uploadImage_object _ data format internalFormat _⟩

theorem textureFormats_eq_none (n : Nat) (gamma : Bool) :
    textureFormats n gamma = none ↔ n ≠ 1 ∧ n ≠ 3 ∧ n ≠ 4 := by
  unfold textureFormats
  by_cases h1 : n = 1
  · simp [h1]
  · by_cases h3 : n = 3
    · simp [h3]
    · by_cases h4 : n = 4
      · simp [h4]
      · simp [h1, h3, h4]

theorem loadWithAlternates_all_fail (env : LoaderEnv) (path directory filename : String)
    (h : (loadWithAlternates env path directory filename).1 = none) :
    ∀ f ∈ (loadWithAlternates env path directory filename).2, env.stbi_load f = none := by
  unfold loadWithAlternates at h ⊢
  cases h1 : env.stbi_load filename with
  | some d => simp [h1] at h
  | none =>
    simp only [h1] at h ⊢
    cases h2 : env.stbi_load (directory ++ "/textures/" ++ path) with
    | some d => simp [h2] at h
    | none =>
      simp only [h2] at h ⊢
      cases h3 : find_last_of path.data ['/', '\\'] with
      | none =>
        intro f hf
        simp only [List.mem_cons, List.mem_singleton, List.not_mem_nil, or_false] at hf
        rcases hf with rfl | rfl
        · exact h1
        · exact h2
      | some i =>
        simp only [h3] at h ⊢
        intro f hf
        simp only [List.mem_cons, List.mem_singleton, List.not_mem_nil, or_false] at hf
        rcases hf with rfl | rfl | rfl
        · exact h1
        · exact h2
        · exact h

theorem loadWithAlternates_first_success (env : LoaderEnv) (path directory filename : String)
    (data : Image) (h : (loadWithAlternates env path directory filename).1 = some data) :
    ∃ earlier f, (loadWithAlternates env path directory filename).2 = earlier ++ [f]
      ∧ (∀ g ∈ earlier, env.stbi_load g = none) ∧ env.stbi_load f = some data := by
  unfold loadWithAlternates at h ⊢
  cases h1 : env.stbi_load filename with
  | some d =>
    simp only [h1] at h ⊢
    exact ⟨[], filename, rfl, by simp, by rw [h1]; exact h⟩
  | none =>
    simp only [h1] at h ⊢
    cases h2 : env.stbi_load (directory ++ "/textures/" ++ path) with
    | some d =>
      simp only [h2] at h ⊢
      exact ⟨[filename], _, rfl, by simpa using h1, by rw [h2]; exact h⟩
    | none =>
      simp only [h2] at h ⊢
      cases h3 : find_last_of path.data ['/', '\\'] with
      | none => simp [h3] at h
      | some i =>
        simp only [h3] at h ⊢
        refine ⟨[filename, directory ++ "/textures/" ++ path], _, rfl, ?_, h⟩
        intro g hg
        simp only [List.mem_cons, List.mem_singleton, List.not_mem_nil, or_false] at hg
        rcases hg with rfl | rfl
        · exact h1
        · exact h2

theorem loadWithAlternates_second (env : LoaderEnv) (path directory filename : String)
    (h : env.stbi_load filename = none) :
    (loadWithAlternates env path directory filename).2.take 2
      = [filename, directory ++ "/textures/" ++ path] := by
  unfold loadWithAlternates
  simp only [h]
  cases env.stbi_load (directory ++ "/textures/" ++ path) with
  | some d => rfl
  | none =>
    simp only
    cases find_last_of path.data ['/', '\\'] <;> rfl

theorem loadWithAlternates_gives_up (env : LoaderEnv) (path directory filename : String)
    (h : (loadWithAlternates env path directory filename).1 = none) :
    directory ++ "/textures/" ++ path ∈ (loadWithAlternates env path directory filename).2
    ∧ ∀ i, find_last_of path.data ['/', '\\'] = some i →
        directory ++ "/textures/" ++ substr path (i + 1)
          ∈ (loadWithAlternates env path directory filename).2 := by
  unfold loadWithAlternates at h ⊢
  cases h1 : env.stbi_load filename with
  | some d => simp [h1] at h
  | none =>
    simp only [h1] at h ⊢
    cases h2 : env.stbi_load (directory ++ "/textures/" ++ path) with
    | some d => simp [h2] at h
    | none =>
      simp only [h2] at h ⊢
      cases h3 : find_last_of path.data ['/', '\\'] with
      | none => exact ⟨by simp, fun i hi => by cases hi⟩
      | some j =>
        simp only
        refine ⟨by simp, fun i hi => ?_⟩
        cases hi
        simp

theorem not_isCheckerboard_of_isLoadedImage (data : Image) (format internalFormat : GLEnum)
    (o : TexObject) (h : IsLoadedImage data format internalFormat o) : ¬ IsCheckerboard o := by
  intro hc
  have h1 : o.minFilter = .LINEAR_MIPMAP_LINEAR := h.2.2.2.2.2.2.2.2.1
  have h2 : o.minFilter = .NEAREST := hc.2.2.2.2.2.2.2.1
  rw [h1] at h2
  cases h2

/-- C11 (as amended): when the primary file name fails to decode, `TextureFromFile` next tries
D + "/textures/" + path; whenever it gives up, D + "/textures/" + the part of the path after the
last separator (the whole path if there is none) is among the names it tried; the checkerboard
fallback is returned only if no attempted file name decodes or the image that decodes has a
channel count other than 1, 3 or 4; and the image used is the one of the first (and last)
attempt that decodes. -/
theorem TextureFromFile_alternates (env : LoaderEnv) (path directory : String) (gamma : Bool)
    (gl : GLTextures) :
    (env.stbi_load (resolveFilename path directory) = none →
      (TextureFromFile env path directory gamma gl).attempts.take 2
        = [resolveFilename path directory, directory ++ "/textures/" ++ path])
    ∧ ((loadWithAlternates env path directory (resolveFilename path directory)).1 = none →
        (∀ (pre base : List Char) (sep : Char), path.data = pre ++ sep :: base →
          (sep = '/' ∨ sep = '\\') → ('/' ∉ base ∧ '\\' ∉ base) →
          directory ++ "/textures/" ++ String.mk base
            ∈ (TextureFromFile env path directory gamma gl).attempts)
        ∧ (('/' ∉ path.data ∧ '\\' ∉ path.data) →
          directory ++ "/textures/" ++ path
            ∈ (TextureFromFile env path directory gamma gl).attempts))
    ∧ ((∃ o, (TextureFromFile env path directory gamma gl).gl.object
              (TextureFromFile env path directory gamma gl).id = some o ∧ IsCheckerboard o) →
        (∀ f ∈ (TextureFromFile env path directory gamma gl).attempts, env.stbi_load f = none)
        ∨ ∃ data, (loadWithAlternates env path directory (resolveFilename path directory)).1
                    = some data
            ∧ data.nrComponents ≠ 1 ∧ data.nrComponents ≠ 3 ∧ data.nrComponents ≠ 4)
    ∧ (∀ data, (loadWithAlternates env path directory (resolveFilename path directory)).1
                  = some data →
        (∃ earlier f, (TextureFromFile env path directory gamma gl).attempts = earlier ++ [f]
          ∧ (∀ g ∈ earlier, env.stbi_load g = none) ∧ env.stbi_load f = some data)
        ∧ ((data.nrComponents = 1 ∨ data.nrComponents = 3 ∨ data.nrComponents = 4) →
            ∃ o, (TextureFromFile env path directory gamma gl).gl.object
                    (TextureFromFile env path directory gamma gl).id = some o
              ∧ o.pixels = data.data ∧ o.width = data.width ∧ o.height = data.height)) := by
  rw [TextureFromFile_attempts]
  refine ⟨fun h => loadWithAlternates_second env path directory _ h, ?_, ?_, ?_⟩
  · intro hnone
    obtain ⟨hfull, hbase⟩ := loadWithAlternates_gives_up env path directory _ hnone
    refine ⟨?_, fun _ => hfull⟩
    intro pre base sep hpath hsep hb
    have hfind : find_last_of path.data ['/', '\\'] = some pre.length := by
      rw [hpath]
      apply find_last_of_append
      · rcases hsep with rfl | rfl <;> simp
      · intro c hc hmem
        simp only [List.mem_cons, List.mem_singleton, List.not_mem_nil, or_false] at hmem
        rcases hmem with rfl | rfl
        · exact hb.1 hc
        · exact hb.2 hc
    have := hbase pre.length hfind
    rwa [substr_after_separator path pre base sep hpath] at this
  · rintro ⟨o, ho, hc⟩
    cases hl : (loadWithAlternates env path directory (resolveFilename path directory)).1 with
    | none => exact Or.inl (loadWithAlternates_all_fail env path directory _ hl)
    | some data =>
      cases hf : textureFormats data.nrComponents gamma with
      | none => exact Or.inr ⟨data, rfl, (textureFormats_eq_none _ _).mp hf⟩
      | some fm =>
        obtain ⟨_, o2, ho2, himg⟩ :=
          TextureFromFile_success env path directory gamma gl data fm.1 fm.2 hl hf
        rw [ho] at ho2
        cases ho2
        exact absurd hc (not_isCheckerboard_of_isLoadedImage _ _ _ _ himg)
  · intro data hl
    refine ⟨loadWithAlternates_first_success env path directory _ data hl, fun hn => ?_⟩
    cases hf : textureFormats data.nrComponents gamma with
    | none =>
      have := (textureFormats_eq_none _ _).mp hf
      rcases hn with h | h | h
      · exact absurd h this.1
      · exact absurd h this.2.1
      · exact absurd h this.2.2
    | some fm =>
      obtain ⟨_, o2, ho2, himg⟩ :=
        TextureFromFile_success env path directory gamma gl data fm.1 fm.2 hl hf
      exact ⟨o2, ho2, himg.2.2.2.2.1, himg.2.1, himg.2.2.1⟩

/-- C11 witness: `tex.png` is missing beside the model but present in `models/textures`. -/
theorem TextureFromFile_alternates_witness :
    oneFileEnv.stbi_load (resolveFilename "tex.png" "models") = none
    ∧ (TextureFromFile oneFileEnv "tex.png" "models" false noTextures).attempts.take 2
        = [resolveFilename "tex.png" "models", "models" ++ "/textures/" ++ "tex.png"] :=
  ⟨by decide,
   (TextureFromFile_alternates oneFileEnv "tex.png" "models" false noTextures).1 (by decide)⟩

/-- C11 counterexample: the only file tried, `models/gray.png`, decodes (to a two-channel
image), yet `TextureFromFile` returns the checkerboard fallback and the decoded pixels are not
used. -/
theorem TextureFromFile_fallback_although_decoded :
    (TextureFromFile twoChannelEnv "gray.png" "models" false noTextures).attempts
        = ["models/gray.png"]
    ∧ twoChannelEnv.stbi_load "models/gray.png" = some ⟨1, 1, 2, [7, 255]⟩
    ∧ ((TextureFromFile twoChannelEnv "gray.png" "models" false noTextures).gl.object
          (TextureFromFile twoChannelEnv "gray.png" "models" false noTextures).id).map
        (fun o => (o.width, o.height, o.pixels, o.minFilter))
        = some (2, 2, checkerboard, GLEnum.NEAREST) := by
  decide

/-- An image that decodes with an unsupported channel count ends in the fallback branch. -/
theorem TextureFromFile_unsupported (env : LoaderEnv) (path directory : String) (gamma : Bool)
    (gl : GLTextures) (data : Image)
    (hdata : (loadWithAlternates env path directory (resolveFilename path directory)).1
      = some data)
    (hn : data.nrComponents ≠ 1 ∧ data.nrComponents ≠ 3 ∧ data.nrComponents ≠ 4) :
    ∃ o, (TextureFromFile env path directory gamma gl).gl.object
            (TextureFromFile env path directory gamma gl).id = some o ∧ IsCheckerboard o := by
  have hf : textureFormats data.nrComponents gamma = none := (textureFormats_eq_none _ _).mpr hn
  have hres : TextureFromFile env path directory gamma gl
      = ⟨(createDefaultTexture env
            (glDeleteTextures (glGenTextures env gl).1 (glGenTextures env gl).2)).1,
         (createDefaultTexture env
            (glDeleteTextures (glGenTextures env gl).1 (glGenTextures env gl).2)).2,
         (loadWithAlternates env path directory (resolveFilename path directory)).2⟩ := by
    unfold TextureFromFile
    simp only [hdata, hf]
  rw [hres]
  exact createDefaultTexture_object env _

/-- C12: for a decoded image, the channel count selects the format: 1 gives RED (also as
internal format) with the G and B swizzles RED and the A swizzle ONE, 3 gives RGB, 4 gives RGBA;
the internal format is an sRGB one exactly when `gamma` is set and the count is 3 or 4; any
other count yields the checkerboard fallback. -/
theorem TextureFromFile_formats (env : LoaderEnv) (path directory : String) (gamma : Bool)
    (gl : GLTextures) (data : Image)
    (hdata : (loadWithAlternates env path directory (resolveFilename path directory)).1
      = some data) :
    (data.nrComponents = 1 →
      ∃ o, (TextureFromFile env path directory gamma gl).gl.object
              (TextureFromFile env path directory gamma gl).id = some o
        ∧ o.pixels = data.data ∧ o.format = .RED ∧ o.internalFormat = .RED
        ∧ o.swizzleG = .RED ∧ o.swizzleB = .RED ∧ o.swizzleA = .ONE)
    ∧ (data.nrComponents = 3 →
      ∃ o, (TextureFromFile env path directory gamma gl).gl.object
              (TextureFromFile env path directory gamma gl).id = some o
        ∧ o.pixels = data.data ∧ o.format = .RGB
        ∧ o.internalFormat = (if gamma then .SRGB else .RGB))
    ∧ (data.nrComponents = 4 →
      ∃ o, (TextureFromFile env path directory gamma gl).gl.object
              (TextureFromFile env path directory gamma gl).id = some o
        ∧ o.pixels = data.data ∧ o.format = .RGBA
        ∧ o.internalFormat = (if gamma then .SRGB_ALPHA else .RGBA))
    ∧ ((data.nrComponents = 1 ∨ data.nrComponents = 3 ∨ data.nrComponents = 4) →
      ∃ o, (TextureFromFile env path directory gamma gl).gl.object
              (TextureFromFile env path directory gamma gl).id = some o
        ∧ ((o.internalFormat = .SRGB ∨ o.internalFormat = .SRGB_ALPHA) ↔
            (gamma = true ∧ (data.nrComponents = 3 ∨ data.nrComponents = 4))))
    ∧ ((data.nrComponents ≠ 1 ∧ data.nrComponents ≠ 3 ∧ data.nrComponents ≠ 4) →
      ∃ o, (TextureFromFile env path directory gamma gl).gl.object
              (TextureFromFile env path directory gamma gl).id = some o ∧ IsCheckerboard o) := by
  have h1 : data.nrComponents = 1 →
      ∃ o, (TextureFromFile env path directory gamma gl).gl.object
              (TextureFromFile env path directory gamma gl).id = some o
        ∧ o.pixels = data.data ∧ o.format = .RED ∧ o.internalFormat = .RED
        ∧ o.swizzleG = .RED ∧ o.swizzleB = .RED ∧ o.swizzleA = .ONE := by
    intro hn
    obtain ⟨_, o, ho, himg⟩ := TextureFromFile_success env path directory gamma gl data
      .RED .RED hdata (by simp [textureFormats, hn])
    have hs := himg.2.2.2.2.2.2.2.2.2.2 hn
    exact ⟨o, ho, himg.2.2.2.2.1, himg.2.2.2.1, himg.1, hs.1, hs.2.1, hs.2.2⟩
  have h3 : data.nrComponents = 3 →
      ∃ o, (TextureFromFile env path directory gamma gl).gl.object
              (TextureFromFile env path directory gamma gl).id = some o
        ∧ o.pixels = data.data ∧ o.format = .RGB
        ∧ o.internalFormat = (if gamma then .SRGB else .RGB) := by
    intro hn
    obtain ⟨_, o, ho, himg⟩ := TextureFromFile_success env path directory gamma gl data
      .RGB (if gamma then .SRGB else .RGB) hdata (by simp [textureFormats, hn])
    exact ⟨o, ho, himg.2.2.2.2.1, himg.2.2.2.1, himg.1⟩
  have h4 : data.nrComponents = 4 →
      ∃ o, (TextureFromFile env path directory gamma gl).gl.object
              (TextureFromFile env path directory gamma gl).id = some o
        ∧ o.pixels = data.data ∧ o.format = .RGBA
        ∧ o.internalFormat = (if gamma then .SRGB_ALPHA else .RGBA) := by
    intro hn
    obtain ⟨_, o, ho, himg⟩ := TextureFromFile_success env path directory gamma gl data
      .RGBA (if gamma then .SRGB_ALPHA else .RGBA) hdata (by simp [textureFormats, hn])
    exact ⟨o, ho, himg.2.2.2.2.1, himg.2.2.2.1, himg.1⟩
  refine ⟨h1, h3, h4, ?_, ?_⟩
  · rintro (hn | hn | hn)
    · obtain ⟨o, ho, _, _, hi, _⟩ := h1 hn
      exact ⟨o, ho, by simp [hi, hn]⟩
    · obtain ⟨o, ho, _, _, hi⟩ := h3 hn
      exact ⟨o, ho, by cases gamma <;> simp [hi, hn]⟩
    · obtain ⟨o, ho, _, _, hi⟩ := h4 hn
      exact ⟨o, ho, by cases gamma <;> simp [hi, hn]⟩
  · intro hn
    exact TextureFromFile_unsupported env path directory gamma gl data hdata hn

/-- C12 witness: the RGB file `models/textures/tex.png`, loaded with `gamma = true`. -/
theorem TextureFromFile_formats_witness :
    (loadWithAlternates oneFileEnv "/a/tex.png" "models"
        (resolveFilename "/a/tex.png" "models")).1 = some ⟨1, 1, 3, [10, 20, 30]⟩
    ∧ ∃ o, (TextureFromFile oneFileEnv "/a/tex.png" "models" true noTextures).gl.object
              (TextureFromFile oneFileEnv "/a/tex.png" "models" true noTextures).id = some o
        ∧ o.pixels = [10, 20, 30] ∧ o.format = .RGB
        ∧ o.internalFormat = (if true then .SRGB else .RGB) :=
  ⟨by decide,
   (TextureFromFile_formats oneFileEnv "/a/tex.png" "models" true noTextures
      ⟨1, 1, 3, [10, 20, 30]⟩ (by decide)).2.1 rfl⟩

/-! ## Mesh::Draw -/

theorem flatMap_range_succ {α : Type} (f : Nat → List α) (n : Nat) :
    (List.range (n + 1)).flatMap f = f 0 ++ (List.range n).flatMap (fun j => f (j + 1)) := by
  rw [List.range_succ_eq_map, List.flatMap_cons, List.flatMap_map]

theorem roleCount_append_singleton (role : String) (pre : List Texture) (tex : Texture) :
    roleCount role (pre ++ [tex]) = roleCount role pre + (if tex.type = role then 1 else 0) := by
  unfold roleCount
  by_cases h : tex.type = role <;> simp [List.filter_append, List.filter_cons, h]

theorem meshTextureSpec_at (shader : Shader) (pre rest : List Texture) (tex : Texture) :
    meshTextureSpec shader (pre ++ tex :: rest) pre.length
      = if tex.type = "texture_diffuse" ∨ tex.type = "texture_specular" then
          MeshGLCall.activeTexture pre.length ::
            bindMeshTexture shader tex pre.length
              (toString (roleCount tex.type (pre ++ [tex])))
        else [MeshGLCall.activeTexture pre.length] := by
  have hget : (pre ++ tex :: rest)[pre.length]? = some tex := by
    rw [List.getElem?_append_right (le_refl _)]
    simp
  have htake : (pre ++ tex :: rest).take (pre.length + 1) = pre ++ [tex] := by
    have : pre ++ tex :: rest = (pre ++ [tex]) ++ rest := by simp
    rw [this]
    exact List.take_left' (by simp)
  unfold meshTextureSpec bindMeshTexture
  simp only [hget, htake]

/-- The texture loop of `Mesh::Draw`, started after the textures `pre`, does for each later
index what `meshTextureSpec` says, and its counters end one above the role counts. -/
theorem drawMeshTextures_spec (shader : Shader) (rest pre : List Texture) :
    (drawMeshTextures shader rest pre.length (roleCount "texture_diffuse" pre + 1)
        (roleCount "texture_specular" pre + 1)).2.2
      = (List.range rest.length).flatMap
          (fun j => meshTextureSpec shader (pre ++ rest) (pre.length + j))
    ∧ (drawMeshTextures shader rest pre.length (roleCount "texture_diffuse" pre + 1)
        (roleCount "texture_specular" pre + 1)).1
      = roleCount "texture_diffuse" (pre ++ rest) + 1 := by
  induction rest generalizing pre with
  | nil => simp [drawMeshTextures]
  | cons tex rest ih =>
    have hpre : pre ++ tex :: rest = (pre ++ [tex]) ++ rest := by simp
    have hlen : (pre ++ [tex]).length = pre.length + 1 := by simp
    have ih2 := ih (pre ++ [tex])
    rw [hlen, ← hpre] at ih2
    have hshift : (fun j => meshTextureSpec shader (pre ++ tex :: rest) (pre.length + 1 + j))
        = (fun j => meshTextureSpec shader (pre ++ tex :: rest) (pre.length + (j + 1))) := by
      funext j
      congr 1
      omega
    rw [hshift] at ih2
    rw [List.length_cons, flatMap_range_succ]
    simp only [Nat.add_zero]
    rw [meshTextureSpec_at]
    have hd := roleCount_append_singleton "texture_diffuse" pre tex
    have hs := roleCount_append_singleton "texture_specular" pre tex
    by_cases h1 : tex.type = "texture_diffuse"
    · have h2 : ¬ tex.type = "texture_specular" := by rw [h1]; decide
      rw [h1] at hd hs
      simp only [if_true] at hd
      rw [if_neg (by decide)] at hs
      rw [hd, hs] at ih2
      simp only [drawMeshTextures, h1, if_true, true_or, hd]
      exact ⟨by rw [ih2.1], ih2.2⟩
    · by_cases h2 : tex.type = "texture_specular"
      · rw [h2] at hd hs
        simp only [if_true] at hs
        rw [if_neg (by decide)] at hd
        rw [hd, hs] at ih2
        simp only [drawMeshTextures, h2, if_true, or_true, hs]
        rw [if_neg (by decide)]
        exact ⟨by rw [ih2.1], ih2.2⟩
      · rw [if_neg h1] at hd
        rw [if_neg h2] at hs
        rw [hd, hs] at ih2
        simp only [drawMeshTextures, h1, h2, if_false, or_self]
        exact ⟨by rw [ih2.1]; simp, ih2.2⟩

/-- The call `Mesh::Draw` as a whole: the texture loop as specified, then the default diffuse sampler
exactly when no texture has the role `texture_diffuse`, then the draw call. -/
theorem Mesh_Draw_eq (shader : Shader) (mesh : Mesh) :
    Mesh.Draw shader mesh
      = (List.range mesh.textures.length).flatMap (meshTextureSpec shader mesh.textures)
        ++ (if roleCount "texture_diffuse" mesh.textures = 0 then
              (if shader.hasUniform (.lit "material.texture_diffuse1") then
                [MeshGLCall.uniform1i "material.texture_diffuse1" 0] else [])
            else [])
        ++ [MeshGLCall.bindVertexArray true, MeshGLCall.drawElements mesh.indices.length,
            MeshGLCall.bindVertexArray false, MeshGLCall.activeTexture 0] := by
  have h := drawMeshTextures_spec shader mesh.textures []
  simp only [List.length_nil, roleCount, List.filter_nil, Nat.zero_add, List.nil_append] at h
  have h1 : (drawMeshTextures shader mesh.textures 0 1 1).1 = 1
      ↔ roleCount "texture_diffuse" mesh.textures = 0 := by
    rw [h.2]
    simp [roleCount]
  unfold Mesh.Draw
  simp only [h.1, h1]

/-- C13 (as amended): `Mesh::Draw` activates unit `i` for the texture at index `i`; it names the
sampler of the `k`-th diffuse texture `"material.texture_diffuse" + k` and that of the `k`-th
specular texture `"material.texture_specular" + k`, both counts starting at 1 and independent;
when the id of such a texture is not 0 it binds the texture, and sets the sampler to `i` if the
shader has it; a texture with id 0 is counted but neither set nor bound; a texture of another
role is neither named nor bound. -/
theorem Mesh_Draw_samplers (shader : Shader) (mesh : Mesh) :
    (∃ rest, Mesh.Draw shader mesh
        = (List.range mesh.textures.length).flatMap (meshTextureSpec shader mesh.textures)
          ++ rest
      ∧ ∀ c ∈ rest, (∀ id, c ≠ MeshGLCall.bindTexture id)
          ∧ (∀ n v, c = MeshGLCall.uniform1i n v → n = "material.texture_diffuse1" ∧ v = 0))
    ∧ (∀ (i : Nat) (tex : Texture), mesh.textures[i]? = some tex →
        (tex.type = "texture_diffuse" ∨ tex.type = "texture_specular") → tex.id ≠ 0 →
        MeshGLCall.bindTexture tex.id ∈ Mesh.Draw shader mesh
        ∧ (shader.hasUniform (.lit ("material." ++ tex.type ++
              toString (roleCount tex.type (mesh.textures.take (i + 1))))) = true →
            MeshGLCall.uniform1i ("material." ++ tex.type ++
              toString (roleCount tex.type (mesh.textures.take (i + 1)))) i
              ∈ Mesh.Draw shader mesh))
    ∧ (∀ (i : Nat) (tex : Texture), mesh.textures[i]? = some tex →
        ¬ (tex.type = "texture_diffuse" ∨ tex.type = "texture_specular") →
        meshTextureSpec shader mesh.textures i = [MeshGLCall.activeTexture i])
    ∧ (∀ (i : Nat) (tex : Texture), mesh.textures[i]? = some tex → tex.id = 0 →
        meshTextureSpec shader mesh.textures i = [MeshGLCall.activeTexture i]) := by
  refine ⟨?_, ?_, ?_, ?_⟩
  · refine ⟨_, by rw [Mesh_Draw_eq, List.append_assoc], ?_⟩
    intro c hc
    simp only [List.mem_append, List.mem_cons, List.mem_singleton, List.not_mem_nil,
      or_false] at hc
    rcases hc with hc | hc
    · split_ifs at hc with h1 h2
      · simp only [List.mem_singleton] at hc
        subst hc
        exact ⟨fun id h => (by cases h), fun n v h => (by cases h; exact ⟨rfl, rfl⟩)⟩
      · cases hc
      · cases hc
    · rcases hc with rfl | rfl | rfl | rfl <;>
        exact ⟨fun id h => (by cases h), fun n v h => (by cases h)⟩
  · intro i tex hget hrole hid
    have hi : i < mesh.textures.length := by
      rcases Nat.lt_or_ge i mesh.textures.length with h | h
      · exact h
      · rw [List.getElem?_eq_none h] at hget; cases hget
    have hspec : meshTextureSpec shader mesh.textures i
        = MeshGLCall.activeTexture i ::
          ((if shader.hasUniform (.lit ("material." ++ tex.type ++
                toString (roleCount tex.type (mesh.textures.take (i + 1))))) then
              [MeshGLCall.uniform1i ("material." ++ tex.type ++
                toString (roleCount tex.type (mesh.textures.take (i + 1)))) i]
            else []) ++ [MeshGLCall.bindTexture tex.id]) := by
      unfold meshTextureSpec
      simp only [hget, hrole, if_true, hid, if_false]
    have hsub : ∀ c ∈ meshTextureSpec shader mesh.textures i, c ∈ Mesh.Draw shader mesh := by
      intro c hc
      rw [Mesh_Draw_eq]
      apply List.mem_append_left
      apply List.mem_append_left
      exact List.mem_flatMap.mpr ⟨i, List.mem_range.mpr hi, hc⟩
    constructor
    · apply hsub
      rw [hspec]
      simp
    · intro hu
      apply hsub
      rw [hspec, if_pos hu]
      simp
  · intro i tex hget hrole
    unfold meshTextureSpec
    simp only [hget, hrole, if_false]
  · intro i tex hget hid
    unfold meshTextureSpec
    simp only [hget, hid, if_true]
    split_ifs <;> rfl

/-- C13 witness: in `sampleMesh` the texture at index 3 is the second specular map, so the
sampler `material.texture_specular2` is set to unit 3 and texture 8 is bound. -/
theorem Mesh_Draw_samplers_witness :
    sampleMesh.textures[3]? = some ⟨8, "texture_specular", "t.png"⟩
    ∧ MeshGLCall.bindTexture 8 ∈ Mesh.Draw fullShader sampleMesh
    ∧ MeshGLCall.uniform1i "material.texture_specular2" 3 ∈ Mesh.Draw fullShader sampleMesh :=
  ⟨rfl,
   ((Mesh_Draw_samplers fullShader sampleMesh).2.1 3 ⟨8, "texture_specular", "t.png"⟩ rfl
      (Or.inr rfl) (by decide)).1,
   ((Mesh_Draw_samplers fullShader sampleMesh).2.1 3 ⟨8, "texture_specular", "t.png"⟩ rfl
      (Or.inr rfl) (by decide)).2 rfl⟩

/-- C13 counterexample: the specular map at index 1 of `zeroSpecularMesh` is the first specular
texture, but with its id 0 the sampler `material.texture_specular1` is not set; and in a shader
without `material.texture_diffuse1` the diffuse map at index 0 is bound without any sampler
being set. -/
theorem Mesh_Draw_sampler_not_set :
    Mesh.Draw fullShader zeroSpecularMesh
        = [.activeTexture 0, .uniform1i "material.texture_diffuse1" 0, .bindTexture 5,
           .activeTexture 1,
           .bindVertexArray true, .drawElements 3, .bindVertexArray false, .activeTexture 0]
    ∧ Mesh.Draw noDiffuseSamplerShader zeroSpecularMesh
        = [.activeTexture 0, .bindTexture 5, .activeTexture 1,
           .bindVertexArray true, .drawElements 3, .bindVertexArray false, .activeTexture 0] := by
  decide

/-- C14 (the code at the failing input): the only texture of `zeroDiffuseMesh` is a diffuse map
with id 0; it is skipped, so no diffuse texture is bound, yet `diffuseNr` has become 2 and the
sampler `material.texture_diffuse1`, which the shader has, is not set before the draw call. -/
theorem Mesh_Draw_zero_id_diffuse_no_default :
    fullShader.hasUniform (.lit "material.texture_diffuse1") = true
    ∧ (drawMeshTextures fullShader zeroDiffuseMesh.textures 0 1 1).1 = 2
    ∧ Mesh.Draw fullShader zeroDiffuseMesh
        = [.activeTexture 0,
           .bindVertexArray true, .drawElements 3, .bindVertexArray false, .activeTexture 0] := by
  decide

/-! ## Sun animation -/

theorem sunDirectionRaw_real (t : ℝ) :
    sunDirectionRaw realGlm t = ⟨Real.sin (t * (2 / 100)) * (8 / 10), -(7 / 10), -(5 / 10)⟩ :=
  rfl

theorem sin_quarter_turn : Real.sin (2 / 100 * (25 * Real.pi)) = 1 := by
  have h : (2 / 100 * (25 * Real.pi) : ℝ) = Real.pi / 2 := by ring
  rw [h, Real.sin_pi_div_two]

/-- The squared length of the un-normalized sun direction. -/
theorem sunDirectionRaw_sq (t : ℝ) :
    (sunDirectionRaw realGlm t).x * (sunDirectionRaw realGlm t).x
      + (sunDirectionRaw realGlm t).y * (sunDirectionRaw realGlm t).y
      + (sunDirectionRaw realGlm t).z * (sunDirectionRaw realGlm t).z
      = Real.sin (t * (2 / 100)) ^ 2 * (64 / 100) + 74 / 100 := by
  rw [sunDirectionRaw_real]
  ring

theorem sunDirectionRaw_sq_pos (t : ℝ) :
    0 < Real.sin (t * (2 / 100)) ^ 2 * (64 / 100) + 74 / 100 := by
  have := sq_nonneg (Real.sin (t * (2 / 100)))
  positivity

/-- The y component of the normalized sun direction. -/
theorem sun_direction_y (t : ℝ) :
    (currentAnimatedSunDirection realGlm t).y
      = -(7 / 10) / Real.sqrt (Real.sin (t * (2 / 100)) ^ 2 * (64 / 100) + 74 / 100) := by
  show (sunDirectionRaw realGlm t).y / Real.sqrt _ = _
  rw [sunDirectionRaw_sq]
  rfl

theorem sun_direction_y_eq_iff (t1 t2 : ℝ) :
    (currentAnimatedSunDirection realGlm t1).y = (currentAnimatedSunDirection realGlm t2).y
      ↔ Real.sin (t1 * (2 / 100)) ^ 2 = Real.sin (t2 * (2 / 100)) ^ 2 := by
  rw [sun_direction_y, sun_direction_y]
  have h1 := sunDirectionRaw_sq_pos t1
  have h2 := sunDirectionRaw_sq_pos t2
  have hs1 : Real.sqrt (Real.sin (t1 * (2 / 100)) ^ 2 * (64 / 100) + 74 / 100) ≠ 0 :=
    ne_of_gt (Real.sqrt_pos.mpr h1)
  have hs2 : Real.sqrt (Real.sin (t2 * (2 / 100)) ^ 2 * (64 / 100) + 74 / 100) ≠ 0 :=
    ne_of_gt (Real.sqrt_pos.mpr h2)
  constructor
  · intro h
    rw [div_eq_div_iff hs1 hs2] at h
    have h3 : Real.sqrt (Real.sin (t1 * (2 / 100)) ^ 2 * (64 / 100) + 74 / 100)
        = Real.sqrt (Real.sin (t2 * (2 / 100)) ^ 2 * (64 / 100) + 74 / 100) := by linarith
    rw [Real.sqrt_inj (le_of_lt h1) (le_of_lt h2)] at h3
    linarith
  · intro h
    rw [h]

theorem realGlm_length_normalize (v : Vec3 ℝ) (h : 0 < v.x * v.x + v.y * v.y + v.z * v.z) :
    realGlm.length (realGlm.normalize v) = 1 := by
  have hn : 0 < Real.sqrt (v.x * v.x + v.y * v.y + v.z * v.z) := Real.sqrt_pos.mpr h
  have hsq := Real.mul_self_sqrt (le_of_lt h)
  show Real.sqrt (v.x / Real.sqrt (v.x * v.x + v.y * v.y + v.z * v.z)
        * (v.x / Real.sqrt (v.x * v.x + v.y * v.y + v.z * v.z))
      + v.y / Real.sqrt (v.x * v.x + v.y * v.y + v.z * v.z)
        * (v.y / Real.sqrt (v.x * v.x + v.y * v.y + v.z * v.z))
      + v.z / Real.sqrt (v.x * v.x + v.y * v.y + v.z * v.z)
        * (v.z / Real.sqrt (v.x * v.x + v.y * v.y + v.z * v.z))) = 1
  have hone : v.x / Real.sqrt (v.x * v.x + v.y * v.y + v.z * v.z)
        * (v.x / Real.sqrt (v.x * v.x + v.y * v.y + v.z * v.z))
      + v.y / Real.sqrt (v.x * v.x + v.y * v.y + v.z * v.z)
        * (v.y / Real.sqrt (v.x * v.x + v.y * v.y + v.z * v.z))
      + v.z / Real.sqrt (v.x * v.x + v.y * v.y + v.z * v.z)
        * (v.z / Real.sqrt (v.x * v.x + v.y * v.y + v.z * v.z)) = 1 := by
    have hne := ne_of_gt hn
    field_simp
  rw [hone, Real.sqrt_one]

/-- C15: over the reals, the sun direction at time `t` is
`normalize(sin(t * 0.02) * 0.8, -0.7, -0.5)`, which is the value uploaded as
`dirLights[0].direction`; at `t = 0` it is `normalize(0, -0.7, -0.5)`, and at every `t` with
`sin(0.02 * t) = 1` it is `normalize(0.8, -0.7, -0.5)`. -/
theorem sun_direction_formula (t : ℝ) :
    currentAnimatedSunDirection realGlm t
        = realGlm.normalize ⟨Real.sin (t * (2 / 100)) * (8 / 10), -(7 / 10), -(5 / 10)⟩
    ∧ GLCall.uniform3f (.lit "dirLights[0].direction")
          (realGlm.normalize ⟨Real.sin (t * (2 / 100)) * (8 / 10), -(7 / 10), -(5 / 10)⟩)
        ∈ dirLightSetup realGlm t
    ∧ currentAnimatedSunDirection realGlm 0 = realGlm.normalize ⟨0, -(7 / 10), -(5 / 10)⟩
    ∧ (Real.sin (2 / 100 * t) = 1 →
        currentAnimatedSunDirection realGlm t
          = realGlm.normalize ⟨8 / 10, -(7 / 10), -(5 / 10)⟩) := by
  refine ⟨rfl, List.mem_cons_self _ _, ?_, ?_⟩
  · show realGlm.normalize (sunDirectionRaw realGlm 0) = _
    rw [sunDirectionRaw_real]
    simp
  · intro h
    show realGlm.normalize (sunDirectionRaw realGlm t) = _
    rw [sunDirectionRaw_real, mul_comm t, h, one_mul]

/-- C15 witness: `t = 25 * pi`, where `0.02 * t` is a quarter turn. -/
theorem sun_direction_formula_witness :
    Real.sin (2 / 100 * (25 * Real.pi)) = 1
    ∧ currentAnimatedSunDirection realGlm (25 * Real.pi)
        = realGlm.normalize ⟨8 / 10, -(7 / 10), -(5 / 10)⟩ :=
  ⟨sin_quarter_turn, (sun_direction_formula (25 * Real.pi)).2.2.2 sin_quarter_turn⟩

/-- C17 (as amended): the un-normalized sun direction has the same y component, -0.7, at all
times, but the y component of the normalized direction is
`-0.7 / sqrt(0.64 * sin(0.02 t)^2 + 0.74)`: it is the same at two times exactly when
`sin(0.02 t)^2` is the same at both. -/
theorem sun_elevation (t1 t2 : ℝ) :
    (sunDirectionRaw realGlm t1).y = (sunDirectionRaw realGlm t2).y
    ∧ (currentAnimatedSunDirection realGlm t1).y
        = -(7 / 10) / Real.sqrt (Real.sin (t1 * (2 / 100)) ^ 2 * (64 / 100) + 74 / 100)
    ∧ ((currentAnimatedSunDirection realGlm t1).y = (currentAnimatedSunDirection realGlm t2).y
        ↔ Real.sin (t1 * (2 / 100)) ^ 2 = Real.sin (t2 * (2 / 100)) ^ 2) :=
  ⟨rfl, sun_direction_y t1, sun_direction_y_eq_iff t1 t2⟩

/-- C17 counterexample: the normalized sun direction at `t = 0` and at `t = 25 * pi` have
different y components. -/
theorem sun_elevation_changes :
    (currentAnimatedSunDirection realGlm 0).y
      ≠ (currentAnimatedSunDirection realGlm (25 * Real.pi)).y := by
  rw [Ne, sun_direction_y_eq_iff]
  have h : Real.sin (25 * Real.pi * (2 / 100)) = 1 := by
    rw [mul_comm]; exact sin_quarter_turn
  rw [h]
  simp

/-- C18: over the reals, at every time the un-normalized sun direction is not the zero vector
(its length is positive), and the direction uploaded first in the directional-light setup has
length 1. -/
theorem sun_direction_unit (t : ℝ) :
    sunDirectionRaw realGlm t ≠ ⟨0, 0, 0⟩
    ∧ 0 < realGlm.length (sunDirectionRaw realGlm t)
    ∧ realGlm.length (currentAnimatedSunDirection realGlm t) = 1
    ∧ (dirLightSetup realGlm t).head?
        = some (GLCall.uniform3f (.lit "dirLights[0].direction")
            (currentAnimatedSunDirection realGlm t)) := by
  have hpos : 0 < (sunDirectionRaw realGlm t).x * (sunDirectionRaw realGlm t).x
      + (sunDirectionRaw realGlm t).y * (sunDirectionRaw realGlm t).y
      + (sunDirectionRaw realGlm t).z * (sunDirectionRaw realGlm t).z := by
    rw [sunDirectionRaw_sq]
    exact sunDirectionRaw_sq_pos t
  refine ⟨?_, Real.sqrt_pos.mpr hpos, realGlm_length_normalize _ hpos, rfl⟩
  rw [sunDirectionRaw_real]
  intro h
  have hy := congrArg Vec3.y h
  norm_num at hy

/-! ## Failed import -/

theorem mem_assign_self {F : Type} (models : Registry F) (name : String) (info : ModelInfo F) :
    (name, info) ∈ models.assign name info := by
  induction models with
  | nil => simp [Registry.assign]
  | cons kv rest ih =>
    obtain ⟨k, v⟩ := kv
    simp only [Registry.assign]
    split_ifs with h1 h2
    · exact List.mem_cons_self _ _
    · rw [h2]; exact List.mem_cons_self _ _
    · exact List.mem_cons_of_mem _ ih

/-- C16: when the importer reports failure (a null scene, the incomplete flag, or no root
node), the `Model` constructor returns normally, leaves the GL state alone, and the model has no
meshes; `Model::Draw` on it issues no GL call at all; and `main`, given that model for a name,
registers it under the name and goes on loading the remaining names. -/
theorem Model_create_import_failure {F : Type} [LinearOrderedField F] (importer : Importer)
    (env : LoaderEnv) (path : String) (gamma : Bool) (gl : GLTextures) (shader : Shader)
    (hfail : importer.ReadFile path = .ok none
      ∨ ∃ scene, importer.ReadFile path = .ok (some scene)
          ∧ (scene.incomplete = true ∨ scene.mRootNode = none)) :
    Model.create importer env path gamma gl = .ok (failedModel gamma, gl)
    ∧ (failedModel gamma).meshes = []
    ∧ Model.Draw shader (failedModel gamma) = []
    ∧ ∀ (newModel : String → Option Model) (name : String) (rest : List String)
        (models : Registry F),
        newModel ("models/" ++ name ++ ".obj") = some (failedModel gamma) →
        loadNamedModels newModel (name :: rest) models
          = loadNamedModels newModel rest
              (models.assign name (ModelInfo.ofModel (some (failedModel gamma))))
        ∧ (name, ModelInfo.ofModel (some (failedModel gamma)))
            ∈ models.assign name (ModelInfo.ofModel (some (failedModel gamma))) := by
  refine ⟨?_, rfl, rfl, ?_⟩
  · unfold Model.create Model.loadModel
    rcases hfail with h | ⟨scene, h, hs⟩
    · simp only [h]
      rfl
    · simp only [h]
      rcases hs with hs | hs
      · simp [hs, failedModel]
      · simp [hs, failedModel]
  · intro newModel name rest models hnew
    refine ⟨?_, mem_assign_self _ _ _⟩
    simp only [loadNamedModels, hnew]

/-- C16 witness: an importer that returns a null scene for every path. -/
theorem Model_create_import_failure_witness :
    failingImporter.ReadFile "models/Kiosk.obj" = .ok none
    ∧ Model.create failingImporter noFilesEnv "models/Kiosk.obj" false noTextures
        = .ok (failedModel false, noTextures) :=
  ⟨rfl,
   (@Model_create_import_failure ℚ _ failingImporter noFilesEnv "models/Kiosk.obj" false
      noTextures fullShader (Or.inl rfl)).1⟩

/-! ## Forward pass order and shininess -/

theorem drawsWithDepthMask_append {F : Type} (a b : List (GLCall F)) (mask : Bool) :
    drawsWithDepthMask mask (a ++ b)
      = drawsWithDepthMask mask a ++ drawsWithDepthMask (finalDepthMask mask a) b := by
  induction a generalizing mask with
  | nil => rfl
  | cons c rest ih => cases c <;> simp [drawsWithDepthMask, finalDepthMask, ih]

theorem finalDepthMask_append {F : Type} (a b : List (GLCall F)) (mask : Bool) :
    finalDepthMask mask (a ++ b) = finalDepthMask (finalDepthMask mask a) b := by
  induction a generalizing mask with
  | nil => rfl
  | cons c rest ih => cases c <;> simp [finalDepthMask, ih]

section ForwardLemmas
variable {F : Type} [LinearOrderedField F]

theorem depthMask_opaquePass (shader : Shader) (models : Registry F) (mask : Bool) :
    drawsWithDepthMask mask (opaquePass shader models)
        = (models.filter (fun p => !p.2.isTransparent && p.2.model.isSome)).map
            (fun e => (mask, e.1, e.2))
    ∧ finalDepthMask mask (opaquePass shader models) = mask := by
  induction models with
  | nil => exact ⟨rfl, rfl⟩
  | cons p rest ih =>
    unfold opaquePass
    cases ht : p.2.isTransparent <;> cases hm : p.2.model <;>
      cases hg : shader.hasUniform (.lit "isGlass") <;>
      cases hs : shader.hasUniform (.lit "material.shininess") <;>
      simp [List.filter_cons, ht, hm, hg, hs, ih, drawsWithDepthMask, finalDepthMask,
        drawsWithDepthMask_append, finalDepthMask_append]

theorem depthMask_drawTransparentObject (shader : Shader) (loc : Bool)
    (obj : TransparentObject F) (mask : Bool) :
    drawsWithDepthMask mask (drawTransparentObject shader loc obj)
        = [(mask, obj.name, obj.modelInfo)]
    ∧ finalDepthMask mask (drawTransparentObject shader loc obj) = mask := by
  unfold drawTransparentObject
  cases loc <;> cases ha : shader.hasUniform (.lit "material.ambient") <;>
    cases hs : shader.hasUniform (.lit "material.specular") <;>
    simp [drawsWithDepthMask, finalDepthMask]

theorem depthMask_renderTransparentObjects (glm : Glm F)
    (sort : List (TransparentObject F) → List (TransparentObject F))
    (shader : Shader) (models : Registry F) (cameraPos : Vec3 F) (loc glassOnly : Bool)
    (mask : Bool) :
    drawsWithDepthMask mask
        (renderTransparentObjects glm sort shader models cameraPos loc glassOnly)
      = (drawnObjects
          (renderTransparentObjects glm sort shader models cameraPos loc glassOnly)).map
          (fun e => (mask, e.1, e.2))
    ∧ finalDepthMask mask
        (renderTransparentObjects glm sort shader models cameraPos loc glassOnly) = mask := by
  rw [drawnObjects_renderTransparentObjects]
  unfold renderTransparentObjects
  simp only
  induction sort (collectTransparent glm models cameraPos glassOnly) with
  | nil => exact ⟨rfl, rfl⟩
  | cons o rest ih =>
    obtain ⟨h1, h2⟩ := depthMask_drawTransparentObject shader loc o mask
    simp only [List.flatMap_cons, drawsWithDepthMask_append, finalDepthMask_append, h1, h2,
      ih.1, ih.2, List.map_cons, List.singleton_append, and_self]

theorem matchesPass_of_mem_drawn (glm : Glm F)
    (sort : List (TransparentObject F) → List (TransparentObject F))
    (hsort : StdSortContract TransparentObject.lt sort)
    (shader : Shader) (models : Registry F) (cameraPos : Vec3 F) (loc glassOnly : Bool)
    (e : String × ModelInfo F)
    (he : e ∈ drawnObjects
      (renderTransparentObjects glm sort shader models cameraPos loc glassOnly)) :
    e.2.isTransparent = true ∧ e.2.isGlass = glassOnly := by
  have h := (drawnObjects_perm_filter glm sort hsort shader models cameraPos loc glassOnly).subset
    he
  have h2 := (List.mem_filter.mp h).2
  simp only [matchesPass, Bool.and_eq_true, beq_iff_eq] at h2
  exact ⟨h2.1.1, h2.1.2⟩

/-- C19: in the forward pass of every frame the draws are, in this order, the opaque objects
with depth writes enabled, the non-glass transparent objects and then the glass objects with
depth writes disabled; and depth writes are enabled when the pass ends. -/
theorem forwardDraws_order (glm : Glm F)
    (sort : List (TransparentObject F) → List (TransparentObject F))
    (hsort : StdSortContract TransparentObject.lt sort)
    (shader : Shader) (models : Registry F) (drone : Drone F) (mask : Bool) :
    drawsWithDepthMask mask (forwardDraws glm sort shader models drone)
        = (models.filter (fun p => !p.2.isTransparent && p.2.model.isSome)).map
            (fun e => (true, e.1, e.2))
          ++ (drawnObjects (renderTransparentObjects glm sort shader models drone.position
                (shader.hasUniform (.lit "isGlass")) false)).map (fun e => (false, e.1, e.2))
          ++ (drawnObjects (renderTransparentObjects glm sort shader models drone.position
                (shader.hasUniform (.lit "isGlass")) true)).map (fun e => (false, e.1, e.2))
    ∧ (∀ e ∈ drawnObjects (renderTransparentObjects glm sort shader models drone.position
          (shader.hasUniform (.lit "isGlass")) false),
        e.2.isTransparent = true ∧ e.2.isGlass = false)
    ∧ (∀ e ∈ drawnObjects (renderTransparentObjects glm sort shader models drone.position
          (shader.hasUniform (.lit "isGlass")) true),
        e.2.isTransparent = true ∧ e.2.isGlass = true)
    ∧ finalDepthMask mask (forwardDraws glm sort shader models drone) = true := by
  have e : forwardDraws glm sort shader models drone
      = GLCall.depthMask true :: (opaquePass shader models ++ (GLCall.depthMask false ::
          (renderTransparentObjects glm sort shader models drone.position
              (shader.hasUniform (.lit "isGlass")) false
            ++ (renderTransparentObjects glm sort shader models drone.position
              (shader.hasUniform (.lit "isGlass")) true ++ [GLCall.depthMask true])))) := by
    unfold forwardDraws
    simp
  refine ⟨?_, ?_, ?_, ?_⟩
  · rw [e]
    simp [drawsWithDepthMask, drawsWithDepthMask_append, finalDepthMask_append,
      depthMask_opaquePass, depthMask_renderTransparentObjects]
  · exact fun e he => matchesPass_of_mem_drawn glm sort hsort shader models _ _ false e he
  · exact fun e he => matchesPass_of_mem_drawn glm sort hsort shader models _ _ true e he
  · rw [e]
    simp [finalDepthMask, finalDepthMask_append, depthMask_opaquePass,
      depthMask_renderTransparentObjects]

/-- C19 witness: the transparent entries of the scene seen from the initial drone position. -/
theorem forwardDraws_order_witness :
    StdSortContract TransparentObject.lt (insertionStdSort : List (TransparentObject ℝ) → _)
    ∧ finalDepthMask false
        (forwardDraws realGlm insertionStdSort fullShader sceneTransparents Drone.initial)
        = true :=
  ⟨stdSortContract_insertionStdSort,
   (forwardDraws_order realGlm insertionStdSort stdSortContract_insertionStdSort fullShader
      sceneTransparents Drone.initial false).2.2.2⟩

end ForwardLemmas

theorem containsSubstr_iff (s pat : List Char) :
    containsSubstr s pat = true ↔ ∃ pre suf, s = pre ++ pat ++ suf := by
  induction s with
  | nil =>
    simp only [containsSubstr, List.isEmpty_iff]
    constructor
    · intro h; exact ⟨[], [], by simp [h]⟩
    · rintro ⟨pre, suf, h⟩
      have h2 := congrArg List.length h
      simp only [List.length_nil, List.length_append] at h2
      exact List.length_eq_zero.mp (by omega)
  | cons c rest ih =>
    simp only [containsSubstr, Bool.or_eq_true, List.isPrefixOf_iff_prefix, ih]
    constructor
    · rintro (⟨t, ht⟩ | ⟨pre, suf, h⟩)
      · exact ⟨[], t, by simp [ht]⟩
      · exact ⟨c :: pre, suf, by simp [h]⟩
    · rintro ⟨pre, suf, h⟩
      cases pre with
      | nil => exact Or.inl ⟨suf, by simpa using h.symm⟩
      | cons d pre2 =>
        simp only [List.cons_append, List.cons.injEq] at h
        exact Or.inr ⟨pre2, suf, h.2⟩

theorem writesTo_nil {F : Type} (n : UniformName) : writesTo n ([] : List (GLCall F)) = [] := rfl

theorem writesTo_cons {F : Type} (n : UniformName) (c : GLCall F) (l : List (GLCall F)) :
    writesTo n (c :: l) = (if c.target = some n then [c] else []) ++ writesTo n l := by
  unfold writesTo
  by_cases h : c.target = some n <;> simp [List.filter_cons, h]

section ShininessLemmas
variable {F : Type} [LinearOrderedField F]

theorem writesTo_shininess_opaquePass (shader : Shader) (models : Registry F) :
    writesTo (.lit "material.shininess") (opaquePass shader models)
      = if shader.hasUniform (.lit "material.shininess") then
          (models.filter (fun p => !p.2.isTransparent && p.2.model.isSome)).map
            (fun p => GLCall.uniform1f (.lit "material.shininess") (opaqueShininess p.1))
        else [] := by
  induction models with
  | nil => simp [opaquePass, writesTo]
  | cons p rest ih =>
    unfold opaquePass
    cases ht : p.2.isTransparent <;> cases hm : p.2.model <;>
      cases hg : shader.hasUniform (.lit "isGlass") <;>
      cases hs : shader.hasUniform (.lit "material.shininess") <;>
      simp only [hs] at ih <;>
      simp [List.filter_cons, ht, hm, hg, hs, ih, writesTo_append, writesTo_cons, writesTo_nil,
        GLCall.target]

theorem writesTo_shininess_drawTransparentObject (shader : Shader) (loc : Bool)
    (obj : TransparentObject F) :
    writesTo (.lit "material.shininess") (drawTransparentObject shader loc obj)
      = [GLCall.uniform1f (.lit "material.shininess")
          (if obj.modelInfo.isGlass then 96 else 32)] := by
  unfold drawTransparentObject
  cases loc <;> cases ha : shader.hasUniform (.lit "material.ambient") <;>
    cases hs : shader.hasUniform (.lit "material.specular") <;>
    simp [writesTo, GLCall.target]

/-- C20: the opaque pass uploads, for each opaque object, the shininess 16 when its name
contains "Table" or "Chair" or is exactly "Dividers", "Railings" or "WallDecor", and 32
otherwise (the upload is made when the shader has `material.shininess`); the transparent pass
uploads 96 for each glass object and 32 for each non-glass object it draws. -/
theorem shininess_rule (glm : Glm F)
    (sort : List (TransparentObject F) → List (TransparentObject F))
    (shader : Shader) (models : Registry F) (cameraPos : Vec3 F) (loc glassOnly : Bool) :
    (∀ name : String,
        ((∃ pre suf, name.data = pre ++ "Table".data ++ suf)
          ∨ (∃ pre suf, name.data = pre ++ "Chair".data ++ suf)
          ∨ name = "Dividers" ∨ name = "Railings" ∨ name = "WallDecor") →
        (opaqueShininess name : F) = 16)
    ∧ (∀ name : String,
        ¬ ((∃ pre suf, name.data = pre ++ "Table".data ++ suf)
          ∨ (∃ pre suf, name.data = pre ++ "Chair".data ++ suf)
          ∨ name = "Dividers" ∨ name = "Railings" ∨ name = "WallDecor") →
        (opaqueShininess name : F) = 32)
    ∧ writesTo (.lit "material.shininess") (opaquePass shader models)
        = (if shader.hasUniform (.lit "material.shininess") then
            (models.filter (fun p => !p.2.isTransparent && p.2.model.isSome)).map
              (fun p => GLCall.uniform1f (.lit "material.shininess") (opaqueShininess p.1))
          else [])
    ∧ writesTo (.lit "material.shininess")
          (renderTransparentObjects glm sort shader models cameraPos loc glassOnly)
        = (drawnObjects
            (renderTransparentObjects glm sort shader models cameraPos loc glassOnly)).map
            (fun e => GLCall.uniform1f (.lit "material.shininess")
              (if e.2.isGlass then 96 else 32)) := by
  have hrule : ∀ name : String,
      ((containsSubstr name.data "Table".data || containsSubstr name.data "Chair".data ||
          decide (name = "Dividers") || decide (name = "Railings") ||
          decide (name = "WallDecor")) = true)
      ↔ ((∃ pre suf, name.data = pre ++ "Table".data ++ suf)
          ∨ (∃ pre suf, name.data = pre ++ "Chair".data ++ suf)
          ∨ name = "Dividers" ∨ name = "Railings" ∨ name = "WallDecor") := by
    intro name
    simp only [Bool.or_eq_true, containsSubstr_iff, decide_eq_true_eq, or_assoc]
  refine ⟨?_, ?_, writesTo_shininess_opaquePass shader models, ?_⟩
  · intro name h
    unfold opaqueShininess
    rw [if_pos ((hrule name).mpr h)]
  · intro name h
    unfold opaqueShininess
    rw [if_neg (fun hc => h ((hrule name).mp hc))]
  · rw [drawnObjects_renderTransparentObjects]
    unfold renderTransparentObjects
    simp only
    induction sort (collectTransparent glm models cameraPos glassOnly) with
    | nil => rfl
    | cons o rest ih =>
      simp only [List.flatMap_cons, writesTo_append, writesTo_shininess_drawTransparentObject,
        ih, List.map_cons, List.singleton_append]

/-- C20 witness: the name `MiniCoffeeTable` contains "Table". -/
theorem shininess_rule_witness :
    (∃ pre suf, "MiniCoffeeTable".data = pre ++ "Table".data ++ suf)
    ∧ (opaqueShininess "MiniCoffeeTable" : ℚ) = 16 :=
  ⟨⟨"MiniCoffee".data, [], rfl⟩,
   (shininess_rule (⟨fun _ => 0, id, id, id, id⟩ : Glm ℚ) insertionStdSort fullShader []
      ⟨0, 0, 0⟩ true false).1 "MiniCoffeeTable" (Or.inl ⟨"MiniCoffee".data, [], rfl⟩)⟩

end ShininessLemmas

/-! ## Texture cache of a model -/

section ModelInvariants

variable (env : LoaderEnv) (P : Model → GLTextures → Prop)

theorem processMesh_invariant
    (hload : ∀ model gl mat type typeName, P model gl →
      P (model.loadMaterialTextures env gl mat type typeName).model
        (model.loadMaterialTextures env gl mat type typeName).gl)
    (model : Model) (gl : GLTextures) (mesh : aiMesh) (h : P model gl) :
    P (model.processMesh env gl mesh).2.1 (model.processMesh env gl mesh).2.2 := by
  unfold Model.processMesh
  exact hload _ _ _ _ _ (hload _ _ _ _ _ (hload _ _ _ _ _ (hload _ _ _ _ _ h)))

theorem processMeshes_invariant
    (hload : ∀ model gl mat type typeName, P model gl →
      P (model.loadMaterialTextures env gl mat type typeName).model
        (model.loadMaterialTextures env gl mat type typeName).gl)
    (hmesh : ∀ (model : Model) gl meshes, P model gl → P { model with meshes := meshes } gl)
    (meshes : List aiMesh) (st : Model × GLTextures) (h : P st.1 st.2) :
    P (Model.processMeshes env meshes st).1 (Model.processMeshes env meshes st).2 := by
  induction meshes generalizing st with
  | nil => exact h
  | cons mesh rest ih =>
    unfold Model.processMeshes
    exact ih _ (hmesh _ _ _ (processMesh_invariant env P hload _ _ _ h))

mutual
theorem processNode_invariant
    (hload : ∀ model gl mat type typeName, P model gl →
      P (model.loadMaterialTextures env gl mat type typeName).model
        (model.loadMaterialTextures env gl mat type typeName).gl)
    (hmesh : ∀ (model : Model) gl meshes, P model gl → P { model with meshes := meshes } gl) :
    ∀ (node : aiNode) (st : Model × GLTextures), P st.1 st.2 →
      P (Model.processNode env node st).1 (Model.processNode env node st).2
  | .node meshes children, st, h => by
    unfold Model.processNode
    exact processChildren_invariant hload hmesh children _
      (processMeshes_invariant env P hload hmesh meshes st h)
theorem processChildren_invariant
    (hload : ∀ model gl mat type typeName, P model gl →
      P (model.loadMaterialTextures env gl mat type typeName).model
        (model.loadMaterialTextures env gl mat type typeName).gl)
    (hmesh : ∀ (model : Model) gl meshes, P model gl → P { model with meshes := meshes } gl) :
    ∀ (children : List aiNode) (st : Model × GLTextures), P st.1 st.2 →
      P (Model.processChildren env children st).1 (Model.processChildren env children st).2
  | [], st, h => by
    unfold Model.processChildren
    exact h
  | child :: rest, st, h => by
    unfold Model.processChildren
    exact processChildren_invariant hload hmesh rest _
      (processNode_invariant hload hmesh child st h)
end

end ModelInvariants

theorem loadModel_invariant (importer : Importer) (env : LoaderEnv)
    (P : Model → GLTextures → Prop)
    (hload : ∀ model gl mat type typeName, P model gl →
      P (model.loadMaterialTextures env gl mat type typeName).model
        (model.loadMaterialTextures env gl mat type typeName).gl)
    (hmesh : ∀ (model : Model) gl meshes, P model gl → P { model with meshes := meshes } gl)
    (hdir : ∀ (model : Model) gl directory, P model gl → P { model with directory := directory } gl)
    (path : String) (model : Model) (gl : GLTextures) (h : P model gl)
    (r : Model × GLTextures) (hr : Model.loadModel importer env path model gl = .ok r) :
    P r.1 r.2 := by
  unfold Model.loadModel at hr
  cases hread : importer.ReadFile path with
  | error e => rw [hread] at hr; cases hr
  | ok s =>
    rw [hread] at hr
    cases s with
    | none =>
      cases hr
      exact h
    | some scene =>
      simp only at hr
      split_ifs at hr with hc
      · cases hr
        exact h
      · cases hroot : scene.mRootNode with
        | none =>
          rw [hroot] at hr
          cases hr
          exact h
        | some root =>
          rw [hroot] at hr
          cases hr
          exact processNode_invariant env P hload hmesh root _ (hdir _ _ _ h)

theorem nodup_loadMaterialTextures (env : LoaderEnv) (model : Model) (gl : GLTextures)
    (mat : aiMaterial) (type : aiTextureType) (typeName : String)
    (h : (model.textures_loaded.map Texture.path).Nodup) :
    ((model.loadMaterialTextures env gl mat type typeName).model.textures_loaded.map
      Texture.path).Nodup :=
  (loadCalls_loadMaterialTextures env model gl mat type typeName).2.2.2.2 h

/-- **C23** `Model::textures_loaded` never holds two entries with the same path: a call of
`loadMaterialTextures` keeps pairwise distinct paths pairwise distinct, the constructor starts
`loadModel` on an empty list, and so the list of every constructed model has pairwise distinct
paths. -/
theorem textures_loaded_distinct_paths (env : LoaderEnv) (model : Model) (gl : GLTextures)
    (mat : aiMaterial) (type : aiTextureType) (typeName : String)
    (h : (model.textures_loaded.map Texture.path).Nodup) :
    ((model.loadMaterialTextures env gl mat type typeName).model.textures_loaded.map
      Texture.path).Nodup
    ∧ (∀ importer path gamma gl0, ∃ start : Model, start.textures_loaded = []
        ∧ Model.create importer env path gamma gl0
          = Model.loadModel importer env path start gl0)
    ∧ (∀ importer path gamma gl0 r, Model.create importer env path gamma gl0 = .ok r →
        (r.1.textures_loaded.map Texture.path).Nodup) := by
  refine ⟨nodup_loadMaterialTextures env model gl mat type typeName h,
    fun importer path gamma gl0 => ⟨_, rfl, rfl⟩, ?_⟩
  intro importer path gamma gl0 r hr
  exact loadModel_invariant importer env
    (fun m _ => (m.textures_loaded.map Texture.path).Nodup)
    (fun m g mat type typeName hm => nodup_loadMaterialTextures env m g mat type typeName hm)
    (fun _ _ _ hm => hm) (fun _ _ _ hm => hm) path
    { textures_loaded := [], meshes := [], directory := "", gammaCorrection := gamma } gl0
    List.nodup_nil r hr

/-- Witness for C23: a model whose cache holds `a.png`, asked for `a.png` again. -/
theorem textures_loaded_distinct_paths_witness :
    (cachedDiffuseModel.textures_loaded.map Texture.path).Nodup
    ∧ ((cachedDiffuseModel.loadMaterialTextures noFilesEnv noTextures sharedPathMaterial
        .SPECULAR "texture_specular").model.textures_loaded.map Texture.path).Nodup :=
  ⟨by decide, (textures_loaded_distinct_paths noFilesEnv cachedDiffuseModel noTextures
    sharedPathMaterial .SPECULAR "texture_specular" (by decide)).1⟩

/-- **C24** The cache of `loadMaterialTextures` is keyed on the path alone: when the material
asks, under any role name `typeName`, for the path of an entry `cached` that is already in
`textures_loaded`, the call returns that entry itself, so the texture returned for this path
has the id and the type of the cached entry, whatever `typeName` is, and the path is not
decoded again. -/
theorem loadMaterialTextures_cache_keyed_on_path (env : LoaderEnv) (model : Model)
    (gl : GLTextures) (mat : aiMaterial) (type : aiTextureType) (typeName : String)
    (cached : Texture) (hnd : (model.textures_loaded.map Texture.path).Nodup)
    (hmem : cached ∈ model.textures_loaded) (hreq : cached.path ∈ mat.textures type) :
    cached ∈ (model.loadMaterialTextures env gl mat type typeName).textures
    ∧ (∀ t ∈ (model.loadMaterialTextures env gl mat type typeName).textures,
        t.path = cached.path → t.id = cached.id ∧ t.type = cached.type)
    ∧ cached.path ∉ (model.loadMaterialTextures env gl mat type typeName).decodes := by
  obtain ⟨h1, h2, h3, h4, h5⟩ := loadCalls_loadMaterialTextures env model gl mat type typeName
  have hnd2 := h5 hnd
  have hc := h3 cached hmem
  have key : ∀ t ∈ (model.loadMaterialTextures env gl mat type typeName).textures,
      t.path = cached.path → t = cached := fun t ht hp =>
    List.inj_on_of_nodup_map hnd2 (h4 t ht) hc hp
  refine ⟨?_, fun t ht hp => by rw [key t ht hp]; exact ⟨rfl, rfl⟩, ?_⟩
  · rw [← h1] at hreq
    obtain ⟨t, ht, hp⟩ := List.mem_map.mp hreq
    rw [← key t ht hp]
    exact ht
  · intro hd
    rw [h2] at hnd2
    exact (List.nodup_append.mp hnd2).2.2 (List.mem_map_of_mem _ hmem) hd

/-- Witness for C24: `a.png` was cached as a diffuse map with the name 7; asked for as a
specular map, the call returns the entry of type `texture_diffuse`. A mesh whose material
names one file in both roles gets the diffuse entry twice. -/
theorem loadMaterialTextures_cache_keyed_on_path_witness :
    (cachedDiffuseModel.loadMaterialTextures noFilesEnv noTextures sharedPathMaterial
      .SPECULAR "texture_specular").textures = [⟨7, "texture_diffuse", "a.png"⟩]
    ∧ ((⟨[], [], "models", false⟩ : Model).processMesh noFilesEnv noTextures
        ⟨[], sharedPathMaterial⟩).1.textures
      = [⟨1, "texture_diffuse", "a.png"⟩, ⟨1, "texture_diffuse", "a.png"⟩]
    ∧ (⟨7, "texture_diffuse", "a.png"⟩ : Texture)
      ∈ (cachedDiffuseModel.loadMaterialTextures noFilesEnv noTextures sharedPathMaterial
        .SPECULAR "texture_specular").textures :=
  ⟨by decide, by decide,
   (loadMaterialTextures_cache_keyed_on_path noFilesEnv cachedDiffuseModel noTextures
    sharedPathMaterial .SPECULAR "texture_specular" ⟨7, "texture_diffuse", "a.png"⟩
    (by decide) (by decide) (by decide)).1⟩

theorem noSRGB_modifyBound (gl : GLTextures) (f : TexObject → TexObject)
    (hf : ∀ o, (f o).internalFormat = o.internalFormat
      ∨ ((f o).internalFormat ≠ .SRGB ∧ (f o).internalFormat ≠ .SRGB_ALPHA))
    (h : NoSRGB gl) : NoSRGB (gl.modifyBound f) := by
  intro p hp
  simp only [GLTextures.modifyBound, List.mem_map] at hp
  obtain ⟨q, hq, rfl⟩ := hp
  split_ifs
  · rcases hf q.2 with h1 | h1
    · show (f q.2).internalFormat ≠ _ ∧ (f q.2).internalFormat ≠ _
      rw [h1]
      exact h q hq
    · exact h1
  · exact h q hq

theorem noSRGB_glTexParameteri (pname : TexParam) (value : GLEnum) (gl : GLTextures)
    (h : NoSRGB gl) : NoSRGB (glTexParameteri pname value gl) :=
  noSRGB_modifyBound gl _ (fun o => Or.inl (by cases pname <;> rfl)) h

theorem noSRGB_glBindTexture (id : Nat) (gl : GLTextures) (h : NoSRGB gl) :
    NoSRGB (glBindTexture id gl) := by
  unfold glBindTexture
  cases gl.object id with
  | some o => exact h
  | none =>
    intro p hp
    simp only [List.mem_append, List.mem_singleton] at hp
    rcases hp with hp | hp
    · exact h p hp
    · rw [hp]
      show GLEnum.RGBA ≠ GLEnum.SRGB ∧ GLEnum.RGBA ≠ GLEnum.SRGB_ALPHA
      decide

theorem noSRGB_glDeleteTextures (id : Nat) (gl : GLTextures) (h : NoSRGB gl) :
    NoSRGB (glDeleteTextures id gl) :=
  fun p hp => h p (List.mem_of_mem_filter hp)

theorem noSRGB_createDefaultTexture (env : LoaderEnv) (gl : GLTextures) (h : NoSRGB gl) :
    NoSRGB (createDefaultTexture env gl).2 := by
  unfold createDefaultTexture
  refine noSRGB_glTexParameteri _ _ _ (noSRGB_glTexParameteri _ _ _
    (noSRGB_glTexParameteri _ _ _ (noSRGB_glTexParameteri _ _ _ ?_)))
  refine noSRGB_modifyBound _ _ (fun o => Or.inr ?_) ?_
  · show GLEnum.RGBA ≠ GLEnum.SRGB ∧ GLEnum.RGBA ≠ GLEnum.SRGB_ALPHA
    decide
  exact noSRGB_glBindTexture _ _ h

theorem noSRGB_uploadImage (id : Nat) (data : Image) (format internalFormat : GLEnum)
    (gl : GLTextures) (hi : internalFormat ≠ .SRGB ∧ internalFormat ≠ .SRGB_ALPHA)
    (h : NoSRGB gl) : NoSRGB (uploadImage id data format internalFormat gl) := by
  have h7 : NoSRGB (glTexParameteri .MAG_FILTER .LINEAR
      (glTexParameteri .MIN_FILTER .LINEAR_MIPMAP_LINEAR
        (glTexParameteri .WRAP_T .REPEAT (glTexParameteri .WRAP_S .REPEAT
          (glGenerateMipmap (glTexImage2D internalFormat data.width data.height format
            data.data (glBindTexture id gl))))))) := by
    refine noSRGB_glTexParameteri _ _ _ (noSRGB_glTexParameteri _ _ _
      (noSRGB_glTexParameteri _ _ _ (noSRGB_glTexParameteri _ _ _ ?_)))
    refine noSRGB_modifyBound _ _ (fun o => Or.inl rfl) ?_
    refine noSRGB_modifyBound _ _ (fun o => Or.inr hi) ?_
    exact noSRGB_glBindTexture _ _ h
  unfold uploadImage
  simp only
  split_ifs
  · exact noSRGB_glTexParameteri _ _ _ (noSRGB_glTexParameteri _ _ _
      (noSRGB_glTexParameteri _ _ _ h7))
  · exact h7

theorem textureFormats_false (n : Nat) (format internalFormat : GLEnum)
    (h : textureFormats n false = some (format, internalFormat)) :
    internalFormat ≠ .SRGB ∧ internalFormat ≠ .SRGB_ALPHA := by
  simp only [textureFormats, Bool.false_eq_true, if_false] at h
  split_ifs at h <;> simp only [Option.some.injEq, Prod.mk.injEq] at h <;> rw [← h.2] <;> decide

theorem TextureFromFile_eq_uploadImage (env : LoaderEnv) (path directory : String)
    (gamma : Bool) (gl : GLTextures) (data : Image) (format internalFormat : GLEnum)
    (hdata : (loadWithAlternates env path directory (resolveFilename path directory)).1
      = some data)
    (hfmt : textureFormats data.nrComponents gamma = some (format, internalFormat)) :
    (TextureFromFile env path directory gamma gl).gl
      = uploadImage (env.genName gl.names) data format internalFormat (glGenTextures env gl).2 := by
  unfold TextureFromFile
  simp only [hdata, hfmt]
  unfold uploadImage glGenTextures
  simp only

theorem noSRGB_TextureFromFile (env : LoaderEnv) (path directory : String) (gl : GLTextures)
    (h : NoSRGB gl) : NoSRGB (TextureFromFile env path directory false gl).gl := by
  have hgen : NoSRGB (glGenTextures env gl).2 := h
  have hdef : NoSRGB (createDefaultTexture env
      (glDeleteTextures (glGenTextures env gl).1 (glGenTextures env gl).2)).2 :=
    noSRGB_createDefaultTexture _ _ (noSRGB_glDeleteTextures _ _ hgen)
  cases hdata : (loadWithAlternates env path directory (resolveFilename path directory)).1 with
  | none =>
    unfold TextureFromFile
    simp only [hdata]
    exact hdef
  | some data =>
    cases hfmt : textureFormats data.nrComponents false with
    | none =>
      unfold TextureFromFile
      simp only [hdata, hfmt]
      exact hdef
    | some fi =>
      obtain ⟨format, internalFormat⟩ := fi
      rw [TextureFromFile_eq_uploadImage env path directory false gl data format
        internalFormat hdata hfmt]
      exact noSRGB_uploadImage _ _ _ _ _ (textureFormats_false _ _ _ hfmt) hgen

theorem noSRGB_loadMaterialTexture (env : LoaderEnv) (directory typeName : String)
    (st : LoadState) (str : String) (h : NoSRGB st.gl) :
    NoSRGB (loadMaterialTexture env directory typeName st str).gl := by
  unfold loadMaterialTexture
  cases st.textures_loaded.find? (fun t => t.path == str) with
  | some cached => exact h
  | none => exact noSRGB_TextureFromFile env str directory st.gl h

theorem noSRGB_foldl (env : LoaderEnv) (directory typeName : String) (paths : List String)
    (st : LoadState) (h : NoSRGB st.gl) :
    NoSRGB (paths.foldl (loadMaterialTexture env directory typeName) st).gl := by
  induction paths generalizing st with
  | nil => exact h
  | cons str rest ih => exact ih _ (noSRGB_loadMaterialTexture env directory typeName st str h)

theorem noSRGB_loadMaterialTextures (env : LoaderEnv) (model : Model) (gl : GLTextures)
    (mat : aiMaterial) (type : aiTextureType) (typeName : String) (h : NoSRGB gl) :
    NoSRGB (model.loadMaterialTextures env gl mat type typeName).gl :=
  noSRGB_foldl env model.directory typeName (mat.textures type) _ h

theorem noSRGB_noTextures : NoSRGB noTextures := fun _ h => by cases h

/-- **C25** `loadMaterialTextures` never reads `gammaCorrection`: with the flag set to any
value the call returns the same textures and leaves the same GL state; each path that is not
cached is loaded by `TextureFromFile(path, directory)` with `gamma = false`; so a GL context
without sRGB textures has none after the call, and none after the construction of a whole
model, whatever `gamma` the constructor was given. -/
theorem loadMaterialTextures_gamma_false (env : LoaderEnv) (model : Model) (gl : GLTextures)
    (mat : aiMaterial) (type : aiTextureType) (typeName : String) (gamma : Bool)
    (hgl : NoSRGB gl) :
    (({ model with gammaCorrection := gamma } : Model).loadMaterialTextures env gl mat type
        typeName).textures = (model.loadMaterialTextures env gl mat type typeName).textures
    ∧ (({ model with gammaCorrection := gamma } : Model).loadMaterialTextures env gl mat type
        typeName).gl = (model.loadMaterialTextures env gl mat type typeName).gl
    ∧ (∀ directory st str, st.textures_loaded.find? (fun t => t.path == str) = none →
        (loadMaterialTexture env directory typeName st str).gl
          = (TextureFromFile env str directory false st.gl).gl
        ∧ (loadMaterialTexture env directory typeName st str).textures
          = st.textures ++ [⟨(TextureFromFile env str directory false st.gl).id, typeName, str⟩])
    ∧ NoSRGB (model.loadMaterialTextures env gl mat type typeName).gl
    ∧ (∀ importer path r, Model.create importer env path gamma gl = .ok r → NoSRGB r.2) := by
  refine ⟨rfl, rfl, ?_, noSRGB_loadMaterialTextures env model gl mat type typeName hgl, ?_⟩
  · intro directory st str hfind
    unfold loadMaterialTexture
    rw [hfind]
    exact ⟨rfl, rfl⟩
  · intro importer path r hr
    exact loadModel_invariant importer env (fun _ g => NoSRGB g)
      (fun m g mat type typeName hm => noSRGB_loadMaterialTextures env m g mat type typeName hm)
      (fun _ _ _ hm => hm) (fun _ _ _ hm => hm) path
      { textures_loaded := [], meshes := [], directory := "", gammaCorrection := gamma } gl
      hgl r hr

/-- Witness for C25: a model with `gammaCorrection = true` loads the three-channel image
`tex.png` with the internal format `GL_RGB`, where `TextureFromFile` with `gamma = true` would
have used `GL_SRGB`. -/
theorem loadMaterialTextures_gamma_false_witness :
    NoSRGB noTextures
    ∧ cachedDiffuseModel.gammaCorrection = true
    ∧ ((cachedDiffuseModel.loadMaterialTextures oneFileEnv noTextures oneDiffuseMaterial
        .DIFFUSE "texture_diffuse").gl.object 1).map TexObject.internalFormat = some .RGB
    ∧ ((TextureFromFile oneFileEnv "tex.png" "models" true noTextures).gl.object 1).map
        TexObject.internalFormat = some .SRGB
    ∧ NoSRGB (cachedDiffuseModel.loadMaterialTextures oneFileEnv noTextures oneDiffuseMaterial
        .DIFFUSE "texture_diffuse").gl :=
  ⟨noSRGB_noTextures, rfl, by decide, by decide,
   (loadMaterialTextures_gamma_false oneFileEnv cachedDiffuseModel noTextures
    oneDiffuseMaterial .DIFFUSE "texture_diffuse" false noSRGB_noTextures).2.2.2.1⟩

theorem directoryOf_of_separator (path : String) (pre base : List Char)
    (h : path.data = pre ++ '/' :: base) (hbase : '/' ∉ base) : directoryOf path = ⟨pre⟩ := by
  unfold directoryOf
  rw [h, find_last_of_append pre base ['/'] '/' (List.mem_singleton_self _)
    (fun c hc hc2 => hbase (by rw [List.mem_singleton] at hc2; exact hc2 ▸ hc))]
  simp

theorem directoryOf_of_no_separator (path : String) (h : '/' ∉ path.data) :
    directoryOf path = path := by
  unfold directoryOf
  rw [find_last_of_eq_none path.data ['/']
    (fun c hc hc2 => h (by rw [List.mem_singleton] at hc2; exact hc2 ▸ hc))]

/-- **C28** After a successful import (a complete scene with a root node), `loadModel` has set
`directory` to the part of `path` before its last '/' (`models/X.obj` gives `models`), and the
node processing keeps it. When `path` has no '/', `directory` is the whole of `path`, and the
first file name `TextureFromFile` tries for the relative texture `tex.png` is
`path + "/tex.png"`. -/
theorem loadModel_directory (importer : Importer) (env : LoaderEnv) (path : String)
    (model : Model) (gl : GLTextures) (scene : aiScene) (root : aiNode)
    (hread : importer.ReadFile path = .ok (some scene)) (hcomplete : scene.incomplete = false)
    (hroot : scene.mRootNode = some root) :
    (∃ r, Model.loadModel importer env path model gl = .ok r ∧ r.1.directory = directoryOf path)
    ∧ (∀ pre base, path.data = pre ++ '/' :: base → '/' ∉ base → directoryOf path = ⟨pre⟩)
    ∧ ('/' ∉ path.data → directoryOf path = path
        ∧ resolveFilename "tex.png" (directoryOf path) = path ++ "/tex.png")
    ∧ directoryOf "models/X.obj" = "models" := by
  refine ⟨?_, fun pre base h hb => directoryOf_of_separator path pre base h hb, ?_, by decide⟩
  · have hres : Model.loadModel importer env path model gl
        = .ok (Model.processNode env root
            ({ model with directory := directoryOf path }, gl)) := by
      unfold Model.loadModel
      simp [hread, hcomplete, hroot]
    refine ⟨_, hres, ?_⟩
    exact processNode_invariant env (fun m _ => m.directory = directoryOf path)
      (fun _ _ _ _ _ hm => hm) (fun _ _ _ hm => hm) root _ rfl
  · intro h
    rw [directoryOf_of_no_separator path h]
    refine ⟨rfl, ?_⟩
    have habs : (decide (':' ∈ "tex.png".data) || decide ("tex.png".data.head? = some '/'))
        = false := by decide
    unfold resolveFilename
    simp only [habs, Bool.false_eq_true, if_false]
    rw [String.append_assoc]
    rfl

/-- Witness for C28: `models/X.obj` gives the directory `models`, and the path `X.obj`
without a '/' gives the directory `X.obj`, so that `tex.png` is looked up as
`X.obj/tex.png`. -/
theorem loadModel_directory_witness :
    (∃ r, Model.loadModel oneMeshImporter noFilesEnv "models/X.obj"
        ⟨[], [], "", false⟩ noTextures = .ok r ∧ r.1.directory = "models")
    ∧ (∃ r, Model.loadModel oneMeshImporter noFilesEnv "X.obj"
        ⟨[], [], "", false⟩ noTextures = .ok r ∧ r.1.directory = "X.obj")
    ∧ (TextureFromFile noFilesEnv "tex.png" (directoryOf "X.obj") false noTextures).attempts.head?
        = some "X.obj/tex.png" :=
  ⟨(loadModel_directory oneMeshImporter noFilesEnv "models/X.obj" ⟨[], [], "", false⟩
      noTextures _ _ rfl rfl rfl).1,
   (loadModel_directory oneMeshImporter noFilesEnv "X.obj" ⟨[], [], "", false⟩
      noTextures _ _ rfl rfl rfl).1,
   by decide⟩

/-! ## Camera basis -/

theorem realGlm_normalize_unit (v : Vec3 ℝ) (h : v.x * v.x + v.y * v.y + v.z * v.z = 1) :
    realGlm.normalize v = v := by
  show (⟨v.x / Real.sqrt _, v.y / Real.sqrt _, v.z / Real.sqrt _⟩ : Vec3 ℝ) = v
  rw [h, Real.sqrt_one]
  simp

theorem direction_sq (y p : ℝ) :
    Real.cos y * Real.cos p * (Real.cos y * Real.cos p) + Real.sin p * Real.sin p
      + Real.sin y * Real.cos p * (Real.sin y * Real.cos p) = 1 := by
  have h1 := Real.sin_sq_add_cos_sq y
  have h2 := Real.sin_sq_add_cos_sq p
  nlinarith [h1, h2]

theorem updateFront_front (d : Drone ℝ) :
    (d.updateFront realGlm).front
      = ⟨Real.cos (d.yaw * Real.pi / 180) * Real.cos (d.pitch * Real.pi / 180),
         Real.sin (d.pitch * Real.pi / 180),
         Real.sin (d.yaw * Real.pi / 180) * Real.cos (d.pitch * Real.pi / 180)⟩ :=
  realGlm_normalize_unit _ (direction_sq _ _)

theorem cos_pitch_pos (pitch : ℝ) (h1 : -89 ≤ pitch) (h2 : pitch ≤ 89) :
    0 < Real.cos (pitch * Real.pi / 180) := by
  have hpi := Real.pi_pos
  apply Real.cos_pos_of_mem_Ioo
  constructor <;> nlinarith

theorem cross_up_length (y p : ℝ) (hp : 0 ≤ Real.cos p) :
    realGlm.length ((⟨Real.cos y * Real.cos p, Real.sin p, Real.sin y * Real.cos p⟩ : Vec3 ℝ).cross
      ⟨0, 1, 0⟩) = Real.cos p := by
  apply realGlm_length_eq _ _ hp
  simp only [Vec3.cross]
  have h1 := Real.sin_sq_add_cos_sq y
  nlinarith [h1]

theorem aligned_updateFront (d : Drone ℝ) (hup : d.up = ⟨0, 1, 0⟩) (hp : d.PitchInRange) :
    (d.updateFront realGlm).Aligned :=
  ⟨hup, hp, updateFront_front d⟩

theorem aligned_step (c : Bool) (f : Drone ℝ → Drone ℝ)
    (hf : ∀ x : Drone ℝ, x.Aligned → (f x).Aligned) (x : Drone ℝ) (h : x.Aligned) :
    (if c = true then f x else x).Aligned := by
  cases c
  · exact h
  · exact hf x h

theorem aligned_rotateYaw (d : Drone ℝ) (offset : ℝ) (h : d.Aligned) :
    (d.rotateYaw realGlm offset).Aligned :=
  aligned_updateFront { d with yaw := d.yaw + offset } h.1 h.2.1

theorem aligned_rotatePitch (d : Drone ℝ) (offset : ℝ) (h : d.Aligned) :
    (d.rotatePitch realGlm offset).Aligned :=
  ⟨h.1, Drone.pitchInRange_rotatePitch realGlm d offset, updateFront_front _⟩

theorem aligned_reset (d : Drone ℝ) : (d.reset realGlm).Aligned :=
  ⟨rfl, Drone.pitchInRange_reset realGlm d, updateFront_front _⟩

theorem aligned_position (d : Drone ℝ) (pos : Vec3 ℝ) (h : d.Aligned) :
    Drone.Aligned { d with position := pos } := h

theorem aligned_processInput (keys : KeyboardState) (deltaTime : ℝ) (d : Drone ℝ)
    (h : d.Aligned) : (processInput realGlm keys deltaTime d).Aligned := by
  unfold processInput
  exact aligned_step _ (fun x => x.rotatePitch realGlm _)
    (fun x hx => aligned_rotatePitch x _ hx) _
    (aligned_step _ (fun x => x.rotatePitch realGlm _)
      (fun x hx => aligned_rotatePitch x _ hx) _
      (aligned_step _ (fun x => x.rotateYaw realGlm _)
        (fun x hx => aligned_rotateYaw x _ hx) _
        (aligned_step _ (fun x => x.rotateYaw realGlm _)
          (fun x hx => aligned_rotateYaw x _ hx) _ (aligned_position d _ h))))

theorem aligned_apply (d : Drone ℝ) (call : DroneCall ℝ) (h : d.Aligned) :
    (call.apply realGlm d).Aligned := by
  cases call with
  | rotatePitch offset => exact aligned_rotatePitch d offset h
  | rotateYaw offset => exact aligned_rotateYaw d offset h
  | reset => exact aligned_reset d
  | processInput keys deltaTime => exact aligned_processInput keys deltaTime d h

theorem aligned_run (calls : List (DroneCall ℝ)) (d : Drone ℝ) (h : d.Aligned) :
    (d.run realGlm calls).Aligned := by
  induction calls generalizing d with
  | nil => exact h
  | cons call rest ih => exact ih _ (aligned_apply d call h)

theorem aligned_initial : (Drone.initial : Drone ℝ).Aligned := by
  refine ⟨rfl, by simp [Drone.PitchInRange, Drone.initial], ?_⟩
  have h : (-(90 * Real.pi) / 180 : ℝ) = -(Real.pi / 2) := by ring
  simp [Drone.initial, h]

theorem aligned_basis (d : Drone ℝ) (h : d.Aligned) :
    realGlm.length d.front = 1
    ∧ realGlm.length (d.front.cross d.up) = Real.cos (realGlm.radians d.pitch)
    ∧ 0 < Real.cos (realGlm.radians d.pitch) := by
  obtain ⟨hup, hp, hf⟩ := h
  have hc := cos_pitch_pos d.pitch hp.1 hp.2
  refine ⟨?_, ?_, hc⟩
  · rw [hf]
    exact realGlm_length_eq _ 1 zero_le_one (by rw [direction_sq]; ring)
  · rw [hf, hup]
    exact cross_up_length _ _ (le_of_lt hc)

/-- **C26** Over the reals, for every yaw and every pitch in [-89, 89] and the up vector
`(0, 1, 0)`, the front vector that `updateFront` computes has length 1, and
`cross(front, up)` has length `cos(radians(pitch)) > 0`. The drone that `processInput` sees
(the initial drone after any sequence of calls) has such a front vector, so the vector
normalized by the strafe movement never has length 0. -/
theorem updateFront_unit_not_parallel (d : Drone ℝ) (hp : d.PitchInRange)
    (hup : d.up = ⟨0, 1, 0⟩) :
    realGlm.length (d.updateFront realGlm).front = 1
    ∧ realGlm.length ((d.updateFront realGlm).front.cross d.up)
        = Real.cos (realGlm.radians d.pitch)
    ∧ 0 < Real.cos (realGlm.radians d.pitch)
    ∧ ∀ calls : List (DroneCall ℝ),
        realGlm.length (((Drone.initial : Drone ℝ).run realGlm calls).front.cross
          ((Drone.initial : Drone ℝ).run realGlm calls).up) ≠ 0 := by
  obtain ⟨h1, h2, h3⟩ := aligned_basis _ (aligned_updateFront d hup hp)
  refine ⟨h1, h2, h3, fun calls => ?_⟩
  obtain ⟨_, k2, k3⟩ := aligned_basis _ (aligned_run calls _ aligned_initial)
  rw [k2]
  exact ne_of_gt k3

/-- Witness for C26: the drone at start, yaw -90 and pitch 0. -/
theorem updateFront_unit_not_parallel_witness :
    realGlm.length ((Drone.initial : Drone ℝ).updateFront realGlm).front = 1 :=
  (updateFront_unit_not_parallel Drone.initial aligned_initial.2.1 rfl).1

/-! ## Shadow-pass view -/

theorem sun_direction_components (t : ℝ) :
    currentAnimatedSunDirection realGlm t
      = ⟨Real.sin (t * (2 / 100)) * (8 / 10)
            / Real.sqrt (Real.sin (t * (2 / 100)) ^ 2 * (64 / 100) + 74 / 100),
         -(7 / 10) / Real.sqrt (Real.sin (t * (2 / 100)) ^ 2 * (64 / 100) + 74 / 100),
         -(5 / 10) / Real.sqrt (Real.sin (t * (2 / 100)) ^ 2 * (64 / 100) + 74 / 100)⟩ := by
  show (⟨(sunDirectionRaw realGlm t).x / Real.sqrt _, (sunDirectionRaw realGlm t).y / Real.sqrt _,
    (sunDirectionRaw realGlm t).z / Real.sqrt _⟩ : Vec3 ℝ) = _
  rw [sunDirectionRaw_sq]
  rfl

theorem view_direction (t : ℝ) :
    (sceneCenter - lightPos realGlm t : Vec3 ℝ)
      = (currentAnimatedSunDirection realGlm t).scale 60 := by
  simp only [lightPos, sceneCenter, Vec3.sub_eq, Vec3.scale]
  congr 1 <;> ring

/-- **C27** Over the reals, for every frame time `t`: the light position is at distance
exactly 60 from the scene centre, so the two differ; the viewing direction
`sceneCenter - lightPos` has a negative z component, so its cross product with the up vector
`(0, 1, 0)` is not zero; and the normalized viewing direction crossed with the up vector has
positive length. The `lookAt` of the shadow pass is never degenerate. -/
theorem shadow_lookAt_not_degenerate (t : ℝ) :
    realGlm.length (sceneCenter - lightPos realGlm t) = 60
    ∧ lightPos realGlm t ≠ sceneCenter
    ∧ (sceneCenter - lightPos realGlm t : Vec3 ℝ).z < 0
    ∧ (sceneCenter - lightPos realGlm t : Vec3 ℝ).cross ⟨0, 1, 0⟩ ≠ ⟨0, 0, 0⟩
    ∧ 0 < realGlm.length ((realGlm.normalize (sceneCenter - lightPos realGlm t)).cross
        ⟨0, 1, 0⟩) := by
  have hpos := sunDirectionRaw_sq_pos t
  have hn : 0 < Real.sqrt (Real.sin (t * (2 / 100)) ^ 2 * (64 / 100) + 74 / 100) :=
    Real.sqrt_pos.mpr hpos
  have hunit : realGlm.length (currentAnimatedSunDirection realGlm t) = 1 :=
    realGlm_length_normalize _ (by rw [sunDirectionRaw_sq]; exact hpos)
  have hsq : (currentAnimatedSunDirection realGlm t).x * (currentAnimatedSunDirection realGlm t).x
      + (currentAnimatedSunDirection realGlm t).y * (currentAnimatedSunDirection realGlm t).y
      + (currentAnimatedSunDirection realGlm t).z * (currentAnimatedSunDirection realGlm t).z
      = 1 := by
    have h0 : 0 ≤ (currentAnimatedSunDirection realGlm t).x
        * (currentAnimatedSunDirection realGlm t).x
      + (currentAnimatedSunDirection realGlm t).y * (currentAnimatedSunDirection realGlm t).y
      + (currentAnimatedSunDirection realGlm t).z * (currentAnimatedSunDirection realGlm t).z :=
      add_nonneg (add_nonneg (mul_self_nonneg _) (mul_self_nonneg _)) (mul_self_nonneg _)
    have := Real.mul_self_sqrt h0
    have h1 : Real.sqrt ((currentAnimatedSunDirection realGlm t).x
        * (currentAnimatedSunDirection realGlm t).x
      + (currentAnimatedSunDirection realGlm t).y * (currentAnimatedSunDirection realGlm t).y
      + (currentAnimatedSunDirection realGlm t).z * (currentAnimatedSunDirection realGlm t).z)
        = 1 := hunit
    rw [h1] at this
    linarith
  have hz : (sceneCenter - lightPos realGlm t : Vec3 ℝ).z < 0 := by
    rw [view_direction, sun_direction_components]
    show -(5 / 10) / Real.sqrt _ * 60 < 0
    have : -(5 / 10) / Real.sqrt (Real.sin (t * (2 / 100)) ^ 2 * (64 / 100) + 74 / 100) < 0 :=
      div_neg_of_neg_of_pos (by norm_num) hn
    linarith
  have hlen : realGlm.length (sceneCenter - lightPos realGlm t) = 60 := by
    rw [view_direction]
    apply realGlm_length_eq _ 60 (by norm_num)
    simp only [Vec3.scale]
    linear_combination (3600 : ℝ) * hsq
  refine ⟨hlen, ?_, hz, ?_, ?_⟩
  · intro h
    rw [h] at hlen
    have h0 : realGlm.length (sceneCenter - sceneCenter : Vec3 ℝ) = 0 :=
      realGlm_length_eq _ 0 le_rfl (by simp [Vec3.sub_eq])
    rw [h0] at hlen
    norm_num at hlen
  · intro h
    have hx := congrArg Vec3.x h
    simp only [Vec3.cross] at hx
    linarith
  · have hnorm : realGlm.normalize (sceneCenter - lightPos realGlm t)
        = ⟨(sceneCenter - lightPos realGlm t : Vec3 ℝ).x / 60,
           (sceneCenter - lightPos realGlm t : Vec3 ℝ).y / 60,
           (sceneCenter - lightPos realGlm t : Vec3 ℝ).z / 60⟩ := by
      have h60 : Real.sqrt ((sceneCenter - lightPos realGlm t : Vec3 ℝ).x
          * (sceneCenter - lightPos realGlm t : Vec3 ℝ).x
        + (sceneCenter - lightPos realGlm t : Vec3 ℝ).y
          * (sceneCenter - lightPos realGlm t : Vec3 ℝ).y
        + (sceneCenter - lightPos realGlm t : Vec3 ℝ).z
          * (sceneCenter - lightPos realGlm t : Vec3 ℝ).z) = 60 := hlen
      show (⟨_ / Real.sqrt _, _ / Real.sqrt _, _ / Real.sqrt _⟩ : Vec3 ℝ) = _
      rw [h60]
    rw [hnorm]
    show 0 < Real.sqrt _
    apply Real.sqrt_pos.mpr
    simp only [Vec3.cross]
    nlinarith [hz, sq_nonneg ((sceneCenter - lightPos realGlm t : Vec3 ℝ).x / 60),
      mul_pos_of_neg_of_neg hz hz]

/-! ## Shininess of the scene entries -/

theorem assign_entryShape {F : Type} (models : Registry F) (name : String)
    (info : ModelInfo F) :
    (models.assign name info).map entryShape
      = Registry.assign (models.map entryShape) name (entryShape (name, info)).2 := by
  induction models with
  | nil => rfl
  | cons kv rest ih =>
    obtain ⟨k, v⟩ := kv
    simp only [Registry.assign, List.map_cons]
    simp only [entryShape] at ih ⊢
    split_ifs
    · rfl
    · rfl
    · simp only [List.map_cons, ih]
      rfl

section SceneShape
variable {F : Type} [LinearOrderedField F]

theorem loadNamedModels_entryShape (m : String → Model) (names : List String)
    (models : Registry F) :
    ((loadNamedModels (fun p => some (m p)) names models).1.map entryShape,
      (loadNamedModels (fun p => some (m p)) names models).2)
      = loadNamedModels loadsEverything names (models.map entryShape) := by
  induction names generalizing models with
  | nil => rfl
  | cons name rest ih =>
    simp only [loadNamedModels, loadsEverything]
    rw [ih, assign_entryShape]
    rfl

theorem loadScene_entryShape (m : String → Model) :
    (loadScene (fun p => some (m p)) : Registry F).map entryShape
      = (loadScene loadsEverything : Registry ℚ) := by
  have h := loadNamedModels_entryShape m modelNames ([] : Registry F)
  have h1 := congrArg Prod.fst h
  have h2 := congrArg Prod.snd h
  simp only [List.map_nil] at h1 h2
  unfold loadScene
  simp only [h2, loadsEverything]
  split_ifs
  · exact h1
  · rw [assign_entryShape, assign_entryShape, assign_entryShape, h1]
    rfl

end SceneShape

theorem fullScene_sixteen :
    ((loadScene loadsEverything : Registry ℚ).filter
        (fun e => isOpaqueEntry e && getsLowShininess e.1)).map Prod.fst
      = ["BarTables", "BrownChairs", "CharcoalChairs", "CoffeeTables", "Dividers",
         "GreyChairs", "MiniCoffeeTable", "Railings"] := by decide

theorem fullScene_wallDecorLeft :
    ∃ e ∈ (loadScene loadsEverything : Registry ℚ),
      e.1 = "WallDecorLeft" ∧ isOpaqueEntry e = true := by decide

theorem fullScene_wallDecorRight :
    ∃ e ∈ (loadScene loadsEverything : Registry ℚ),
      e.1 = "WallDecorRight" ∧ isOpaqueEntry e = true := by decide

theorem fullScene_no_wallDecor :
    "WallDecor" ∉ (loadScene loadsEverything : Registry ℚ).map Prod.fst := by decide

section SceneShininess
variable {F : Type} [LinearOrderedField F]

theorem opaqueShininess_eq (name : String) :
    (opaqueShininess name : F) = if getsLowShininess name then 16 else 32 := rfl

theorem opaqueShininess_eq_sixteen (name : String) :
    decide ((opaqueShininess name : F) = 16) = getsLowShininess name := by
  rw [opaqueShininess_eq]
  cases getsLowShininess name
  · have h32 : ¬ ((32 : F) = 16) := by norm_num
    simp [h32]
  · simp

theorem loadScene_total (newModel : String → Option Model)
    (hload : ∀ path, newModel path ≠ none) :
    ∃ m : String → Model, newModel = fun p => some (m p) := by
  refine ⟨fun p => (newModel p).get (Option.ne_none_iff_isSome.mp (hload p)), ?_⟩
  funext p
  simp

theorem sixteen_names_entryShape (l : Registry F) :
    ((l.filter isOpaqueEntry).filter
        (fun e => decide ((opaqueShininess e.1 : F) = 16))).map Prod.fst
      = ((l.map entryShape).filter
          (fun e => isOpaqueEntry e && getsLowShininess e.1)).map Prod.fst := by
  rw [List.filter_map, List.map_map, List.filter_filter]
  congr 1
  apply List.filter_congr
  intro e _
  rw [opaqueShininess_eq_sixteen, Bool.and_comm]
  simp [isOpaqueEntry, entryShape]

omit [LinearOrderedField F] in
theorem opaque_entry_of_entryShape (l : Registry F) (name : String)
    (h : ∃ e ∈ l.map entryShape, e.1 = name ∧ isOpaqueEntry e = true) :
    ∃ e ∈ l, e.1 = name ∧ isOpaqueEntry e = true := by
  obtain ⟨e, he, hn, ho⟩ := h
  obtain ⟨e0, he0, rfl⟩ := List.mem_map.mp he
  refine ⟨e0, he0, hn, ?_⟩
  simpa [isOpaqueEntry, entryShape] using ho

omit [LinearOrderedField F] in
theorem names_entryShape (l : Registry F) :
    (l.map entryShape).map Prod.fst = l.map Prod.fst := by
  rw [List.map_map]
  rfl

/-- **C30** When every `new Model(path)` succeeds, the opaque entries of the registry that
`main` builds for which the opaque loop uploads the shininess 16 are exactly (in key order)
BarTables, BrownChairs, CharcoalChairs, CoffeeTables, Dividers, GreyChairs, MiniCoffeeTable
and Railings. WallDecorLeft and WallDecorRight are opaque entries and get 32; the name
WallDecor, which would get 16, is not in the registry. -/
theorem scene_shininess_sixteen (newModel : String → Option Model)
    (hload : ∀ path, newModel path ≠ none) :
    (((loadScene newModel : Registry F).filter isOpaqueEntry).filter
        (fun e => decide ((opaqueShininess e.1 : F) = 16))).map Prod.fst
      = ["BarTables", "BrownChairs", "CharcoalChairs", "CoffeeTables", "Dividers",
         "GreyChairs", "MiniCoffeeTable", "Railings"]
    ∧ (∃ e ∈ (loadScene newModel : Registry F), e.1 = "WallDecorLeft" ∧ isOpaqueEntry e = true)
    ∧ (∃ e ∈ (loadScene newModel : Registry F), e.1 = "WallDecorRight" ∧ isOpaqueEntry e = true)
    ∧ (opaqueShininess "WallDecorLeft" : F) = 32
    ∧ (opaqueShininess "WallDecorRight" : F) = 32
    ∧ (opaqueShininess "WallDecor" : F) = 16
    ∧ "WallDecor" ∉ (loadScene newModel : Registry F).map Prod.fst := by
  obtain ⟨m, rfl⟩ := loadScene_total newModel hload
  have hshape := @loadScene_entryShape F _ m
  have hl : getsLowShininess "WallDecorLeft" = false := by decide
  have hr : getsLowShininess "WallDecorRight" = false := by decide
  have hw : getsLowShininess "WallDecor" = true := by decide
  refine ⟨?_, ?_, ?_, ?_, ?_, ?_, ?_⟩
  · rw [sixteen_names_entryShape, hshape]
    exact fullScene_sixteen
  · apply opaque_entry_of_entryShape
    rw [hshape]
    exact fullScene_wallDecorLeft
  · apply opaque_entry_of_entryShape
    rw [hshape]
    exact fullScene_wallDecorRight
  · rw [opaqueShininess_eq, hl]
    rfl
  · rw [opaqueShininess_eq, hr]
    rfl
  · rw [opaqueShininess_eq, hw]
    rfl
  · rw [← names_entryShape, hshape]
    exact fullScene_no_wallDecor

end SceneShininess

/-- Witness for C30: the loader for which every model loads. -/
theorem scene_shininess_sixteen_witness :
    (opaqueShininess "WallDecorLeft" : ℚ) = 32
    ∧ "WallDecor" ∉ (loadScene loadsEverything : Registry ℚ).map Prod.fst :=
  ⟨(scene_shininess_sixteen loadsEverything (fun _ h => Option.noConfusion h)).2.2.2.1,
   by decide⟩

/-! ## One draw per entry in the forward pass -/

section DrawOnce
variable {F : Type} [LinearOrderedField F]

omit [LinearOrderedField F] in
theorem perm_three_passes (l : Registry F) :
    (l.filter isOpaqueEntry ++ (l.filter (matchesPass false) ++ l.filter (matchesPass true))).Perm
      (l.filter (fun e => e.2.model.isSome)) := by
  induction l with
  | nil => exact List.Perm.refl _
  | cons e rest ih =>
    have hmid : ∀ (A B C X : Registry F), (A ++ (B ++ C)).Perm X →
        (A ++ (e :: B ++ C)).Perm (e :: X) := fun A B C X h =>
      List.Perm.trans List.perm_middle (List.Perm.cons _ h)
    have hlast : ∀ (A B C X : Registry F), (A ++ (B ++ C)).Perm X →
        (A ++ (B ++ e :: C)).Perm (e :: X) := fun A B C X h => by
      rw [← List.append_assoc]
      exact List.Perm.trans List.perm_middle
        (List.Perm.cons _ (by rw [List.append_assoc]; exact h))
    cases ht : e.2.isTransparent <;> cases hg : e.2.isGlass <;> cases hm : e.2.model
    all_goals
      simp only [List.filter_cons, isOpaqueEntry, matchesPass, ht, hg, hm, Option.isSome_none,
        Option.isSome_some, Bool.not_false, Bool.not_true, Bool.and_true, Bool.and_false,
        Bool.false_and, Bool.true_and, Bool.false_eq_true, if_false, if_true,
        List.cons_append, beq_self_eq_true, show (false == true) = false from rfl,
        show (true == false) = false from rfl] at ih ⊢
    all_goals
      first
        | exact ih
        | exact List.Perm.cons _ ih
        | exact hmid _ _ _ _ ih
        | exact hlast _ _ _ _ ih

theorem drawnObjects_forwardDraws (glm : Glm F)
    (sort : List (TransparentObject F) → List (TransparentObject F))
    (shader : Shader) (models : Registry F) (drone : Drone F) :
    drawnObjects (forwardDraws glm sort shader models drone)
      = drawnObjects (opaquePass shader models)
        ++ (drawnObjects (renderTransparentObjects glm sort shader models drone.position
              (shader.hasUniform (.lit "isGlass")) false)
          ++ drawnObjects (renderTransparentObjects glm sort shader models drone.position
              (shader.hasUniform (.lit "isGlass")) true)) := by
  unfold forwardDraws
  simp [drawnObjects_append, drawnObjects]

/-- **C22** In the forward pass of a frame, for every registry and camera position, the
entries drawn are a rearrangement of the entries with a non-null model, so each is drawn
exactly once: the opaque loop draws those with `isTransparent = false`, the non-glass
transparent call those that are transparent and not glass, the glass call those that are
transparent and glass. An entry with `isGlass = true` and `isTransparent = false` is drawn
by the opaque loop and by the depth pass, and by neither transparent call. -/
theorem forward_pass_draws_each_once (glm : Glm F)
    (sort : List (TransparentObject F) → List (TransparentObject F))
    (hsort : StdSortContract TransparentObject.lt sort)
    (shader : Shader) (depthProgram : Nat) (models : Registry F) (drone : Drone F) :
    (drawnObjects (forwardDraws glm sort shader models drone)).Perm
        (models.filter (fun e => e.2.model.isSome))
    ∧ drawnObjects (forwardDraws glm sort shader models drone)
        = drawnObjects (opaquePass shader models)
          ++ (drawnObjects (renderTransparentObjects glm sort shader models drone.position
                (shader.hasUniform (.lit "isGlass")) false)
            ++ drawnObjects (renderTransparentObjects glm sort shader models drone.position
                (shader.hasUniform (.lit "isGlass")) true))
    ∧ (∀ e ∈ models, e.2.model.isSome = true →
        (e ∈ drawnObjects (opaquePass shader models) ↔ e.2.isTransparent = false)
        ∧ (e ∈ drawnObjects (renderTransparentObjects glm sort shader models drone.position
              (shader.hasUniform (.lit "isGlass")) false)
            ↔ e.2.isTransparent = true ∧ e.2.isGlass = false)
        ∧ (e ∈ drawnObjects (renderTransparentObjects glm sort shader models drone.position
              (shader.hasUniform (.lit "isGlass")) true)
            ↔ e.2.isTransparent = true ∧ e.2.isGlass = true))
    ∧ (∀ e ∈ models, e.2.model.isSome = true → e.2.isGlass = true →
        e.2.isTransparent = false →
        e ∈ drawnObjects (opaquePass shader models)
        ∧ e ∈ drawnObjects (depthPass depthProgram models)
        ∧ e ∉ drawnObjects (renderTransparentObjects glm sort shader models drone.position
              (shader.hasUniform (.lit "isGlass")) true)
        ∧ e ∉ drawnObjects (renderTransparentObjects glm sort shader models drone.position
              (shader.hasUniform (.lit "isGlass")) false)) := by
  have hT : ∀ glassOnly : Bool,
      (drawnObjects (renderTransparentObjects glm sort shader models drone.position
        (shader.hasUniform (.lit "isGlass")) glassOnly)).Perm
        (models.filter (matchesPass glassOnly)) := fun glassOnly =>
    drawnObjects_perm_filter glm sort hsort shader models drone.position _ glassOnly
  have hO : drawnObjects (opaquePass shader models) = models.filter isOpaqueEntry :=
    drawnObjects_opaquePass shader models
  have hD : drawnObjects (depthPass depthProgram models) = models.filter isOpaqueEntry :=
    drawnObjects_depthPass depthProgram models
  have hiff : ∀ e ∈ models, e.2.model.isSome = true →
      (e ∈ drawnObjects (opaquePass shader models) ↔ e.2.isTransparent = false)
      ∧ (e ∈ drawnObjects (renderTransparentObjects glm sort shader models drone.position
            (shader.hasUniform (.lit "isGlass")) false)
          ↔ e.2.isTransparent = true ∧ e.2.isGlass = false)
      ∧ (e ∈ drawnObjects (renderTransparentObjects glm sort shader models drone.position
            (shader.hasUniform (.lit "isGlass")) true)
          ↔ e.2.isTransparent = true ∧ e.2.isGlass = true) := by
    intro e he hm
    refine ⟨?_, ?_, ?_⟩
    · rw [hO, List.mem_filter]
      simp [isOpaqueEntry, he, hm]
    · rw [(hT false).mem_iff, List.mem_filter]
      simp [matchesPass, he, hm]
    · rw [(hT true).mem_iff, List.mem_filter]
      simp [matchesPass, he, hm]
  refine ⟨?_, drawnObjects_forwardDraws glm sort shader models drone, hiff, ?_⟩
  · rw [drawnObjects_forwardDraws, hO]
    exact (List.Perm.append_left _ (List.Perm.append (hT false) (hT true))).trans
      (perm_three_passes models)
  · intro e he hm hg ht
    obtain ⟨h1, h2, h3⟩ := hiff e he hm
    refine ⟨h1.mpr ht, ?_, ?_, ?_⟩
    · rw [hD, ← hO]
      exact h1.mpr ht
    · intro h
      rw [(h3.mp h).1] at ht
      cases ht
    · intro h
      rw [(h2.mp h).1] at ht
      cases ht

end DrawOnce

/-- Witness for C22: in a scene with a `Vase` flagged as glass but not as transparent, the
vase is drawn by the opaque loop and by no transparent call. -/
theorem forward_pass_draws_each_once_witness :
    StdSortContract TransparentObject.lt (insertionStdSort : List (TransparentObject ℚ) → _)
    ∧ drawnObjects (forwardDraws (⟨fun _ => 0, id, id, id, id⟩ : Glm ℚ) insertionStdSort
        fullShader misflaggedScene Drone.initial)
      = [("Kiosk", ModelInfo.ofModel (some emptyModel)),
         ("Vase", ⟨some emptyModel, Vec3.splat 0, Vec3.splat 0, Vec3.splat 1, false, true⟩),
         ("Plants", transparentAt ⟨0, 0, 0⟩ false),
         ("Windows", transparentAt ⟨0, 0, 0⟩ true)]
    ∧ (drawnObjects (forwardDraws (⟨fun _ => 0, id, id, id, id⟩ : Glm ℚ) insertionStdSort
        fullShader misflaggedScene Drone.initial)).Perm
        (misflaggedScene.filter (fun e => e.2.model.isSome)) :=
  ⟨stdSortContract_insertionStdSort, by decide,
   (forward_pass_draws_each_once (⟨fun _ => 0, id, id, id, id⟩ : Glm ℚ) insertionStdSort
      stdSortContract_insertionStdSort fullShader 2 misflaggedScene Drone.initial).1⟩

/-! ## Light-space matrix of a frame -/

theorem matrixUploads_plain {F M : Type} (n : UniformName) (program : Nat)
    (calls rest : List (FrameCall F M)) (h : ∀ c ∈ calls, c.isPlain = true) :
    matrixUploads n program (calls ++ rest) = matrixUploads n program rest := by
  induction calls with
  | nil => rfl
  | cons c cs ih =>
    have hc := h c (List.mem_cons_self _ _)
    have ih2 := ih (fun d hd => h d (List.mem_cons_of_mem _ hd))
    cases c <;> simp_all [matrixUploads, FrameCall.isPlain]

theorem matrixUploads_map_gl {F M : Type} (n : UniformName) (program : Nat)
    (calls : List (GLCall F)) (rest : List (FrameCall F M)) :
    matrixUploads n program (calls.map FrameCall.gl ++ rest) = matrixUploads n program rest := by
  apply matrixUploads_plain
  intro c hc
  obtain ⟨d, _, rfl⟩ := List.mem_map.mp hc
  rfl

theorem matrixUploads_useProgram {F M : Type} (n : UniformName) (program p : Nat)
    (rest : List (FrameCall F M)) :
    matrixUploads n program (FrameCall.useProgram p :: rest) = matrixUploads n p rest := rfl

theorem matrixUploads_matrix_eq {F M : Type} (n : UniformName) (program : Nat) (m : M)
    (rest : List (FrameCall F M)) :
    matrixUploads n program (FrameCall.uniformMatrix4fv n m :: rest)
      = (program, m) :: matrixUploads n program rest := by
  simp [matrixUploads]

theorem matrixUploads_matrix_ne {F M : Type} (n n2 : UniformName) (program : Nat) (m : M)
    (rest : List (FrameCall F M)) (h : n2 ≠ n) :
    matrixUploads n program (FrameCall.uniformMatrix4fv n2 m :: rest)
      = matrixUploads n program rest := by
  simp [matrixUploads, h]

theorem matrixUploads_plain_cons {F M : Type} (n : UniformName) (program : Nat)
    (c : FrameCall F M) (rest : List (FrameCall F M)) (h : c.isPlain = true) :
    matrixUploads n program (c :: rest) = matrixUploads n program rest :=
  matrixUploads_plain n program [c] rest (fun d hd => by rw [List.mem_singleton.mp hd]; exact h)

theorem isPlain_ite {F M : Type} (b : Bool) (l : List (FrameCall F M))
    (h : ∀ c ∈ l, c.isPlain = true) :
    ∀ c ∈ (if b = true then l else []), c.isPlain = true := by
  cases b
  · intro c hc
    cases hc
  · exact h

section FrameLemmas
variable {F M : Type} [LinearOrderedField F]

/-- **C21** In every frame the depth shader receives the light-space matrix first, the
forward shader (when it has the uniform `lightSpaceMatrix`) receives it second, and both
uploads carry the same value
`ortho(-70, 70, -70, 70, 1, 150) * lookAt(lightPos, sceneCenter, (0, 1, 0))` with
`sceneCenter = (0, 10, -10)` and `lightPos = sceneCenter - lightDirection * 60`; no other
upload to that uniform is made in the frame. -/
theorem lightSpaceMatrix_same_in_both_passes (glm : Glm F) (gm : GlmMatrix F M)
    (sort : List (TransparentObject F) → List (TransparentObject F))
    (g : FrameGlobals) (shader : Shader) (models : Registry F) (drone : Drone F)
    (currentFrame : F) (program : Nat) :
    matrixUploads (.lit "lightSpaceMatrix") program
        (renderFrame glm gm sort g shader models drone currentFrame)
      = (g.depthShaderProgram_global, lightSpaceMatrix glm gm currentFrame)
        :: (if shader.hasUniform (.lit "lightSpaceMatrix") then
              [(shader.program, lightSpaceMatrix glm gm currentFrame)] else [])
    ∧ lightSpaceMatrix glm gm currentFrame
      = gm.mul (gm.ortho (-70) 70 (-70) 70 1 150)
          (gm.lookAt
            ((⟨0, 10, -10⟩ : Vec3 F) - (currentAnimatedSunDirection glm currentFrame).scale 60)
            ⟨0, 10, -10⟩ ⟨0, 1, 0⟩) := by
  refine ⟨?_, rfl⟩
  unfold renderFrame frameSetup
  simp only [List.append_assoc, List.cons_append, List.nil_append]
  have hne1 : UniformName.lit "projection" ≠ UniformName.lit "lightSpaceMatrix" := by decide
  have hne2 : UniformName.lit "view" ≠ UniformName.lit "lightSpaceMatrix" := by decide
  simp only [matrixUploads_useProgram, matrixUploads_matrix_eq, matrixUploads_plain_cons,
    FrameCall.isPlain, matrixUploads_map_gl, matrixUploads_matrix_ne _ _ _ _ _ hne1,
    matrixUploads_matrix_ne _ _ _ _ _ hne2]
  rw [matrixUploads_plain _ _ _ _ (isPlain_ite _ _ (by simp [FrameCall.isPlain]))]
  have hrest : matrixUploads (.lit "lightSpaceMatrix") shader.program
      ((if shader.hasUniform (.lit "shadowMap") = true then
          [FrameCall.activeTexture 3, FrameCall.bindTexture g.depthMapTexture,
           FrameCall.gl (GLCall.uniform1i (.lit "shadowMap") 3)] else []) ++
        (List.map FrameCall.gl (dirLightSetup glm currentFrame) ++
          (List.map FrameCall.gl (pointLightSetup 20) ++
            ((if shader.hasUniform (.lit "material.texture_diffuse1") = true then
                [FrameCall.gl (GLCall.uniform1i (.lit "material.texture_diffuse1") 0)]
              else []) ++
              ((if shader.hasUniform (.lit "material.texture_specular1") = true then
                  [FrameCall.gl (GLCall.uniform1i (.lit "material.texture_specular1") 1)]
                else []) ++
                List.map FrameCall.gl (forwardDraws glm sort shader models drone))))))
      = ([] : List (Nat × M)) := by
    rw [matrixUploads_plain _ _ _ _ (isPlain_ite _ _ (by simp [FrameCall.isPlain])),
      matrixUploads_map_gl, matrixUploads_map_gl,
      matrixUploads_plain _ _ _ _ (isPlain_ite _ _ (by simp [FrameCall.isPlain])),
      matrixUploads_plain _ _ _ _ (isPlain_ite _ _ (by simp [FrameCall.isPlain])),
      ← List.append_nil (List.map FrameCall.gl (forwardDraws glm sort shader models drone)),
      matrixUploads_map_gl]
    rfl
  cases shader.hasUniform (.lit "lightSpaceMatrix")
  · simp only [Bool.false_eq_true, if_false, List.nil_append]
    exact congrArg _ hrest
  · simp only [if_true, List.cons_append, List.nil_append]
    rw [matrixUploads_matrix_eq, hrest]

end FrameLemmas

/-! ## Material uniforms across frames -/

theorem meshUniformNames_append (a b : List MeshGLCall) :
    meshUniformNames (a ++ b) = meshUniformNames a ++ meshUniformNames b := by
  induction a with
  | nil => rfl
  | cons c rest ih => cases c <;> simp [meshUniformNames, ih]

theorem isSamplerName_bindMeshTexture (shader : Shader) (tex : Texture) (i : Nat)
    (number : String) (h : tex.type = "texture_diffuse" ∨ tex.type = "texture_specular") :
    ∀ n ∈ meshUniformNames (bindMeshTexture shader tex i number), IsSamplerName n := by
  intro n hn
  unfold bindMeshTexture at hn
  simp only at hn
  split_ifs at hn with h0 hu
  · cases hn
  · simp only [List.singleton_append, meshUniformNames, List.mem_singleton] at hn
    rcases h with h | h
    · exact ⟨number, Or.inl (by rw [hn, h])⟩
    · exact ⟨number, Or.inr (by rw [hn, h])⟩
  · simp [meshUniformNames] at hn

theorem isSamplerName_drawMeshTextures (shader : Shader) (textures : List Texture)
    (i diffuseNr specularNr : Nat) :
    ∀ n ∈ meshUniformNames (drawMeshTextures shader textures i diffuseNr specularNr).2.2,
      IsSamplerName n := by
  induction textures generalizing i diffuseNr specularNr with
  | nil => intro n hn; cases hn
  | cons tex rest ih =>
    intro n hn
    by_cases hd : tex.type = "texture_diffuse"
    · have e : (drawMeshTextures shader (tex :: rest) i diffuseNr specularNr).2.2
          = MeshGLCall.activeTexture i :: (bindMeshTexture shader tex i (toString diffuseNr)
              ++ (drawMeshTextures shader rest (i + 1) (diffuseNr + 1) specularNr).2.2) := by
        simp [drawMeshTextures, hd]
      rw [e] at hn
      simp only [meshUniformNames, meshUniformNames_append, List.mem_append] at hn
      rcases hn with hn | hn
      · exact isSamplerName_bindMeshTexture shader tex i _ (Or.inl hd) n hn
      · exact ih _ _ _ n hn
    · by_cases hs : tex.type = "texture_specular"
      · have e : (drawMeshTextures shader (tex :: rest) i diffuseNr specularNr).2.2
            = MeshGLCall.activeTexture i :: (bindMeshTexture shader tex i (toString specularNr)
                ++ (drawMeshTextures shader rest (i + 1) diffuseNr (specularNr + 1)).2.2) := by
          simp [drawMeshTextures, hd, hs]
        rw [e] at hn
        simp only [meshUniformNames, meshUniformNames_append, List.mem_append] at hn
        rcases hn with hn | hn
        · exact isSamplerName_bindMeshTexture shader tex i _ (Or.inr hs) n hn
        · exact ih _ _ _ n hn
      · have e : (drawMeshTextures shader (tex :: rest) i diffuseNr specularNr).2.2
            = MeshGLCall.activeTexture i
              :: (drawMeshTextures shader rest (i + 1) diffuseNr specularNr).2.2 := by
          simp [drawMeshTextures, hd, hs]
        rw [e] at hn
        simp only [meshUniformNames] at hn
        exact ih _ _ _ n hn

theorem isSamplerName_Mesh_Draw (shader : Shader) (mesh : Mesh) :
    ∀ n ∈ meshUniformNames (mesh.Draw shader), IsSamplerName n := by
  intro n hn
  unfold Mesh.Draw at hn
  simp only [meshUniformNames_append, List.mem_append] at hn
  rcases hn with (hn | hn) | hn
  · exact isSamplerName_drawMeshTextures shader _ _ _ _ n hn
  · split_ifs at hn
    · simp only [meshUniformNames, List.mem_singleton] at hn
      exact ⟨"1", Or.inl (by rw [hn]; decide)⟩
    · cases hn
    · cases hn
  · simp [meshUniformNames] at hn

theorem isSamplerName_Model_Draw (shader : Shader) (model : Model) :
    ∀ n ∈ meshUniformNames (model.Draw shader), IsSamplerName n := by
  unfold Model.Draw
  induction model.meshes with
  | nil => intro n hn; cases hn
  | cons mesh rest ih =>
    intro n hn
    simp only [List.flatMap_cons, meshUniformNames_append, List.mem_append] at hn
    rcases hn with hn | hn
    · exact isSamplerName_Mesh_Draw shader mesh n hn
    · exact ih n hn

theorem not_isSamplerName_ambient : ¬ IsSamplerName (.lit "material.ambient") := by
  rintro ⟨number, h | h⟩
  · have h2 := congrArg String.data (UniformName.lit.inj h)
    simp at h2
  · have h2 := congrArg String.data (UniformName.lit.inj h)
    simp at h2

theorem not_isSamplerName_specular : ¬ IsSamplerName (.lit "material.specular") := by
  rintro ⟨number, h | h⟩
  · have h2 := congrArg String.data (UniformName.lit.inj h)
    simp at h2
  · have h2 := congrArg String.data (UniformName.lit.inj h)
    simp at h2

theorem uniformNamesWritten_append {F : Type} (shader : Shader) (a b : List (GLCall F)) :
    uniformNamesWritten shader (a ++ b)
      = uniformNamesWritten shader a ++ uniformNamesWritten shader b := by
  induction a with
  | nil => rfl
  | cons c rest ih => cases c <;> simp [uniformNamesWritten, ih]

section OpaqueNames
variable {F : Type} [LinearOrderedField F]

theorem uniformNamesWritten_opaquePass (shader : Shader) (models : Registry F) :
    uniformNamesWritten shader (opaquePass shader models)
      = (models.filter (fun p => !p.2.isTransparent && p.2.model.isSome)).flatMap (fun p =>
          (if shader.hasUniform (.lit "isGlass") then [UniformName.lit "isGlass"] else [])
          ++ (if shader.hasUniform (.lit "material.shininess") then
                [UniformName.lit "material.shininess"] else [])
          ++ [UniformName.lit "model"]
          ++ (match p.2.model with
              | some model => meshUniformNames (model.Draw shader)
              | none => [])) := by
  induction models with
  | nil => rfl
  | cons p rest ih =>
    unfold opaquePass
    cases ht : p.2.isTransparent <;> cases hm : p.2.model <;>
      cases hg : shader.hasUniform (.lit "isGlass") <;>
      cases hs : shader.hasUniform (.lit "material.shininess") <;>
      simp only [hg, hs] at ih <;>
      simp [List.filter_cons, ht, hm, hg, hs, ih, uniformNamesWritten_append,
        uniformNamesWritten, GLCall.target]

theorem mem_uniformNamesWritten_opaquePass (shader : Shader) (models : Registry F) :
    ∀ n ∈ uniformNamesWritten shader (opaquePass shader models),
      n = .lit "isGlass" ∨ n = .lit "material.shininess" ∨ n = .lit "model"
        ∨ IsSamplerName n := by
  intro n hn
  rw [uniformNamesWritten_opaquePass, List.mem_flatMap] at hn
  obtain ⟨p, _, hp⟩ := hn
  simp only [List.mem_append, List.mem_singleton] at hp
  rcases hp with ((hp | hp) | hp) | hp
  · split_ifs at hp
    · exact Or.inl (List.mem_singleton.mp hp)
    · cases hp
  · split_ifs at hp
    · exact Or.inr (Or.inl (List.mem_singleton.mp hp))
    · cases hp
  · exact Or.inr (Or.inr (Or.inl hp))
  · cases hm : p.2.model with
    | none => rw [hm] at hp; cases hp
    | some model =>
      rw [hm] at hp
      exact Or.inr (Or.inr (Or.inr (isSamplerName_Model_Draw shader model n hp)))

end OpaqueNames

section MaterialWrites
variable {F : Type} [LinearOrderedField F]

theorem writesTo_material_drawTransparentObject (shader : Shader) (loc : Bool)
    (obj : TransparentObject F) (n : UniformName)
    (hn : n = .lit "material.ambient" ∨ n = .lit "material.specular") :
    writesTo n (drawTransparentObject shader loc obj)
      = if shader.hasUniform n then
          [GLCall.uniform3f n (transparentMaterial n obj.modelInfo)]
        else [] := by
  unfold drawTransparentObject
  rcases hn with rfl | rfl <;>
    cases loc <;> cases ha : shader.hasUniform (.lit "material.ambient") <;>
    cases hs : shader.hasUniform (.lit "material.specular") <;>
    simp [writesTo, GLCall.target, transparentMaterial]

theorem writesTo_material_renderTransparentObjects (glm : Glm F)
    (sort : List (TransparentObject F) → List (TransparentObject F))
    (shader : Shader) (models : Registry F) (cameraPos : Vec3 F) (loc glassOnly : Bool)
    (n : UniformName) (hn : n = .lit "material.ambient" ∨ n = .lit "material.specular") :
    writesTo n (renderTransparentObjects glm sort shader models cameraPos loc glassOnly)
      = if shader.hasUniform n then
          (drawnObjects
            (renderTransparentObjects glm sort shader models cameraPos loc glassOnly)).map
            (fun e => GLCall.uniform3f n (transparentMaterial n e.2))
        else [] := by
  rw [drawnObjects_renderTransparentObjects]
  unfold renderTransparentObjects
  simp only
  induction sort (collectTransparent glm models cameraPos glassOnly) with
  | nil => simp [writesTo]
  | cons o rest ih =>
    simp only [List.flatMap_cons, writesTo_append,
      writesTo_material_drawTransparentObject shader loc o n hn, ih, List.map_cons]
    split_ifs <;> simp

theorem writesTo_material_opaquePass (shader : Shader) (models : Registry F)
    (n : UniformName) (hn : n = .lit "material.ambient" ∨ n = .lit "material.specular") :
    writesTo n (opaquePass shader models) = [] := by
  induction models with
  | nil => rfl
  | cons p rest ih =>
    unfold opaquePass
    rcases hn with rfl | rfl <;>
      cases ht : p.2.isTransparent <;> cases hm : p.2.model <;>
      cases hg : shader.hasUniform (.lit "isGlass") <;>
      cases hs : shader.hasUniform (.lit "material.shininess") <;>
      simp [ih, ht, hm, hg, hs, writesTo_append, writesTo_cons, writesTo_nil, GLCall.target]

omit [LinearOrderedField F] in
theorem writesTo_material_depthPass (depthProgram : Nat) (models : Registry F)
    (n : UniformName) (hn : n = .lit "material.ambient" ∨ n = .lit "material.specular") :
    writesTo n (depthPass depthProgram models) = [] := by
  induction models with
  | nil => rfl
  | cons p rest ih =>
    unfold depthPass
    rcases hn with rfl | rfl <;>
      cases ht : p.2.isTransparent <;> cases hm : p.2.model <;>
      simp [ih, ht, hm, writesTo_append, writesTo_cons, writesTo_nil, GLCall.target]

theorem writesTo_material_dirLightSetup (glm : Glm F) (currentFrame : F)
    (n : UniformName) (hn : n = .lit "material.ambient" ∨ n = .lit "material.specular") :
    writesTo n (dirLightSetup glm currentFrame) = [] := by
  rcases hn with rfl | rfl <;> simp [dirLightSetup, writesTo, GLCall.target]

theorem writesTo_material_pointLightSetup
    (n : UniformName) (hn : n = .lit "material.ambient" ∨ n = .lit "material.specular") :
    writesTo n (pointLightSetup 20 : List (GLCall F)) = [] := by
  unfold pointLightSetup
  rcases hn with rfl | rfl <;>
    simp [writesTo_append, writesTo_pointLightBlocks_lit, writesTo_disablePointLights_lit,
      writesTo_cons, writesTo_nil, GLCall.target]

theorem writesTo_material_forwardDraws (glm : Glm F)
    (sort : List (TransparentObject F) → List (TransparentObject F))
    (shader : Shader) (models : Registry F) (drone : Drone F)
    (n : UniformName) (hn : n = .lit "material.ambient" ∨ n = .lit "material.specular") :
    writesTo n (forwardDraws glm sort shader models drone)
      = writesTo n (renderTransparentObjects glm sort shader models drone.position
            (shader.hasUniform (.lit "isGlass")) false)
        ++ writesTo n (renderTransparentObjects glm sort shader models drone.position
            (shader.hasUniform (.lit "isGlass")) true) := by
  unfold forwardDraws
  simp [writesTo_append, writesTo_cons, writesTo_nil, GLCall.target,
    writesTo_material_opaquePass shader models n hn]

end MaterialWrites

theorem frameWritesTo_append {F M : Type} (n : UniformName) (a b : List (FrameCall F M)) :
    frameWritesTo n (a ++ b) = frameWritesTo n a ++ frameWritesTo n b := by
  simp [frameWritesTo]

theorem frameWritesTo_map_gl {F M : Type} (n : UniformName) (calls : List (GLCall F)) :
    frameWritesTo n (calls.map (FrameCall.gl : GLCall F → FrameCall F M))
      = (writesTo n calls).map FrameCall.gl := by
  unfold frameWritesTo writesTo
  rw [List.filter_map]
  rfl

theorem uniform3After_append {F M : Type} (program : Nat) (n : UniformName)
    (s : Nat × Option (Vec3 F)) (a b : List (FrameCall F M)) :
    uniform3After program n s (a ++ b)
      = uniform3After program n (uniform3After program n s a) b := by
  simp [uniform3After, List.foldl_append]

theorem uniform3Step_of_not_target {F M : Type} (program : Nat) (n : UniformName)
    (s : Nat × Option (Vec3 F)) (c : FrameCall F M) (h : c.target ≠ some n) :
    (uniform3Step program n s c).2 = s.2 := by
  cases c with
  | gl d =>
    cases d with
    | uniform3f n2 v =>
      have hne : n2 ≠ n := fun e => h (by rw [← e]; rfl)
      simp [uniform3Step, hne]
    | _ => rfl
  | _ => rfl

theorem uniform3After_of_no_write {F M : Type} (program : Nat) (n : UniformName)
    (frame : List (FrameCall F M)) (s : Nat × Option (Vec3 F))
    (h : frameWritesTo n frame = []) : (uniform3After program n s frame).2 = s.2 := by
  induction frame generalizing s with
  | nil => rfl
  | cons c rest ih =>
    have hc : c.target ≠ some n := by
      intro e
      have : c ∈ frameWritesTo n (c :: rest) := by
        simp [frameWritesTo, e]
      rw [h] at this
      cases this
    have hrest : frameWritesTo n rest = [] := by
      have h2 := h
      simp only [frameWritesTo, List.filter_cons, hc, decide_False, Bool.false_eq_true,
        if_false] at h2
      exact h2
    show (uniform3After program n (uniform3Step program n s c) rest).2 = s.2
    rw [ih _ hrest, uniform3Step_of_not_target program n s c hc]

theorem uniform3After_map_gl_program {F M : Type} (program : Nat) (n : UniformName)
    (calls : List (GLCall F)) (s : Nat × Option (Vec3 F)) :
    (uniform3After program n s (calls.map (FrameCall.gl : GLCall F → FrameCall F M))).1
      = s.1 := by
  induction calls generalizing s with
  | nil => rfl
  | cons c rest ih =>
    show (uniform3After program n (uniform3Step program n s (FrameCall.gl c))
      (rest.map FrameCall.gl)).1 = s.1
    rw [ih]
    cases c with
    | uniform3f n2 v =>
      simp only [uniform3Step]
      split_ifs <;> rfl
    | _ => rfl

theorem uniform3After_uploads {F M : Type} [LinearOrderedField F] (program : Nat)
    (n : UniformName) (l : List (String × ModelInfo F)) (v : Option (Vec3 F)) :
    uniform3After program n (program, v)
        ((l.map (fun e => GLCall.uniform3f n (transparentMaterial n e.2))).map
          (FrameCall.gl : GLCall F → FrameCall F M))
      = (program, materialAfterDraws n v l) := by
  induction l generalizing v with
  | nil => rfl
  | cons a rest ih =>
    show uniform3After program n
      (uniform3Step program n (program, v)
        (FrameCall.gl (GLCall.uniform3f n (transparentMaterial n a.2)))) _ = _
    have hstep : uniform3Step program n (program, v)
        (FrameCall.gl (GLCall.uniform3f n (transparentMaterial n a.2)) : FrameCall F M)
          = (program, some (transparentMaterial n a.2)) := by
      simp [uniform3Step]
    rw [hstep, ih]
    cases rest with
    | nil => rfl
    | cons b rest2 =>
      unfold materialAfterDraws
      rw [List.getLast?_cons_cons]
      cases h : (b :: rest2).getLast? with
      | none => simp at h
      | some e => rfl

theorem uniform3After_map_gl {F M : Type} (program : Nat) (n : UniformName)
    (calls : List (GLCall F)) (s : Nat × Option (Vec3 F)) :
    uniform3After program n s (calls.map (FrameCall.gl : GLCall F → FrameCall F M))
      = uniform3After program n s
          ((writesTo n calls).map (FrameCall.gl : GLCall F → FrameCall F M)) := by
  induction calls generalizing s with
  | nil => rfl
  | cons c rest ih =>
    by_cases h : c.target = some n
    · have e : writesTo n (c :: rest) = c :: writesTo n rest := by
        simp [writesTo, List.filter_cons, h]
      rw [e]
      show uniform3After program n (uniform3Step program n s (FrameCall.gl c)) _
        = uniform3After program n (uniform3Step program n s (FrameCall.gl c)) _
      rw [ih]
    · have e : writesTo n (c :: rest) = writesTo n rest := by
        simp [writesTo, List.filter_cons, h]
      rw [e]
      show uniform3After program n (uniform3Step program n s (FrameCall.gl c)) _ = _
      have hs : uniform3Step program n s (FrameCall.gl c : FrameCall F M) = s := by
        cases c with
        | uniform3f n2 v =>
          have hne : n2 ≠ n := fun e2 => h (by rw [← e2]; rfl)
          simp [uniform3Step, hne]
        | _ => rfl
      rw [hs, ih]

theorem uniform3After_plain {F M : Type} (program : Nat) (n : UniformName)
    (frame : List (FrameCall F M)) (s : Nat × Option (Vec3 F))
    (h : ∀ c ∈ frame, c.isPlain = true) : (uniform3After program n s frame).1 = s.1 := by
  induction frame generalizing s with
  | nil => rfl
  | cons c rest ih =>
    show (uniform3After program n (uniform3Step program n s c) rest).1 = s.1
    rw [ih _ (fun d hd => h d (List.mem_cons_of_mem _ hd))]
    have hc := h c (List.mem_cons_self _ _)
    cases c with
    | useProgram p => cases hc
    | gl d =>
      cases d with
      | uniform3f n2 v =>
        simp only [uniform3Step]
        split_ifs <;> rfl
      | _ => rfl
    | _ => rfl

theorem uniform3After_cons {F M : Type} (program : Nat) (n : UniformName)
    (s : Nat × Option (Vec3 F)) (c : FrameCall F M) (rest : List (FrameCall F M)) :
    uniform3After program n s (c :: rest)
      = uniform3After program n (uniform3Step program n s c) rest := rfl

section FrameMaterial
variable {F M : Type} [LinearOrderedField F]

theorem frameWritesTo_material_frameSetup (glm : Glm F) (gm : GlmMatrix F M)
    (g : FrameGlobals) (shader : Shader) (models : Registry F) (drone : Drone F)
    (currentFrame : F) (n : UniformName)
    (hn : n = .lit "material.ambient" ∨ n = .lit "material.specular") :
    frameWritesTo n (frameSetup glm gm g shader models drone currentFrame) = [] := by
  unfold frameSetup
  simp only [frameWritesTo_append, frameWritesTo_map_gl, writesTo_material_depthPass _ _ n hn,
    writesTo_material_dirLightSetup _ _ n hn, writesTo_material_pointLightSetup n hn,
    List.map_nil, List.append_nil, List.nil_append, List.append_eq_nil]
  rcases hn with rfl | rfl <;>
    refine ⟨⟨⟨⟨⟨?_, ?_⟩, ?_⟩, ?_⟩, ?_⟩, ?_⟩ <;>
    first
      | (split_ifs <;> simp [frameWritesTo, FrameCall.target, GLCall.target])
      | simp [frameWritesTo, FrameCall.target, GLCall.target]

theorem uniform3After_frameSetup (glm : Glm F) (gm : GlmMatrix F M)
    (g : FrameGlobals) (shader : Shader) (models : Registry F) (drone : Drone F)
    (currentFrame : F) (program : Nat) (n : UniformName) (s : Nat × Option (Vec3 F))
    (hn : n = .lit "material.ambient" ∨ n = .lit "material.specular") :
    uniform3After program n s (frameSetup glm gm g shader models drone currentFrame)
      = (shader.program, s.2) := by
  have h2 := uniform3After_of_no_write program n _ s
    (frameWritesTo_material_frameSetup glm gm g shader models drone currentFrame n hn)
  have h1 : (uniform3After program n s
      (frameSetup glm gm g shader models drone currentFrame)).1 = shader.program := by
    unfold frameSetup
    simp only [List.append_assoc, List.cons_append, List.nil_append]
    simp only [uniform3After_cons, uniform3After_append]
    rw [uniform3After_plain _ _ _ _ (isPlain_ite _ _ (by simp [FrameCall.isPlain])),
      uniform3After_plain _ _ _ _ (isPlain_ite _ _ (by simp [FrameCall.isPlain])),
      uniform3After_map_gl_program, uniform3After_map_gl_program,
      uniform3After_plain _ _ _ _ (isPlain_ite _ _ (by simp [FrameCall.isPlain]))]
    have hm : ∀ t : Nat × Option (Vec3 F), (uniform3After program n t
        (if shader.hasUniform (.lit "lightSpaceMatrix") = true then
          [(FrameCall.uniformMatrix4fv (.lit "lightSpaceMatrix")
            (lightSpaceMatrix glm gm currentFrame) : FrameCall F M)] else [])).1 = t.1 := by
      intro t
      split_ifs <;> rfl
    rw [hm, uniform3After_plain _ _ _ _ (isPlain_ite _ _ (by simp [FrameCall.isPlain]))]
    rfl
  exact Prod.ext h1 h2

theorem renderFrame_split (glm : Glm F) (gm : GlmMatrix F M)
    (sort : List (TransparentObject F) → List (TransparentObject F))
    (g : FrameGlobals) (shader : Shader) (models : Registry F) (drone : Drone F)
    (currentFrame : F) :
    renderFrame glm gm sort g shader models drone currentFrame
      = (frameSetup glm gm g shader models drone currentFrame
          ++ (GLCall.depthMask true :: opaquePass shader models).map FrameCall.gl)
        ++ (GLCall.depthMask false ::
            (renderTransparentObjects glm sort shader models drone.position
                (shader.hasUniform (.lit "isGlass")) false
              ++ (renderTransparentObjects glm sort shader models drone.position
                (shader.hasUniform (.lit "isGlass")) true ++ [GLCall.depthMask true]))).map
            FrameCall.gl := by
  unfold renderFrame forwardDraws
  simp

theorem uniform3After_renderFrame (glm : Glm F) (gm : GlmMatrix F M)
    (sort : List (TransparentObject F) → List (TransparentObject F))
    (g : FrameGlobals) (shader : Shader) (models : Registry F) (drone : Drone F)
    (currentFrame : F) (program : Nat) (n : UniformName) (s : Nat × Option (Vec3 F))
    (hn : n = .lit "material.ambient" ∨ n = .lit "material.specular")
    (hprogram : program = shader.program) :
    uniform3After program n s (renderFrame glm gm sort g shader models drone currentFrame)
      = (shader.program,
          if shader.hasUniform n then
            materialAfterDraws n s.2
              (drawnObjects (renderTransparentObjects glm sort shader models drone.position
                  (shader.hasUniform (.lit "isGlass")) false)
                ++ drawnObjects (renderTransparentObjects glm sort shader models
                  drone.position (shader.hasUniform (.lit "isGlass")) true))
          else s.2) := by
  subst hprogram
  unfold renderFrame
  rw [uniform3After_append, uniform3After_frameSetup _ _ _ _ _ _ _ _ _ _ hn,
    uniform3After_map_gl, writesTo_material_forwardDraws _ _ _ _ _ _ hn,
    writesTo_material_renderTransparentObjects _ _ _ _ _ _ _ _ hn,
    writesTo_material_renderTransparentObjects _ _ _ _ _ _ _ _ hn]
  cases shader.hasUniform n
  · rfl
  · simp only [if_true, ← List.map_append]
    exact uniform3After_uploads shader.program n _ s.2

theorem frameWritesTo_material_renderFrame (glm : Glm F) (gm : GlmMatrix F M)
    (sort : List (TransparentObject F) → List (TransparentObject F))
    (g : FrameGlobals) (shader : Shader) (models : Registry F) (drone : Drone F)
    (currentFrame : F) (n : UniformName)
    (hn : n = .lit "material.ambient" ∨ n = .lit "material.specular") :
    frameWritesTo n (renderFrame glm gm sort g shader models drone currentFrame)
      = (writesTo n (renderTransparentObjects glm sort shader models drone.position
              (shader.hasUniform (.lit "isGlass")) false)
          ++ writesTo n (renderTransparentObjects glm sort shader models drone.position
              (shader.hasUniform (.lit "isGlass")) true)).map FrameCall.gl := by
  unfold renderFrame
  rw [frameWritesTo_append, frameWritesTo_material_frameSetup _ _ _ _ _ _ _ _ hn,
    frameWritesTo_map_gl, writesTo_material_forwardDraws _ _ _ _ _ _ hn, List.nil_append]

theorem frameWritesTo_material_opaque_part (glm : Glm F) (gm : GlmMatrix F M)
    (g : FrameGlobals) (shader : Shader) (models : Registry F) (drone : Drone F)
    (currentFrame : F) (n : UniformName)
    (hn : n = .lit "material.ambient" ∨ n = .lit "material.specular") :
    frameWritesTo n (frameSetup glm gm g shader models drone currentFrame
      ++ (GLCall.depthMask true :: opaquePass shader models).map FrameCall.gl) = [] := by
  rw [frameWritesTo_append, frameWritesTo_material_frameSetup _ _ _ _ _ _ _ _ hn,
    frameWritesTo_map_gl, writesTo_cons, writesTo_material_opaquePass _ _ _ hn]
  simp [GLCall.target]

/-- **C29** (amended) The forward opaque loop never writes `material.ambient` or
`material.specular`: the uniform names it writes, the writes inside its `Model::Draw` calls
included, are `isGlass`, `material.shininess`, `model` and sampler names
`material.texture_diffuse<k>` / `material.texture_specular<k>`. In a frame the two uniforms
are written only by the two `renderTransparentObjects` calls. So after a frame the uniform
of the forward program holds, when the shader has the uniform and the frame drew a
transparent object, the value uploaded for the last transparent object drawn (otherwise the
value it had before the frame), and it keeps that value at every point of the next frame up
to the end of the opaque loop. -/
theorem material_uniforms_persist (glm : Glm F) (gm : GlmMatrix F M)
    (sort : List (TransparentObject F) → List (TransparentObject F))
    (g : FrameGlobals) (shader : Shader) (models : Registry F) (drone1 drone2 : Drone F)
    (frame1 frame2 : F) (n : UniformName) (s : Nat × Option (Vec3 F))
    (hn : n = .lit "material.ambient" ∨ n = .lit "material.specular") :
    (∀ x ∈ uniformNamesWritten shader (opaquePass shader models),
        x = .lit "isGlass" ∨ x = .lit "material.shininess" ∨ x = .lit "model"
          ∨ IsSamplerName x)
    ∧ n ∉ uniformNamesWritten shader (opaquePass shader models)
    ∧ frameWritesTo n (renderFrame glm gm sort g shader models drone2 frame2)
        = (writesTo n (renderTransparentObjects glm sort shader models drone2.position
                (shader.hasUniform (.lit "isGlass")) false)
            ++ writesTo n (renderTransparentObjects glm sort shader models drone2.position
                (shader.hasUniform (.lit "isGlass")) true)).map FrameCall.gl
    ∧ (∃ rest, renderFrame glm gm sort g shader models drone2 frame2
        = (frameSetup glm gm g shader models drone2 frame2
            ++ (GLCall.depthMask true :: opaquePass shader models).map FrameCall.gl) ++ rest)
    ∧ ∀ pre post,
        frameSetup glm gm g shader models drone2 frame2
            ++ (GLCall.depthMask true :: opaquePass shader models).map FrameCall.gl
          = pre ++ post →
        (uniform3After shader.program n s
          (renderFrame glm gm sort g shader models drone1 frame1 ++ pre)).2
          = if shader.hasUniform n then
              materialAfterDraws n s.2
                (drawnObjects (renderTransparentObjects glm sort shader models
                    drone1.position (shader.hasUniform (.lit "isGlass")) false)
                  ++ drawnObjects (renderTransparentObjects glm sort shader models
                    drone1.position (shader.hasUniform (.lit "isGlass")) true))
            else s.2 := by
  refine ⟨mem_uniformNamesWritten_opaquePass shader models, ?_,
    frameWritesTo_material_renderFrame glm gm sort g shader models drone2 frame2 n hn,
    ⟨_, renderFrame_split glm gm sort g shader models drone2 frame2⟩, ?_⟩
  · intro hmem
    rcases mem_uniformNamesWritten_opaquePass shader models n hmem with h | h | h | h
    · rcases hn with rfl | rfl <;> simp at h
    · rcases hn with rfl | rfl <;> simp at h
    · rcases hn with rfl | rfl <;> simp at h
    · rcases hn with rfl | rfl
      · exact not_isSamplerName_ambient h
      · exact not_isSamplerName_specular h
  · intro pre post hsplit
    have hno := frameWritesTo_material_opaque_part glm gm g shader models drone2 frame2 n hn
    rw [hsplit, frameWritesTo_append, List.append_eq_nil] at hno
    rw [uniform3After_append, uniform3After_of_no_write _ _ _ _ hno.1,
      uniform3After_renderFrame glm gm sort g shader models drone1 frame1 _ n s hn rfl]

end FrameMaterial

/-- Counterexample to C29 as stated. The opaque loop of a scene with one opaque model writes,
inside `Model::Draw`, the sampler uniform `material.texture_diffuse1`, which is none of
`isGlass`, `material.shininess`, `model`. And in that scene, which has no transparent entry,
`material.ambient` is still without any uploaded value at the end of the opaque loop of the
second frame: no transparent object has set it. -/
theorem opaque_loop_writes_sampler :
    (∃ x ∈ uniformNamesWritten fullShader
        (opaquePass fullShader oneOpaqueScene : List (GLCall ℚ)),
      x ≠ .lit "isGlass" ∧ x ≠ .lit "material.shininess" ∧ x ≠ .lit "model")
    ∧ (uniform3After fullShader.program (.lit "material.ambient") (0, none)
        (renderFrame (⟨fun _ => 0, id, id, id, id⟩ : Glm ℚ) unitMatrices insertionStdSort
            ⟨2, 1, 1⟩ fullShader oneOpaqueScene Drone.initial 0
          ++ (frameSetup (⟨fun _ => 0, id, id, id, id⟩ : Glm ℚ) unitMatrices ⟨2, 1, 1⟩
              fullShader oneOpaqueScene Drone.initial 1
            ++ (GLCall.depthMask true :: opaquePass fullShader oneOpaqueScene).map
                FrameCall.gl))).2 = none := by
  refine ⟨by decide, ?_⟩
  rw [uniform3After_append, uniform3After_of_no_write _ _ _ _
      (frameWritesTo_material_opaque_part _ _ _ _ _ _ _ _ (Or.inl rfl)),
    uniform3After_renderFrame _ _ _ _ _ _ _ _ _ _ _ (Or.inl rfl) rfl]
  have h1 : drawnObjects (renderTransparentObjects (⟨fun _ => 0, id, id, id, id⟩ : Glm ℚ)
      insertionStdSort fullShader oneOpaqueScene (Drone.initial : Drone ℚ).position
      (fullShader.hasUniform (.lit "isGlass")) false) = [] := by decide
  have h2 : drawnObjects (renderTransparentObjects (⟨fun _ => 0, id, id, id, id⟩ : Glm ℚ)
      insertionStdSort fullShader oneOpaqueScene (Drone.initial : Drone ℚ).position
      (fullShader.hasUniform (.lit "isGlass")) true) = [] := by decide
  rw [h1, h2]
  rfl

/-- Witness for the amended C29: in a scene whose last transparent object drawn is the glass
entry `Windows`, `material.ambient` holds the glass value `(0.05, 0.05, 0.08)` after a frame
and at the start of the next one. -/
theorem material_uniforms_persist_witness :
    (uniform3After fullShader.program (.lit "material.ambient") (0, none)
      (renderFrame (⟨fun _ => 0, id, id, id, id⟩ : Glm ℚ) unitMatrices insertionStdSort
          ⟨2, 1, 1⟩ fullShader misflaggedScene Drone.initial 0 ++ [])).2
      = some ⟨5 / 100, 5 / 100, 8 / 100⟩ := by
  rw [(material_uniforms_persist (⟨fun _ => 0, id, id, id, id⟩ : Glm ℚ) unitMatrices
    insertionStdSort ⟨2, 1, 1⟩ fullShader misflaggedScene Drone.initial Drone.initial 0 1
    (.lit "material.ambient") (0, none) (Or.inl rfl)).2.2.2.2 [] _ rfl]
  have h1 : drawnObjects (renderTransparentObjects (⟨fun _ => 0, id, id, id, id⟩ : Glm ℚ)
      insertionStdSort fullShader misflaggedScene (Drone.initial : Drone ℚ).position
      (fullShader.hasUniform (.lit "isGlass")) true)
      = [("Windows", transparentAt ⟨0, 0, 0⟩ true)] := by decide
  rw [h1]
  simp [materialAfterDraws, transparentMaterial, transparentAt, fullShader]

end IdleState
